import Mathlib

/-!
# Ecasound processing engine (libecasound/eca-main.cpp)

A shallow embedding of `ECA_PROCESSOR`: the engine state is an explicit record,
every member function is a function on that record, calls on audio objects are
recorded in a trace, and sample arithmetic is exact (rational samples).
-/

namespace Ecasound

/-! ## Sample buffers -/

/-- Modelled from the spec: SAMPLE_BUFFER (samplebuffer.h is not among the
sources).  A block of samples addressed by channel and frame, with its channel
count and its length in frames.  Samples are exact rationals. -/
structure SAMPLE_BUFFER where
  channel_count_rep : Nat
  buffersize_rep : Nat
  buffer : Nat → Nat → ℚ

namespace SAMPLE_BUFFER

/-- Modelled from the spec: the constructor `SAMPLE_BUFFER(buffersize, channels)`
gives a silent block. -/
def create (buffersize channels : Nat) : SAMPLE_BUFFER :=
  { channel_count_rep := channels, buffersize_rep := buffersize, buffer := fun _ _ => 0 }

/-- Modelled from the spec: `number_of_channels(n)` (spec: `resize_channels`) sets
the channel count; stored samples are kept. -/
def number_of_channels (b : SAMPLE_BUFFER) (n : Nat) : SAMPLE_BUFFER :=
  { b with channel_count_rep := n }

/-- Modelled from the spec: `length_in_samples(n)` (spec: `resize_frames`) sets the
length in frames; stored samples are kept. -/
def length_in_samples (b : SAMPLE_BUFFER) (n : Nat) : SAMPLE_BUFFER :=
  { b with buffersize_rep := n }

/-- Modelled from the spec: `make_silent` zeroes every sample of the block. -/
def make_silent (b : SAMPLE_BUFFER) : SAMPLE_BUFFER :=
  { b with buffer := fun q t =>
      if q < b.channel_count_rep ∧ t < b.buffersize_rep then 0 else b.buffer q t }

/-- Modelled from the spec: `copy(src)` takes the length of `src` and its samples on
the channels both blocks have; other destination channels are left untouched. -/
def copy (b x : SAMPLE_BUFFER) : SAMPLE_BUFFER :=
  { channel_count_rep := b.channel_count_rep
    buffersize_rep := x.buffersize_rep
    buffer := fun q t =>
      if q < min b.channel_count_rep x.channel_count_rep ∧ t < x.buffersize_rep
      then x.buffer q t else b.buffer q t }

/-- Modelled from the spec: `divide_by(n)` divides every sample of the block. -/
def divide_by (b : SAMPLE_BUFFER) (d : Nat) : SAMPLE_BUFFER :=
  { b with buffer := fun q t =>
      if q < b.channel_count_rep ∧ t < b.buffersize_rep then b.buffer q t / (d : ℚ)
      else b.buffer q t }

/-- Modelled from the spec: `add_with_weight(src, w)` adds `src[i]/w` elementwise on
the channels both blocks have; other destination channels are left untouched. -/
def add_with_weight (b x : SAMPLE_BUFFER) (w : Nat) : SAMPLE_BUFFER :=
  { b with buffer := fun q t =>
      if q < min b.channel_count_rep x.channel_count_rep ∧ t < x.buffersize_rep
      then b.buffer q t + x.buffer q t / (w : ℚ) else b.buffer q t }

end SAMPLE_BUFFER

instance : Inhabited SAMPLE_BUFFER := ⟨SAMPLE_BUFFER.create 0 0⟩

/-! ## Audio objects, chains, chainsetup -/

/-- An audio object (`AUDIO_IO*` pointee).  `id` is the identity of the object,
`is_device` tells whether `dynamic_cast<AUDIO_IO_DEVICE*>` succeeds on it. -/
structure AUDIO_IO where
  id : Nat
  is_device : Bool
  channels : Nat
  position_in_samples : Int
  length_in_samples : Int
deriving DecidableEq, Repr

/-- Modelled from the spec: CHAIN (eca-chain.h is not among the sources).  The two
endpoint pointers (`none` is the null pointer of a released chain), the mute and
processing switches, and the chain operators as functions on the bound buffer. -/
structure CHAIN where
  input_id_repp : Option AUDIO_IO
  output_id_repp : Option AUDIO_IO
  muted : Bool
  processing : Bool
  chainops_rep : List (SAMPLE_BUFFER → SAMPLE_BUFFER)

/-- Modelled from the spec: `CHAIN::process()` (§4.4): a muted chain zeroes its
buffer, a bypassed chain leaves it, otherwise the operators run in insertion
order. -/
def CHAIN.process (c : CHAIN) (b : SAMPLE_BUFFER) : SAMPLE_BUFFER :=
  if c.muted then b.make_silent
  else if !c.processing then b
  else c.chainops_rep.foldl (fun acc f => f acc) b

/-- Mixmode of a chainsetup (`ECA_CHAINSETUP::ep_mm_*`). -/
inductive Mixmode where
  | ep_mm_auto
  | ep_mm_simple
  | ep_mm_normal
deriving DecidableEq, Repr

/-- Modelled from the spec: ECA_CHAINSETUP (eca-chainsetup.h is not among the
sources): the endpoints, the chains and the settings the engine reads. -/
structure ECA_CHAINSETUP where
  inputs : List AUDIO_IO
  outputs : List AUDIO_IO
  chains : List CHAIN
  buffersize : Nat
  sample_rate : Nat
  mixmode : Mixmode
  double_buffering : Bool
  double_buffer_size : Nat
  length_set : Bool
  looping_enabled : Bool
  position_in_samples : Int
  length_in_samples : Int

/-- Modelled from the spec: `ECA_CHAINSETUP::is_over()`: the position has passed
the length. -/
def ECA_CHAINSETUP.is_over (c : ECA_CHAINSETUP) : Bool :=
  decide (c.length_in_samples < c.position_in_samples)

/-- Session status (`ECA_SESSION::ep_status_*`). -/
inductive Status where
  | ep_status_notready
  | ep_status_stopped
  | ep_status_running
  | ep_status_finished
deriving DecidableEq, Repr

/-- Modelled from the spec: ECA_SESSION (eca-session.h is not among the sources):
the fields of `eparams` the engine reads and writes. -/
structure ECA_SESSION where
  status : Status
  multitrack_mode_rep : Bool
  raised_priority : Bool
  schedpriority_rep : Int
  iactive_rep : Bool
  connected_chainsetup_repp : Option ECA_CHAINSETUP

/-- Modelled from the spec: `number_of_connected_chains_to_input` (§4.5 step 4):
the number of chains whose input is the given object. -/
def number_of_connected_chains_to_input (chains : List CHAIN) (aiod : AUDIO_IO) : Nat :=
  chains.countP (fun c => decide (c.input_id_repp = some aiod))

/-- Modelled from the spec: `number_of_connected_chains_to_output` (§4.5 step 4):
the number of chains whose output is the given object. -/
def number_of_connected_chains_to_output (chains : List CHAIN) (aiod : AUDIO_IO) : Nat :=
  chains.countP (fun c => decide (c.output_id_repp = some aiod))

/-! ## Engine state -/

/-- Calls the engine makes on audio objects, in the order they happen.  Reads and
writes go to `(*r_inputs)[i]` / `(*r_outputs)[i]` and are recorded by slot index;
`input = true` marks an entry of the input vector. -/
inductive Event where
  | buffersize (input : Bool) (i : Nat) (n : Int)
  | seek_position_in_samples (input : Bool) (i : Nat) (pos : Int)
  | seek_position_in_samples_advance (obj : AUDIO_IO) (n : Int)
  | read_buffer (i : Nat)
  | write_buffer (i : Nat) (b : SAMPLE_BUFFER)

/-- The state of an `ECA_PROCESSOR` together with the session fields it owns
(`eparams`), the connected chainsetup (`csetup`; `inputs`, `outputs` and `chains`
alias its vectors), what the proxy server was configured with
(`pserver_buffer_count`, `pserver_schedpriority`), the realtime devices whose clock
is running (`clock_running`, by object id) and the trace of calls on audio
objects. -/
structure ECA_PROCESSOR where
  eparams : ECA_SESSION
  csetup : ECA_CHAINSETUP
  mixslot : SAMPLE_BUFFER
  buffersize_rep : Nat
  cslots : List SAMPLE_BUFFER
  realtime_inputs : List AUDIO_IO
  realtime_outputs : List AUDIO_IO
  realtime_objects : List AUDIO_IO
  non_realtime_inputs : List AUDIO_IO
  non_realtime_outputs : List AUDIO_IO
  non_realtime_objects : List AUDIO_IO
  proxy_inputs : List AUDIO_IO
  proxy_outputs : List AUDIO_IO
  chain_ready_for_submix : List Bool
  input_start_pos : List Int
  output_start_pos : List Int
  input_chain_count : List Nat
  output_chain_count : List Nat
  input_count : Nat
  output_count : Nat
  chain_count : Nat
  max_channels : Nat
  active_chain_index : Nat
  continue_request : Bool
  end_request : Bool
  rt_running : Bool
  trigger_counter_rep : Nat
  trigger_outputs_request : Bool
  input_not_finished : Bool
  processing_range_set : Bool
  was_running : Bool
  mixmode_rep : Mixmode
  multitrack_input_stamp_rep : Int
  pserver_buffer_count : Nat
  pserver_schedpriority : Int
  clock_running : List Nat
  trace : List Event

/-! ## Mixing chains to outputs -/

/-- Loop state of the chain loop inside `mix_to_outputs` / `multitrack_sync`. -/
structure MixLoop where
  count : Nat
  mixslot : SAMPLE_BUFFER
  cslots : List SAMPLE_BUFFER
  trace : List Event

/-- The chain loop of `mix_to_outputs` (`for n != chain_count`) for the output
`out = (*outputs)[slot]` with `k = output_chain_count[slot]`; `bs` is
`buffersize_rep`.  The list enumerates `(n, (*chains)[n])`; the `break` ends the
recursion. -/
def mix_to_outputs_chains (out : AUDIO_IO) (slot k bs : Nat) :
    List (Nat × CHAIN) → MixLoop → MixLoop
  | [], st => st
  | (n, c) :: rest, st =>
    if c.output_id_repp = none then
      mix_to_outputs_chains out slot k bs rest st
    else if c.output_id_repp = some out then
      if k = 1 then
        { st with
          trace := st.trace ++ [Event.write_buffer slot (st.cslots.getD n default)]
          cslots := st.cslots.set n ((st.cslots.getD n default).length_in_samples bs) }
      else
        let count := st.count + 1
        let mixslot :=
          if count = 1 then (st.mixslot.copy (st.cslots.getD n default)).divide_by k
          else st.mixslot.add_with_weight (st.cslots.getD n default) k
        if count = k then
          mix_to_outputs_chains out slot k bs rest
            { st with
              count := count
              trace := st.trace ++ [Event.write_buffer slot mixslot]
              mixslot := mixslot.length_in_samples bs }
        else
          mix_to_outputs_chains out slot k bs rest
            { st with count := count, mixslot := mixslot }
    else
      mix_to_outputs_chains out slot k bs rest st

/-- One round of the output loop of `mix_to_outputs` for `(*outputs)[slot] = out`. -/
def mix_to_outputs_step (e : ECA_PROCESSOR) (slot : Nat) (out : AUDIO_IO) : ECA_PROCESSOR :=
  let st := mix_to_outputs_chains out slot (e.output_chain_count.getD slot 0) e.buffersize_rep
    e.csetup.chains.enum
    { count := 0
      mixslot := e.mixslot.number_of_channels out.channels
      cslots := e.cslots
      trace := e.trace }
  { e with mixslot := st.mixslot, cslots := st.cslots, trace := st.trace }

/-- `ECA_PROCESSOR::mix_to_outputs`: the loop over the output slots
(`output_count = outputs->size()`, `chain_count = chains->size()`). -/
def mix_to_outputs (e : ECA_PROCESSOR) : ECA_PROCESSOR :=
  e.csetup.outputs.enum.foldl (fun acc p => mix_to_outputs_step acc p.1 p.2) e

/-- The blocks passed to `write_buffer` on output slot `i`, oldest first. -/
def writes_to (i : Nat) : List Event → List SAMPLE_BUFFER
  | [] => []
  | Event.write_buffer j b :: rest =>
    if j = i then b :: writes_to i rest else writes_to i rest
  | _ :: rest => writes_to i rest

/-- The output slots `write_buffer` was called on, oldest first. -/
def written_slots : List Event → List Nat
  | [] => []
  | Event.write_buffer j _ :: rest => j :: written_slots rest
  | _ :: rest => written_slots rest

/-- An `ECA_ERROR` exception. -/
structure ECA_ERROR where
  error_section : String
  error_message : String
deriving DecidableEq, Repr

/-- The exception of `init_inputs`. -/
def error_no_inputs : ECA_ERROR :=
  { error_section := "ECA_PROCESSOR"
    error_message := "Engine startup aborted, session in corrupted state: no inputs!" }

/-- The exception of `init_outputs`. -/
def error_no_outputs : ECA_ERROR :=
  { error_section := "ECA_PROCESSOR"
    error_message := "Engine startup aborted, session in corrupted state: no outputs!" }

/-- The exception of `init_chains`. -/
def error_no_chains : ECA_ERROR :=
  { error_section := "ECA_PROCESSOR"
    error_message := "Engine startup aborted, session in corrupted state: no chains!" }

/-- Result of the setup code: the initialised engine, or the exception that was
thrown together with the calls on audio objects made before the throw, or
`null_dereference` when a null pointer was dereferenced (undefined behaviour). -/
inductive Outcome where
  | done (e : ECA_PROCESSOR)
  | thrown (err : ECA_ERROR) (trace : List Event)
  | null_dereference

/-- `dynamic_cast<AUDIO_IO_DEVICE*>(p)`: the pointer itself for a realtime device,
null otherwise (and for a null pointer). -/
def dynamic_cast_device (p : Option AUDIO_IO) : Option AUDIO_IO :=
  match p with
  | some a => if a.is_device then some a else none
  | none => none

/-- `vector::resize(n)` with new entries value-initialised to `d`. -/
def vector_resize {α : Type} (xs : List α) (n : Nat) (d : α) : List α :=
  (xs ++ List.replicate (n - xs.length) d).take n

/-- Modelled from the spec: `SAMPLE_SPECS::channel_count_default` (sample-specs.h is
not among the sources); only the initial channel count of `mixslot`, which
`init_outputs` overwrites. -/
def channel_count_default : Nat := 2

/-- The members of a freshly constructed `ECA_PROCESSOR(params)` before `init()`
runs: the member initialisers of the constructor, every vector empty, no device
clock running, nothing called yet.  Scalars that `init()` assigns before reading
start at their zero value. -/
def ECA_PROCESSOR.members (params : ECA_SESSION) (cs : ECA_CHAINSETUP) : ECA_PROCESSOR :=
  { eparams := params
    csetup := cs
    mixslot := SAMPLE_BUFFER.create cs.buffersize channel_count_default
    buffersize_rep := cs.buffersize
    cslots := []
    realtime_inputs := []
    realtime_outputs := []
    realtime_objects := []
    non_realtime_inputs := []
    non_realtime_outputs := []
    non_realtime_objects := []
    proxy_inputs := []
    proxy_outputs := []
    chain_ready_for_submix := []
    input_start_pos := []
    output_start_pos := []
    input_chain_count := []
    output_chain_count := []
    input_count := 0
    output_count := 0
    chain_count := 0
    max_channels := 0
    active_chain_index := 0
    continue_request := false
    end_request := false
    rt_running := false
    trigger_counter_rep := 0
    trigger_outputs_request := false
    input_not_finished := false
    processing_range_set := false
    was_running := false
    mixmode_rep := cs.mixmode
    multitrack_input_stamp_rep := 0
    pserver_buffer_count := 0
    pserver_schedpriority := 0
    clock_running := []
    trace := [] }

/-- `ECA_PROCESSOR::init_variables`. -/
def init_variables (e : ECA_PROCESSOR) : ECA_PROCESSOR :=
  { e with
    active_chain_index := 0
    max_channels := 0
    continue_request := false
    end_request := false
    rt_running := false
    trigger_counter_rep := 0 }

/-- `ECA_PROCESSOR::init_pserver`: the arguments handed to the proxy server
(`double_buffer_size() / buffersize_rep` is the integer division of the source). -/
def init_pserver (e : ECA_PROCESSOR) : ECA_PROCESSOR :=
  { e with
    pserver_buffer_count := e.csetup.double_buffer_size / e.buffersize_rep
    pserver_schedpriority := e.eparams.schedpriority_rep - 1 }

/-- Body of the loop of `init_inputs` for `(*inputs)[i] = a`; the second component
is the local `max_input_length`. -/
def init_inputs_step (st : ECA_PROCESSOR × Int) (p : Nat × AUDIO_IO) : ECA_PROCESSOR × Int :=
  let e := st.1
  let i := p.1
  let a := p.2
  let e1 :=
    match dynamic_cast_device (some a) with
    | some d =>
      { e with
        realtime_inputs := e.realtime_inputs ++ [d]
        realtime_objects := e.realtime_objects ++ [d] }
    | none =>
      { e with
        non_realtime_inputs := e.non_realtime_inputs ++ [a]
        non_realtime_objects := e.non_realtime_objects ++ [a] }
  let e2 := { e1 with trace := e1.trace ++ [Event.buffersize true i e1.buffersize_rep] }
  let e3 := if a.channels > e2.max_channels then { e2 with max_channels := a.channels } else e2
  let e4 := { e3 with input_start_pos := e3.input_start_pos.set i a.position_in_samples }
  let e5 := { e4 with
    trace := e4.trace ++ [Event.seek_position_in_samples true i (e4.input_start_pos.getD i 0)] }
  let e6 := { e5 with
    input_chain_count :=
      e5.input_chain_count.set i (number_of_connected_chains_to_input e5.csetup.chains a) }
  (e6, if a.length_in_samples > st.2 then a.length_in_samples else st.2)

/-- `ECA_PROCESSOR::init_inputs`.  With double buffering the non-realtime entries
of `r_inputs` are proxy clients in front of the same objects. -/
def init_inputs (e : ECA_PROCESSOR) : Outcome :=
  let e1 := { e with input_not_finished := true }
  let e2 := if e1.csetup.double_buffering != true then e1
    else { e1 with proxy_inputs := e1.proxy_inputs ++ e1.csetup.inputs }
  let e3 := { e2 with input_count := e2.csetup.inputs.length }
  if e3.csetup.inputs.length = 0 then
    Outcome.thrown error_no_inputs
      e3.trace
  else
    let e4 := { e3 with
      input_start_pos := vector_resize e3.input_start_pos e3.input_count 0
      input_chain_count := vector_resize e3.input_chain_count e3.input_count 0 }
    let st := e4.csetup.inputs.enum.foldl init_inputs_step (e4, 0)
    let e5 := st.1
    if e5.csetup.length_set = false then
      Outcome.done { e5 with
        processing_range_set := false
        csetup := { e5.csetup with length_in_samples := st.2 } }
    else
      Outcome.done { e5 with processing_range_set := true }

/-- Body of the loop of `init_outputs` for `(*outputs)[i] = a`. -/
def init_outputs_step (e : ECA_PROCESSOR) (p : Nat × AUDIO_IO) : ECA_PROCESSOR :=
  let i := p.1
  let a := p.2
  let e1 :=
    match dynamic_cast_device (some a) with
    | some d =>
      { e with
        realtime_outputs := e.realtime_outputs ++ [d]
        realtime_objects := e.realtime_objects ++ [d] }
    | none =>
      { e with
        non_realtime_outputs := e.non_realtime_outputs ++ [a]
        non_realtime_objects := e.non_realtime_objects ++ [a] }
  let e2 := { e1 with trace := e1.trace ++ [Event.buffersize false i e1.buffersize_rep] }
  let e3 := if a.channels > e2.max_channels then { e2 with max_channels := a.channels } else e2
  let e4 := { e3 with output_start_pos := e3.output_start_pos.set i a.position_in_samples }
  let e5 := { e4 with
    trace := e4.trace ++ [Event.seek_position_in_samples false i (e4.output_start_pos.getD i 0)] }
  { e5 with
    output_chain_count :=
      e5.output_chain_count.set i (number_of_connected_chains_to_output e5.csetup.chains a) }

/-- `ECA_PROCESSOR::init_outputs`. -/
def init_outputs (e : ECA_PROCESSOR) : Outcome :=
  let e1 := { e with trigger_outputs_request := false }
  let e2 := if e1.csetup.double_buffering != true then e1
    else { e1 with proxy_outputs := e1.proxy_outputs ++ e1.csetup.outputs }
  let e3 := { e2 with output_count := e2.csetup.outputs.length }
  if e3.csetup.outputs.length = 0 then
    Outcome.thrown error_no_outputs
      e3.trace
  else
    let e4 := { e3 with
      output_start_pos := vector_resize e3.output_start_pos e3.output_count 0
      output_chain_count := vector_resize e3.output_chain_count e3.output_count 0 }
    let e5 := e4.csetup.outputs.enum.foldl init_outputs_step e4
    Outcome.done { e5 with mixslot := e5.mixslot.number_of_channels e5.max_channels }

/-- `ECA_PROCESSOR::init_chains`: `cslots` grows to one block per chain. -/
def init_chains (e : ECA_PROCESSOR) : Outcome :=
  let e1 := { e with chain_count := e.csetup.chains.length }
  if e1.csetup.chains.length = 0 then
    Outcome.thrown error_no_chains
      e1.trace
  else
    Outcome.done { e1 with
      chain_ready_for_submix := List.replicate e1.chain_count false
      cslots := e1.cslots ++ List.replicate (e1.csetup.chains.length - e1.cslots.length)
        (SAMPLE_BUFFER.create e1.buffersize_rep e1.max_channels) }

/-- `ECA_PROCESSOR::init_connection_to_chainsetup` once `csetup` is known to be
non-null: a throw of a stage skips the stages after it. -/
def init_connection_to_chainsetup (e : ECA_PROCESSOR) : Outcome :=
  match init_inputs (init_pserver e) with
  | Outcome.thrown err tr => Outcome.thrown err tr
  | Outcome.null_dereference => Outcome.null_dereference
  | Outcome.done e1 =>
    match init_outputs e1 with
    | Outcome.thrown err tr => Outcome.thrown err tr
    | Outcome.null_dereference => Outcome.null_dereference
    | Outcome.done e2 => init_chains e2

/-- `ECA_PROCESSOR::init_multitrack_mode`. -/
def init_multitrack_mode (e : ECA_PROCESSOR) : ECA_PROCESSOR :=
  if e.realtime_inputs.length > 0 ∧
      e.realtime_outputs.length > 0 ∧
      e.non_realtime_inputs.length > 0 ∧
      e.non_realtime_outputs.length > 0 ∧
      e.chain_count > 1 then
    { e with eparams := { e.eparams with multitrack_mode_rep := true } }
  else e

/-- The mixmode computed by `init_mix_method` from the configured mixmode, the
multitrack flag and the three counts. -/
def resolve_mixmode (configured : Mixmode) (multitrack_mode_rep : Bool)
    (chain_count input_count output_count : Nat) : Mixmode :=
  let m0 := if multitrack_mode_rep = true then Mixmode.ep_mm_normal else configured
  if m0 = Mixmode.ep_mm_auto then
    if chain_count = 1 ∧ input_count = 1 ∧ output_count = 1 then Mixmode.ep_mm_simple
    else Mixmode.ep_mm_normal
  else if m0 = Mixmode.ep_mm_simple ∧
      (chain_count > 1 ∨ input_count > 1 ∨ output_count > 1) then
    Mixmode.ep_mm_normal
  else m0

/-- `ECA_PROCESSOR::init_mix_method`. -/
def init_mix_method (e : ECA_PROCESSOR) : ECA_PROCESSOR :=
  { e with
    mixmode_rep := resolve_mixmode e.csetup.mixmode e.eparams.multitrack_mode_rep
      e.chain_count e.input_count e.output_count }

/-- `ECA_PROCESSOR::init(void)` on the constructed members. -/
def ECA_PROCESSOR.init (e : ECA_PROCESSOR) : Outcome :=
  let e1 := { e with eparams := { e.eparams with status := Status.ep_status_stopped } }
  match init_connection_to_chainsetup (init_variables e1) with
  | Outcome.thrown err tr => Outcome.thrown err tr
  | Outcome.null_dereference => Outcome.null_dereference
  | Outcome.done e2 => Outcome.done (init_mix_method (init_multitrack_mode e2))

/-- The constructor `ECA_PROCESSOR(ECA_SESSION* params)`: member initialisers, then
`init()`.  The initialisers of `mixslot` and `buffersize_rep` read
`params->connected_chainsetup_repp->buffersize()`: without a connected chainsetup
the null pointer is dereferenced there, before `init_connection_to_chainsetup`
can test it and throw. -/
def ECA_PROCESSOR.construct (params : ECA_SESSION) : Outcome :=
  match params.connected_chainsetup_repp with
  | none => Outcome.null_dereference
  | some cs => ECA_PROCESSOR.init (ECA_PROCESSOR.members params cs)

/-! ## Reading inputs and processing chains -/

/-- What the inputs deliver during one block: for input slot `i` the block that
`read_buffer` puts into the buffer it is given, and the value of `finished()`
right after that read. -/
abbrev ReadEnv := Nat → SAMPLE_BUFFER × Bool

/-- Loop state of the chain loop inside `inputs_to_chains`. -/
structure ReadLoop where
  cslots : List SAMPLE_BUFFER
  input_not_finished : Bool
  trace : List Event

/-- The chain loop of `inputs_to_chains` for input slot `i` with
`icc = input_chain_count[i]`; the `break` ends the recursion. -/
def inputs_to_chains_chains (rd : ReadEnv) (inp : AUDIO_IO) (i icc : Nat)
    (mixslot : SAMPLE_BUFFER) : List (Nat × CHAIN) → ReadLoop → ReadLoop
  | [], st => st
  | (c, ch) :: rest, st =>
    if ch.input_id_repp = some inp then
      if icc = 1 then
        { cslots := st.cslots.set c (rd i).1
          input_not_finished := if (rd i).2 = false then true else st.input_not_finished
          trace := st.trace ++ [Event.read_buffer i] }
      else
        inputs_to_chains_chains rd inp i icc mixslot rest
          { st with cslots := st.cslots.set c mixslot }
    else
      inputs_to_chains_chains rd inp i icc mixslot rest st

/-- One round of the input loop of `inputs_to_chains`. -/
def inputs_to_chains_step (rd : ReadEnv) (e : ECA_PROCESSOR) (p : Nat × AUDIO_IO) :
    ECA_PROCESSOR :=
  let i := p.1
  let icc := e.input_chain_count.getD i 0
  let e1 :=
    if icc > 1 then
      { e with
        mixslot := (rd i).1
        trace := e.trace ++ [Event.read_buffer i]
        input_not_finished := if (rd i).2 = false then true else e.input_not_finished }
    else e
  let st := inputs_to_chains_chains rd p.2 i icc e1.mixslot e1.csetup.chains.enum
    { cslots := e1.cslots, input_not_finished := e1.input_not_finished, trace := e1.trace }
  { e1 with cslots := st.cslots, input_not_finished := st.input_not_finished, trace := st.trace }

/-- `ECA_PROCESSOR::inputs_to_chains`. -/
def inputs_to_chains (e : ECA_PROCESSOR) (rd : ReadEnv) : ECA_PROCESSOR :=
  e.csetup.inputs.enum.foldl (inputs_to_chains_step rd) e

/-- The chain-operator phase `(*chain_iter)->process()` over all chains, chain `n`
being bound to `cslots[n]` (normal mixmode). -/
def process_chains (e : ECA_PROCESSOR) : ECA_PROCESSOR :=
  { e with
    cslots := e.csetup.chains.enum.foldl
      (fun cs p => cs.set p.1 (p.2.process (cs.getD p.1 default))) e.cslots }

/-! ## Slave outputs and multitrack sync -/

/-- The chain loop of `is_slave_output`. -/
def is_slave_output_chains (aiod : Option AUDIO_IO) : List CHAIN → Bool
  | [] => false
  | q :: rest =>
    if q.output_id_repp = aiod then
      match dynamic_cast_device q.input_id_repp with
      | some _ => true
      | none => is_slave_output_chains aiod rest
    else is_slave_output_chains aiod rest

/-- `ECA_PROCESSOR::is_slave_output`. -/
def is_slave_output (e : ECA_PROCESSOR) (aiod : Option AUDIO_IO) : Bool :=
  match dynamic_cast_device aiod with
  | some _ => false
  | none => is_slave_output_chains aiod e.csetup.chains

/-- The chain loop of `multitrack_sync` for the output `out = (*outputs)[slot]`
with `k = output_chain_count[slot]`. -/
def multitrack_sync_chains (out : AUDIO_IO) (slot k bs : Nat) :
    List (Nat × CHAIN) → MixLoop → MixLoop
  | [], st => st
  | (n, c) :: rest, st =>
    if c.output_id_repp = none then
      multitrack_sync_chains out slot k bs rest st
    else if c.output_id_repp = some out then
      if k = 1 then
        { st with
          trace := st.trace ++ [Event.write_buffer slot (st.cslots.getD n default)]
          cslots := st.cslots.set n ((st.cslots.getD n default).length_in_samples bs) }
      else
        let count := st.count + 1
        if count = 1 then
          multitrack_sync_chains out slot k bs rest
            { st with
              count := count
              mixslot := (st.mixslot.copy (st.cslots.getD n default)).divide_by k }
        else
          let mixslot := st.mixslot.add_with_weight (st.cslots.getD n default) k
          if count = k then
            multitrack_sync_chains out slot k bs rest
              { st with
                count := count
                trace := st.trace ++ [Event.write_buffer slot mixslot]
                mixslot := mixslot.length_in_samples bs }
          else
            multitrack_sync_chains out slot k bs rest
              { st with count := count, mixslot := mixslot }
    else
      multitrack_sync_chains out slot k bs rest st

/-- One round of the output loop of `multitrack_sync`: a slave output is skipped
(`continue`). -/
def multitrack_sync_step (e : ECA_PROCESSOR) (p : Nat × AUDIO_IO) : ECA_PROCESSOR :=
  if is_slave_output e (some p.2) = true then e
  else
    let st := multitrack_sync_chains p.2 p.1 (e.output_chain_count.getD p.1 0) e.buffersize_rep
      e.csetup.chains.enum
      { count := 0
        mixslot := e.mixslot.make_silent
        cslots := e.cslots
        trace := e.trace }
    { e with mixslot := st.mixslot, cslots := st.cslots, trace := st.trace }

/-- `ECA_PROCESSOR::multitrack_sync`; `stamp` is what `gettimeofday` returns after
the input read, in microseconds. -/
def multitrack_sync (e : ECA_PROCESSOR) (rd : ReadEnv) (stamp : Int) : ECA_PROCESSOR :=
  let e1 := inputs_to_chains e rd
  let e2 := { e1 with multitrack_input_stamp_rep := stamp }
  let e3 := process_chains e2
  e3.csetup.outputs.enum.foldl multitrack_sync_step e3

/-! ## Transport -/

/-- Modelled from the spec: `AUDIO_IO_DEVICE::start()` sets the clock-running flag
of the device (`prepare()` leaves it untouched). -/
def device_start (clock : List Nat) ( d : AUDIO_IO) : List Nat :=
  d.id :: clock

/-- Modelled from the spec: `AUDIO_IO_DEVICE::stop()` clears the clock-running flag
of the device. -/
def device_stop (clock : List Nat) ( d : AUDIO_IO) : List Nat :=
  clock.filter (fun x => decide (x ≠ d.id))

/-- What the environment supplies to one call of `start()`, `conditional_stop()`
or `conditional_start()`: the blocks of the two `multitrack_sync` rounds, the two
`gettimeofday` stamps taken in them and the `gettimeofday` value `now` taken after
the realtime outputs were started (all in microseconds); and, for the two waits on
the proxy server thread, whether the polled `pserver_rep.is_running()` and
`pserver_rep.is_full()` ever become true (when not, the
`while (...) usleep(50000)` loop never ends). -/
structure StartEnv where
  rd1 : ReadEnv
  stamp1 : Int
  rd2 : ReadEnv
  stamp2 : Int
  now : Int
  pserver_is_running : Bool
  pserver_is_full : Bool

/-- `ECA_PROCESSOR::stop`; the scheduler call and the condition-variable signal
change nothing of the state kept here. -/
def stop (e : ECA_PROCESSOR) : ECA_PROCESSOR :=
  if e.eparams.status ≠ Status.ep_status_running ∧ e.rt_running = false then e
  else
    let clock :=
      if e.rt_running = true then e.realtime_objects.foldl device_stop e.clock_running
      else e.clock_running
    { e with
      clock_running := clock
      rt_running := false
      eparams := { e.eparams with status := Status.ep_status_stopped } }

/-- `ECA_PROCESSOR::start`; `none` is the process ending in `exit(-1)` or in a
failed `assert`.  The scheduler calls and `prepare()` on the realtime objects
change nothing of the state kept here.  The time difference and `sync_fix` are
computed exactly on integers, the cast to `long` truncating towards zero. -/
def start (e : ECA_PROCESSOR) (env : StartEnv) : Option ECA_PROCESSOR :=
  if e.eparams.status = Status.ep_status_running then some e
  else if e.eparams.multitrack_mode_rep = true then
    let e1 := { e with clock_running := e.realtime_inputs.foldl device_start e.clock_running }
    let e2 := multitrack_sync e1 env.rd1 env.stamp1
    let e3 := multitrack_sync e2 env.rd2 env.stamp2
    let e4 := { e3 with
      clock_running := e3.realtime_outputs.foldl device_start e3.clock_running }
    if e4.realtime_inputs.length = 0 ∨ e4.realtime_outputs.length = 0 then none
    else
      let time := env.now - e4.multitrack_input_stamp_rep
      let sync_fix := Int.tdiv (time * (e4.csetup.sample_rate : Int)) 1000000
      if sync_fix < 0 then none
      else
        some { e4 with
          trace := e4.trace ++ e4.non_realtime_outputs.map
            (fun o => Event.seek_position_in_samples_advance o sync_fix)
          rt_running := true
          eparams := { e4.eparams with status := Status.ep_status_running } }
  else
    some { e with
      clock_running := e.realtime_inputs.foldl device_start e.clock_running
      trigger_outputs_request := true
      rt_running := true
      eparams := { e.eparams with status := Status.ep_status_running } }

/-- `ECA_PROCESSOR::trigger_outputs`. -/
def trigger_outputs (e : ECA_PROCESSOR) : ECA_PROCESSOR :=
  if e.trigger_outputs_request = true then
    if e.trigger_counter_rep + 1 = 2 then
      { e with
        trigger_outputs_request := false
        trigger_counter_rep := 0
        clock_running := e.realtime_outputs.foldl device_start e.clock_running
        rt_running := true }
    else { e with trigger_counter_rep := e.trigger_counter_rep + 1 }
  else e

/-- `ECA_PROCESSOR::finished`: the returned flag and the state afterwards. -/
def finished (e : ECA_PROCESSOR) : Bool × ECA_PROCESSOR :=
  if e.input_not_finished = true ∧ e.eparams.status ≠ Status.ep_status_finished then
    (false, e)
  else
    (true, { e with eparams := { e.eparams with status := Status.ep_status_finished } })

/-- `ECA_PROCESSOR::conditional_stop`; `none` is a call that does not return.  With
double buffering the proxy server is stopped, which is not part of the engine
state, and the engine waits in `while (pserver_rep.is_running() != true)
usleep(50000)`: the call returns when the environment lets the polled condition
become true and never otherwise. -/
def conditional_stop (e : ECA_PROCESSOR) (env : StartEnv) : Option ECA_PROCESSOR :=
  if e.eparams.status = Status.ep_status_running then
    let e1 := { e with was_running := true }
    if e1.csetup.double_buffering != true then some (stop e1)
    else if env.pserver_is_running = true then some e1
    else none
  else some { e with was_running := false }

/-- `ECA_PROCESSOR::conditional_start`; `none` is a call that does not return: the
process ended in `start()`, or, with double buffering, the wait
`while (pserver_rep.is_full() != true) usleep(50000)` never ends. -/
def conditional_start (e : ECA_PROCESSOR) (env : StartEnv) : Option ECA_PROCESSOR :=
  if e.was_running = true then
    if e.csetup.double_buffering != true then start e env
    else if env.pserver_is_full = true then some e
    else none
  else some e

/-- The two seek loops of `rewind_to_start_position`. -/
def seek_to_start_positions (e1 : ECA_PROCESSOR) : ECA_PROCESSOR :=
  let e2 := { e1 with
    trace := e1.trace ++ (List.range e1.input_count).map
      (fun i => Event.seek_position_in_samples true i (e1.input_start_pos.getD i 0)) }
  { e2 with
    trace := e2.trace ++ (List.range e2.output_count).map
      (fun i => Event.seek_position_in_samples false i (e2.output_start_pos.getD i 0)) }

/-- `ECA_PROCESSOR::rewind_to_start_position`. -/
def rewind_to_start_position (e : ECA_PROCESSOR) (env : StartEnv) : Option ECA_PROCESSOR :=
  match conditional_stop e env with
  | none => none
  | some e1 => conditional_start (seek_to_start_positions e1) env

/-- `ECA_PROCESSOR::posthandle_control_position`. -/
def posthandle_control_position (e : ECA_PROCESSOR) (env : StartEnv) : Option ECA_PROCESSOR :=
  if e.csetup.is_over = true ∧ e.processing_range_set = true then
    if e.csetup.looping_enabled = true then
      match rewind_to_start_position e env with
      | none => none
      | some e1 =>
        some { e1 with
          csetup := { e1.csetup with position_in_samples := 0 }
          trace := e1.trace ++ (List.range e1.input_count).map
            (fun i => Event.buffersize true i e1.buffersize_rep) }
    else
      let e1 := stop e
      some { e1 with
        csetup := { e1.csetup with position_in_samples := 0 }
        eparams := { e1.eparams with status := Status.ep_status_finished } }
  else some e

/-- Engine states reachable from a freshly initialised engine by calls of `start()`,
`stop()` and `trigger_outputs()`. -/
inductive Reachable : ECA_PROCESSOR → Prop where
  | init (params : ECA_SESSION) (e : ECA_PROCESSOR) :
      ECA_PROCESSOR.construct params = Outcome.done e → Reachable e
  | start (e e' : ECA_PROCESSOR) (env : StartEnv) :
      Reachable e → start e env = some e' → Reachable e'
  | stop (e : ECA_PROCESSOR) : Reachable e → Reachable (stop e)
  | trigger_outputs (e : ECA_PROCESSOR) : Reachable e → Reachable (trigger_outputs e)

/-- No object of `realtime_objects` has its clock running. -/
def no_clock_running (e : ECA_PROCESSOR) : Prop :=
  ∀ d ∈ e.realtime_objects, d.id ∉ e.clock_running

/-- No realtime device among the inputs and outputs of the chainsetup has its clock
running. -/
def no_device_running (e : ECA_PROCESSOR) : Prop :=
  ∀ a ∈ e.csetup.inputs ++ e.csetup.outputs, a.is_device = true → a.id ∉ e.clock_running

/-- Every realtime device among the inputs and outputs of the chainsetup is in
`realtime_objects`. -/
def devices_registered (e : ECA_PROCESSOR) : Prop :=
  ∀ a ∈ e.csetup.inputs ++ e.csetup.outputs, a.is_device = true → a ∈ e.realtime_objects

/-! ## Concrete setups -/

/-- The engine the constructor yields for a session (the constructed members when
the setup throws). -/
def engine_for (params : ECA_SESSION) (cs : ECA_CHAINSETUP) : ECA_PROCESSOR :=
  match ECA_PROCESSOR.construct params with
  | Outcome.done e => e
  | _ => ECA_PROCESSOR.members params cs

/-- A file object with the given id. -/
def file_object (id channels : Nat) : AUDIO_IO :=
  { id := id, is_device := false, channels := channels,
    position_in_samples := 0, length_in_samples := 48000 }

/-- A realtime device with the given id. -/
def device_object (id channels : Nat) : AUDIO_IO :=
  { id := id, is_device := true, channels := channels,
    position_in_samples := 0, length_in_samples := 0 }

/-- A chain without operators between two objects. -/
def plain_chain (i o : AUDIO_IO) : CHAIN :=
  { input_id_repp := some i, output_id_repp := some o, muted := false, processing := true,
    chainops_rep := [] }

/-- A chainsetup with the given endpoints and chains, buffersize 4, 48 kHz. -/
def setup_of (inputs outputs : List AUDIO_IO) (chains : List CHAIN) : ECA_CHAINSETUP :=
  { inputs := inputs, outputs := outputs, chains := chains, buffersize := 4,
    sample_rate := 48000, mixmode := Mixmode.ep_mm_auto, double_buffering := false,
    double_buffer_size := 0, length_set := false, looping_enabled := false,
    position_in_samples := 0, length_in_samples := 0 }

/-- A batch session connected to the given chainsetup. -/
def session_of (cs : ECA_CHAINSETUP) : ECA_SESSION :=
  { status := Status.ep_status_notready, multitrack_mode_rep := false,
    raised_priority := false, schedpriority_rep := 50, iactive_rep := false,
    connected_chainsetup_repp := some cs }

/-- Two file inputs, each through its own chain into the same file output. -/
def two_chain_setup : ECA_CHAINSETUP :=
  setup_of [file_object 1 1, file_object 2 1] [file_object 3 1]
    [plain_chain (file_object 1 1) (file_object 3 1),
     plain_chain (file_object 2 1) (file_object 3 1)]

/-- A mono block of four frames of silence. -/
def silence_block : SAMPLE_BUFFER := SAMPLE_BUFFER.create 4 1

/-- A mono block of four frames with the samples 1, -1/2, 1/3, -1. -/
def tone_block : SAMPLE_BUFFER :=
  { channel_count_rep := 1, buffersize_rep := 4,
    buffer := fun _ t => if t = 0 then 1 else if t = 1 then -1/2 else if t = 2 then 1/3 else -1 }

/-- The two-chain engine after the input and processing phases of a block: chain 0
carries silence, chain 1 carries the tone. -/
def two_chain_engine : ECA_PROCESSOR :=
  { engine_for (session_of two_chain_setup) two_chain_setup with
    cslots := [silence_block, tone_block] }

/-- Live monitoring with recording: a realtime input recorded to a file and a file
played to a realtime output, on two chains. -/
def monitor_setup : ECA_CHAINSETUP :=
  setup_of [device_object 1 1, file_object 2 1] [file_object 3 1, device_object 4 1]
    [plain_chain (device_object 1 1) (file_object 3 1),
     plain_chain (file_object 2 1) (device_object 4 1)]

/-- The engine constructed for `monitor_setup`. -/
def monitor_engine : ECA_PROCESSOR :=
  engine_for (session_of monitor_setup) monitor_setup

/-- Every input delivers one block of silence and is not finished. -/
def silent_reads : ReadEnv := fun _ => (silence_block, false)

/-- The `(input?, slot)` pairs of the `buffersize` calls in a trace, oldest first. -/
def buffersize_calls : List Event → List (Bool × Nat)
  | [] => []
  | Event.buffersize inp i _ :: rest => (inp, i) :: buffersize_calls rest
  | _ :: rest => buffersize_calls rest

/-- The `(input?, slot)` pairs of the `seek_position_in_samples` calls in a trace,
oldest first. -/
def seek_calls : List Event → List (Bool × Nat)
  | [] => []
  | Event.seek_position_in_samples inp i _ :: rest => (inp, i) :: seek_calls rest
  | _ :: rest => seek_calls rest

/-- The session of `monitor_setup`, not yet initialised. -/
def monitor_session : ECA_SESSION := session_of monitor_setup

/-- An environment for `start()` in which every read delivers silence and no time
passes; the proxy server answers both waits. -/
def idle_env : StartEnv :=
  { rd1 := silent_reads, stamp1 := 0, rd2 := silent_reads, stamp2 := 0, now := 0,
    pserver_is_running := true, pserver_is_full := true }

/-- A file played to a realtime output through one chain. -/
def playback_setup : ECA_CHAINSETUP :=
  setup_of [file_object 1 1] [device_object 2 1]
    [plain_chain (file_object 1 1) (device_object 2 1)]

/-- The engine constructed for `playback_setup`. -/
def playback_engine : ECA_PROCESSOR :=
  engine_for (session_of playback_setup) playback_setup

/-- `start()` on a state where it returns (the state itself where it does not). -/
def start_of (e : ECA_PROCESSOR) (env : StartEnv) : ECA_PROCESSOR :=
  (start e env).getD e

/-- The playback engine after `start()`, a block in which the input reported
finished (`input_not_finished = false`), and the call of `finished()` that closes
the batch loop. -/
def playback_finished : ECA_PROCESSOR :=
  (finished { start_of playback_engine idle_env with input_not_finished := false }).2

/-- The invariant of the transport: while `rt_running` is false no realtime device
has its clock running, and status Running implies `rt_running`. -/
def transport_invariant (e : ECA_PROCESSOR) : Prop :=
  (e.rt_running = false → no_clock_running e) ∧
    (e.eparams.status = Status.ep_status_running → e.rt_running = true)

/-- The playback engine after `start()` and two calls of `trigger_outputs()`. -/
def playback_running : ECA_PROCESSOR :=
  trigger_outputs (trigger_outputs (start_of playback_engine idle_env))

/-- The exception a setup attempt ended with, if any. -/
def Outcome.error : Outcome → Option ECA_ERROR
  | Outcome.thrown err _ => some err
  | _ => none

/-- The calls on audio objects a setup attempt made. -/
def Outcome.calls : Outcome → List Event
  | Outcome.done e => e.trace
  | Outcome.thrown _ tr => tr
  | Outcome.null_dereference => []

/-- A chainsetup with one file input, one chain and no output. -/
def no_output_setup : ECA_CHAINSETUP :=
  setup_of [file_object 1 1] [] [plain_chain (file_object 1 1) (file_object 3 1)]

/-- The narrowing of a `long` value to `int` (32-bit two's complement). -/
def to_int32 (x : Int) : Int :=
  (x + 2147483648) % 4294967296 - 2147483648

/-- Modelled from the spec: `ECA_CHAINSETUP::change_position(n)` (spec:
`advance_position`) moves the position forward by `n` samples. -/
def ECA_CHAINSETUP.change_position (c : ECA_CHAINSETUP) (n : Int) : ECA_CHAINSETUP :=
  { c with position_in_samples := c.position_in_samples + n }

/-- `ECA_PROCESSOR::prehandle_control_position`; `buffer_remain` is an `int`. -/
def prehandle_control_position (e : ECA_PROCESSOR) : ECA_PROCESSOR :=
  let e1 := { e with csetup := e.csetup.change_position e.buffersize_rep }
  if e1.csetup.is_over = true ∧ e1.processing_range_set = true then
    let buffer_remain := to_int32 (e1.csetup.position_in_samples - e1.csetup.length_in_samples)
    { e1 with
      trace := e1.trace ++ (List.range e1.input_count).map
        (fun i => Event.buffersize true i buffer_remain) }
  else e1

/-- The buffersize input slot `i` was last given by a `buffersize` call in the
trace (`d` when there is none). -/
def input_buffersize (i : Nat) : List Event → Int → Int
  | [], d => d
  | Event.buffersize true j n :: rest, d =>
    if j = i then input_buffersize i rest n else input_buffersize i rest d
  | _ :: rest, d => input_buffersize i rest d

/-- The values of the `buffersize` calls on input slot `i` in a trace, oldest
first. -/
def input_buffersize_calls (i : Nat) : List Event → List Int
  | [] => []
  | Event.buffersize true j n :: rest =>
    if j = i then n :: input_buffersize_calls i rest else input_buffersize_calls i rest
  | _ :: rest => input_buffersize_calls i rest

/-- A playback setup with an explicit length of 1 sample (buffersize 4). -/
def short_setup : ECA_CHAINSETUP :=
  { playback_setup with length_set := true, length_in_samples := 1 }

/-- The engine constructed for `short_setup`. -/
def short_engine : ECA_PROCESSOR :=
  engine_for (session_of short_setup) short_setup

/-- The configuration of the engine that block processing and the transport leave
alone: the graph, the length and loop settings, the block size, the counts and
the recorded start positions. -/
structure SameConfiguration (e e' : ECA_PROCESSOR) : Prop where
  inputs : e'.csetup.inputs = e.csetup.inputs
  outputs : e'.csetup.outputs = e.csetup.outputs
  chains : e'.csetup.chains = e.csetup.chains
  length : e'.csetup.length_in_samples = e.csetup.length_in_samples
  looping : e'.csetup.looping_enabled = e.csetup.looping_enabled
  double_buffering : e'.csetup.double_buffering = e.csetup.double_buffering
  sample_rate : e'.csetup.sample_rate = e.csetup.sample_rate
  buffersize_rep : e'.buffersize_rep = e.buffersize_rep
  input_count : e'.input_count = e.input_count
  output_count : e'.output_count = e.output_count
  chain_count : e'.chain_count = e.chain_count
  input_start_pos : e'.input_start_pos = e.input_start_pos
  output_start_pos : e'.output_start_pos = e.output_start_pos
  input_chain_count : e'.input_chain_count = e.input_chain_count
  output_chain_count : e'.output_chain_count = e.output_chain_count
  processing_range_set : e'.processing_range_set = e.processing_range_set
  multitrack : e'.eparams.multitrack_mode_rep = e.eparams.multitrack_mode_rep
  realtime_inputs : e'.realtime_inputs = e.realtime_inputs
  realtime_outputs : e'.realtime_outputs = e.realtime_outputs
  non_realtime_outputs : e'.non_realtime_outputs = e.non_realtime_outputs

/-- The trace of `e'` continues the trace of `e`. -/
def trace_extends (e e' : ECA_PROCESSOR) : Prop :=
  ∃ tr, e'.trace = e.trace ++ tr

/-- A playback setup with looping enabled and an explicit length of 1 sample. -/
def loop_setup : ECA_CHAINSETUP :=
  { playback_setup with length_set := true, length_in_samples := 1, looping_enabled := true }

/-- The looping engine after `start()` and the position update of its first block:
Running, position 4 past the length 1. -/
def loop_running : ECA_PROCESSOR :=
  prehandle_control_position (start_of (engine_for (session_of loop_setup) loop_setup) idle_env)

/-- The read, process and write steps of the loop body of `exec_simple_iactive`
(chain 0 is bound to `mixslot`). -/
def exec_simple_block (e : ECA_PROCESSOR) (rd : ReadEnv) : ECA_PROCESSOR :=
  let e1 := { e with
    mixslot := (rd 0).1
    trace := e.trace ++ [Event.read_buffer 0]
    input_not_finished := if (rd 0).2 = false then true else e.input_not_finished }
  let e2 := { e1 with
    mixslot := match e1.csetup.chains[0]? with
      | some c => c.process e1.mixslot
      | none => e1.mixslot }
  { e2 with trace := e2.trace ++ [Event.write_buffer 0 e2.mixslot] }

/-- The read, process and mix steps of the loop body of `exec_normal_iactive`. -/
def exec_normal_block (e : ECA_PROCESSOR) (rd : ReadEnv) : ECA_PROCESSOR :=
  mix_to_outputs (process_chains (inputs_to_chains e rd))

/-- Every input delivers the tone block and is not finished. -/
def tone_reads : ReadEnv := fun _ => (tone_block, false)

/-! ## JACK manager (libecasound/plugins/audioio_jack_manager.cpp) -/

/-- Modelled from the spec: the commands `ECA_ENGINE::ep_*` the JACK callbacks put
on the engine queue (eca-engine.h is not among the sources). -/
inductive Engine_command where
  | ep_start
  | ep_stop
  | ep_prepare
  | ep_setpos_live_samples
deriving DecidableEq, Repr

/-- Modelled from the spec: ECA_ENGINE as the JACK manager uses it (eca-engine.h is
not among the sources).  `σ` is the state of the engine; the values the manager
reads and the effect of each call it makes are supplied with the engine.
`engine_iteration` gets the callback buffers of the input and output ports and
returns the new contents of the output callback buffers. -/
structure ECA_ENGINE (σ : Type) where
  status_finished : σ → Bool
  is_running : σ → Bool
  is_prepared : σ → Bool
  is_locked_for_editing : σ → Bool
  current_position_in_samples : σ → Int
  is_finite_length : σ → Bool
  length_in_samples : σ → Int
  engine_iteration : σ → List (Option (List ℚ)) → List (Option (List ℚ)) →
    σ × List (Option (List ℚ))
  update_engine_state : σ → σ
  start_operation : σ → σ
  command : σ → Engine_command → Int → σ

/-- Modelled from the spec: `jack_transport_state_t` (jack/transport.h). -/
inductive jack_transport_state_t where
  | JackTransportStopped
  | JackTransportRolling
  | JackTransportLooping
deriving DecidableEq, Repr

/-- Modelled from the spec: the bit `JackTransportState` of `valid`. -/
def JackTransportState : Nat := 1

/-- Modelled from the spec: the bit `JackTransportPosition` of `valid`. -/
def JackTransportPosition : Nat := 2

/-- Modelled from the spec: `jack_transport_info_t` (jack/transport.h): the fields
the manager uses; `frame` is a `jack_nframes_t` (unsigned 32-bit), `valid` a bit
mask. -/
structure jack_transport_info_t where
  transport_state : jack_transport_state_t
  frame : Nat
  valid : Nat
deriving DecidableEq, Repr

/-- Assignment to a `jack_nframes_t`: reduction modulo 2^32. -/
def to_nframes (x : Int) : Nat :=
  (x % 4294967296).toNat

/-- Modelled from the spec: `eca_jack_port_data_t` (audioio_jack_manager.h is not
among the sources), with the fields the callbacks use: the latency of the port, its
callback buffer (`none` is the null pointer) and the buffer `jack_port_get_buffer`
returns for it in the current cycle. -/
structure eca_jack_port_data_t where
  total_latency : Nat
  cb_buffer : Option (List ℚ)
  jack_buffer : List ℚ
deriving DecidableEq

/-- Modelled from the spec: `eca_jack_node_t` (audioio_jack_manager.h is not among
the sources): a registered object with its client id and its ports. -/
structure eca_jack_node_t where
  client_id : Int
  ports : List eca_jack_port_data_t
deriving DecidableEq

/-- Modelled from the spec: `AUDIO_IO_JACK_MANAGER::Operation_mode`
(audioio_jack_manager.h is not among the sources). -/
inductive Operation_mode where
  | Streaming
  | Master
  | Slave
deriving DecidableEq, Repr

/-- State of `engine_mod_lock_rep`. -/
inductive Lock_state where
  | unlocked
  | locked_by_other
  | locked_by_callback
deriving DecidableEq, Repr

/-- What the process callback does, in order. -/
inductive Jack_call where
  | get_transport_info
  | set_transport_info (info : jack_transport_info_t)
  | engine_iteration
  | update_engine_state
  | start_operation
  | command (c : Engine_command) (v : Int)
  | mute
deriving DecidableEq, Repr

/-- Modelled from the spec: the members of `AUDIO_IO_JACK_MANAGER` the callbacks
use (audioio_jack_manager.h is not among the sources; the integer members are
taken as unbounded), over an engine with state `σ`, together with the transport
record of the JACK server (`server_transport`) and the log of the calls made by
the callbacks. -/
structure AUDIO_IO_JACK_MANAGER (σ : Type) where
  engine_repp : Option σ
  mode_rep : Operation_mode
  open_rep : Bool
  buffersize_rep : Int
  srate_rep : Int
  shutdown_request_rep : Bool
  last_node_id_rep : Int
  node_list_rep : List eca_jack_node_t
  jackslave_seekahead_rep : Int
  jackslave_seekahead_target_rep : Int
  transport_info_rep : jack_transport_info_t
  inports_rep : List eca_jack_port_data_t
  outports_rep : List eca_jack_port_data_t
  engine_mod_lock_rep : Lock_state
  server_transport : jack_transport_info_t
  calls : List Jack_call

/-- `memset(buf, 0, n * sizeof(sample))`. -/
def memset_zero (n : Nat) (buf : List ℚ) : List ℚ :=
  List.replicate n 0 ++ buf.drop n

/-- `memcpy(dst, src, n * sizeof(sample))`. -/
def memcpy (n : Nat) (dst src : List ℚ) : List ℚ :=
  src.take n ++ dst.drop n

/-- `AUDIO_IO_JACK_MANAGER::buffersize`. -/
def AUDIO_IO_JACK_MANAGER.buffersize {σ : Type} (m : AUDIO_IO_JACK_MANAGER σ) : Int :=
  if m.open_rep != true then 0 else m.buffersize_rep

/-- `AUDIO_IO_JACK_MANAGER::is_running`. -/
def AUDIO_IO_JACK_MANAGER.is_running {σ : Type} (E : ECA_ENGINE σ)
    (m : AUDIO_IO_JACK_MANAGER σ) : Bool :=
  match m.engine_repp with
  | some s => E.is_running s
  | none => false

/-- The body of the port loop of `eca_jack_process_mute` for one output port. -/
def mute_port (bs : Int) (p : eca_jack_port_data_t) : eca_jack_port_data_t :=
  match p.cb_buffer with
  | some _ => { p with jack_buffer := memset_zero bs.toNat p.jack_buffer }
  | none => p

/-- `eca_jack_process_mute`. -/
def eca_jack_process_mute {σ : Type} (m : AUDIO_IO_JACK_MANAGER σ) :
    AUDIO_IO_JACK_MANAGER σ :=
  { m with
    outports_rep := m.outports_rep.map (mute_port m.buffersize_rep)
    calls := m.calls ++ [Jack_call.mute] }

/-- Step 1 of `eca_jack_process_engine_iteration` for one input port. -/
def copy_in_port (bs : Int) (p : eca_jack_port_data_t) : eca_jack_port_data_t :=
  match p.cb_buffer with
  | some cb => { p with cb_buffer := some (memcpy bs.toNat cb p.jack_buffer) }
  | none => p

/-- Step 3 of `eca_jack_process_engine_iteration` for one output port. -/
def copy_out_port (bs : Int) (p : eca_jack_port_data_t) : eca_jack_port_data_t :=
  match p.cb_buffer with
  | some cb => { p with jack_buffer := memcpy bs.toNat p.jack_buffer cb }
  | none => p

/-- The output ports with the callback buffers the engine iteration left. -/
def store_cb_buffers : List eca_jack_port_data_t → List (Option (List ℚ)) →
    List eca_jack_port_data_t
  | [], _ => []
  | p :: ps, [] => p :: ps
  | p :: ps, b :: bs =>
    (match p.cb_buffer, b with
      | some _, some nb => { p with cb_buffer := some nb }
      | _, _ => p) :: store_cb_buffers ps bs

/-- `eca_jack_process_engine_iteration`; `none` is a dereference of a null
`engine_repp`. -/
def eca_jack_process_engine_iteration {σ : Type} (E : ECA_ENGINE σ)
    (m : AUDIO_IO_JACK_MANAGER σ) : Option (AUDIO_IO_JACK_MANAGER σ) :=
  match m.engine_repp with
  | none => none
  | some s =>
    let m1 :=
      if E.status_finished s != true then
        let inports := m.inports_rep.map (copy_in_port m.buffersize_rep)
        let r := E.engine_iteration s (inports.map (fun p => p.cb_buffer))
          (m.outports_rep.map (fun p => p.cb_buffer))
        let outports := store_cb_buffers m.outports_rep r.2
        { m with
          engine_repp := some r.1
          inports_rep := inports
          outports_rep := outports.map (copy_out_port m.buffersize_rep)
          calls := m.calls ++ [Jack_call.engine_iteration] }
      else eca_jack_process_mute m
    match m1.engine_repp with
    | none => none
    | some s1 =>
      some { m1 with
        engine_repp := some (E.update_engine_state s1)
        calls := m1.calls ++ [Jack_call.update_engine_state] }

/-- `engine_repp->command(c, v)`. -/
def engine_command {σ : Type} (E : ECA_ENGINE σ) (m : AUDIO_IO_JACK_MANAGER σ)
    (c : Engine_command) (v : Int) : AUDIO_IO_JACK_MANAGER σ :=
  { m with
    engine_repp := m.engine_repp.map (fun s => E.command s c v)
    calls := m.calls ++ [Jack_call.command c v] }

/-- `jack_set_transport_info(client_repp, &transport_info_rep)`. -/
def jack_set_transport_info {σ : Type} (m : AUDIO_IO_JACK_MANAGER σ) :
    AUDIO_IO_JACK_MANAGER σ :=
  { m with
    server_transport := m.transport_info_rep
    calls := m.calls ++ [Jack_call.set_transport_info m.transport_info_rep] }

/-- `jack_get_transport_info(client_repp, &transport_info_rep)`. -/
def jack_get_transport_info {σ : Type} (m : AUDIO_IO_JACK_MANAGER σ) :
    AUDIO_IO_JACK_MANAGER σ :=
  { m with
    transport_info_rep := m.server_transport
    calls := m.calls ++ [Jack_call.get_transport_info] }

/-- The assignment `transport_info_rep.frame = x`. -/
def assign_frame {σ : Type} (m : AUDIO_IO_JACK_MANAGER σ) (x : Int) :
    AUDIO_IO_JACK_MANAGER σ :=
  { m with transport_info_rep := { m.transport_info_rep with frame := to_nframes x } }

/-- The assignments `transport_info_rep.transport_state = st` and
`transport_info_rep.valid = JackTransportState | JackTransportPosition`. -/
def assign_state {σ : Type} (m : AUDIO_IO_JACK_MANAGER σ) (st : jack_transport_state_t) :
    AUDIO_IO_JACK_MANAGER σ :=
  { m with
    transport_info_rep := { m.transport_info_rep with
      transport_state := st
      valid := JackTransportState ||| JackTransportPosition } }

/-- The assignment `jackslave_seekahead_target_rep = x`. -/
def assign_seekahead_target {σ : Type} (m : AUDIO_IO_JACK_MANAGER σ) (x : Int) :
    AUDIO_IO_JACK_MANAGER σ :=
  { m with jackslave_seekahead_target_rep := x }

/-- The assignment `jackslave_seekahead_rep = x`. -/
def assign_seekahead {σ : Type} (m : AUDIO_IO_JACK_MANAGER σ) (x : Int) :
    AUDIO_IO_JACK_MANAGER σ :=
  { m with jackslave_seekahead_rep := x }

/-- `engine_repp->start_operation()` on the engine `s`. -/
def engine_start_operation {σ : Type} (E : ECA_ENGINE σ) (s : σ)
    (m : AUDIO_IO_JACK_MANAGER σ) : AUDIO_IO_JACK_MANAGER σ :=
  { m with
    engine_repp := some (E.start_operation s)
    calls := m.calls ++ [Jack_call.start_operation] }

/-- `eca_jack_process_timebase_master` (built with `ECA_JACK_TRANSPORT_API >= 2`);
`none` is a dereference of a null `engine_repp`.  The `DBC_CHECK` and the log
message change nothing of the state kept here. -/
def eca_jack_process_timebase_master {σ : Type} (E : ECA_ENGINE σ) (nframes : Nat)
    (m : AUDIO_IO_JACK_MANAGER σ) : Option (AUDIO_IO_JACK_MANAGER σ) :=
  match m.engine_repp with
  | none => none
  | some s =>
    if m.is_running E = true then
      let r :=
        if m.transport_info_rep.transport_state = jack_transport_state_t.JackTransportStopped
        then some m
        else
          eca_jack_process_engine_iteration E
            (assign_frame m (E.current_position_in_samples s + nframes))
      match r with
      | none => none
      | some m1 =>
        some (jack_set_transport_info
          (assign_state m1 jack_transport_state_t.JackTransportRolling))
    else
      some (eca_jack_process_mute (jack_set_transport_info
        (assign_frame (assign_state m jack_transport_state_t.JackTransportStopped)
          (E.current_position_in_samples s))))

/-- The new value of `jackslave_seekahead_rep` after a failed seek
(`buffersize` is `current->buffersize()`; the division is the integer division of
the source). -/
def seekahead_after_miss (seekahead buffersize : Int) : Int :=
  if seekahead < Int.tdiv 65536 buffersize then seekahead * 2 else Int.tdiv 65536 buffersize

/-- The value `open_server_connection` gives `jackslave_seekahead_rep`. -/
def seekahead_initial (buffersize : Int) : Int :=
  Int.tdiv 4096 buffersize + 1

/-- The local `seekoffset` of the "transport stopped" branch: `prepared` is
`engine_repp->is_prepared()`. -/
def seekoffset (prepared : Bool) (seekahead : Int) : Int :=
  if prepared = true then 1 else to_int32 seekahead

/-- `engine_repp->is_prepared()`. -/
def AUDIO_IO_JACK_MANAGER.is_prepared {σ : Type} (E : ECA_ENGINE σ)
    (m : AUDIO_IO_JACK_MANAGER σ) : Bool :=
  match m.engine_repp with
  | some s => E.is_prepared s
  | none => false

/-- The first step of the "transport stopped" branch: a running engine is sent
the commands `ep_stop` and `ep_prepare`. -/
def stop_and_prepare {σ : Type} (E : ECA_ENGINE σ) (m : AUDIO_IO_JACK_MANAGER σ) :
    AUDIO_IO_JACK_MANAGER σ :=
  if m.is_running E = true then
    engine_command E (engine_command E m Engine_command.ep_stop 0) Engine_command.ep_prepare 0
  else m

/-- The "transport stopped" branch of `eca_jack_process_timebase_slave` (before the
final mute); `enginepos` was sampled at entry. -/
def timebase_slave_stopped {σ : Type} (E : ECA_ENGINE σ) (enginepos : Int)
    (m : AUDIO_IO_JACK_MANAGER σ) : AUDIO_IO_JACK_MANAGER σ :=
  let m1 := stop_and_prepare E m
  let target := (m1.transport_info_rep.frame : Int) +
    seekoffset (m1.is_prepared E) m1.jackslave_seekahead_rep * m1.buffersize
  if m1.transport_info_rep.valid &&& JackTransportPosition ≠ 0 then
    if enginepos ≠ target then
      engine_command E (assign_seekahead_target m1 target)
        Engine_command.ep_setpos_live_samples target
    else m1
  else m1

/-- The start attempt of the "transport rolling" branch of
`eca_jack_process_timebase_slave` for an engine `s` that is not running: the new
manager state and the new value of the local `enginepos`. -/
def timebase_slave_start {σ : Type} (E : ECA_ENGINE σ) (s : σ) (enginepos : Int)
    (m : AUDIO_IO_JACK_MANAGER σ) : AUDIO_IO_JACK_MANAGER σ × Int :=
  if E.status_finished s != true ∧
      ((m.transport_info_rep.frame : Int) ≤ E.length_in_samples s ∨
        E.is_finite_length s != true ∨
        ¬ (m.transport_info_rep.valid &&& JackTransportPosition ≠ 0)) then
    if E.is_prepared s = true ∧
        (enginepos = (m.transport_info_rep.frame : Int) ∨
          ¬ (m.transport_info_rep.valid &&& JackTransportPosition ≠ 0)) then
      (engine_start_operation E s m, enginepos)
    else
      (engine_command E m Engine_command.ep_start 0, -1)
  else (m, enginepos)

/-- The seek-ahead handling of the "transport rolling" branch of
`eca_jack_process_timebase_slave` when the positions do not match; `s` is the
engine. -/
def timebase_slave_seek {σ : Type} (E : ECA_ENGINE σ) (s : σ)
    (m : AUDIO_IO_JACK_MANAGER σ) : AUDIO_IO_JACK_MANAGER σ :=
  if (m.transport_info_rep.frame : Int) ≥ E.length_in_samples s ∧
      E.is_finite_length s = true then
    engine_command E m Engine_command.ep_stop 0
  else if m.jackslave_seekahead_target_rep = -1 ∨
      m.jackslave_seekahead_target_rep < (m.transport_info_rep.frame : Int) + m.buffersize ∨
      m.jackslave_seekahead_target_rep - m.jackslave_seekahead_rep * m.buffersize >
        (m.transport_info_rep.frame : Int) + m.buffersize then
    let m1 :=
      if m.jackslave_seekahead_target_rep ≠ -1 then
        assign_seekahead m (seekahead_after_miss m.jackslave_seekahead_rep m.buffersize)
      else m
    let target := (m1.transport_info_rep.frame : Int) + m1.jackslave_seekahead_rep * m1.buffersize
    engine_command E (assign_seekahead_target m1 target)
      Engine_command.ep_setpos_live_samples target
  else m

/-- The "transport rolling" branch of `eca_jack_process_timebase_slave` for the
engine `s` whose position at entry was `enginepos`. -/
def timebase_slave_rolling {σ : Type} (E : ECA_ENGINE σ) (s : σ) (enginepos : Int)
    (m : AUDIO_IO_JACK_MANAGER σ) : Option (AUDIO_IO_JACK_MANAGER σ) :=
  let r := if m.is_running E != true then timebase_slave_start E s enginepos m
    else (m, enginepos)
  if r.2 = (r.1.transport_info_rep.frame : Int) ∨
      ¬ (r.1.transport_info_rep.valid &&& JackTransportPosition ≠ 0) then
    match eca_jack_process_engine_iteration E r.1 with
    | none => none
    | some m2 => some (assign_seekahead_target m2 (-1))
  else
    match r.1.engine_repp with
    | none => none
    | some s1 => some (eca_jack_process_mute (timebase_slave_seek E s1 r.1))

/-- `eca_jack_process_timebase_slave` (built with `ECA_JACK_TRANSPORT_API >= 2`);
`none` is a dereference of a null `engine_repp`.  The final mute is applied in
every branch that leaves `need_mute` set. -/
def eca_jack_process_timebase_slave {σ : Type} (E : ECA_ENGINE σ)
    (m : AUDIO_IO_JACK_MANAGER σ) : Option (AUDIO_IO_JACK_MANAGER σ) :=
  match (jack_get_transport_info m).engine_repp with
  | none => none
  | some s =>
    if E.is_locked_for_editing s = true then
      some (eca_jack_process_mute (jack_get_transport_info m))
    else if (jack_get_transport_info m).transport_info_rep.transport_state =
          jack_transport_state_t.JackTransportStopped ∧
        (jack_get_transport_info m).transport_info_rep.valid &&& JackTransportState ≠ 0 then
      some (eca_jack_process_mute
        (timebase_slave_stopped E (E.current_position_in_samples s) (jack_get_transport_info m)))
    else
      timebase_slave_rolling E s (E.current_position_in_samples s) (jack_get_transport_info m)

/-- The body of `eca_jack_process` run with the lock held: the dispatch on the
operation mode (built with `ECA_JACK_TRANSPORT_API >= 2`). -/
def eca_jack_process_locked {σ : Type} (E : ECA_ENGINE σ) (nframes : Nat)
    (m : AUDIO_IO_JACK_MANAGER σ) : Option (AUDIO_IO_JACK_MANAGER σ) :=
  match m.mode_rep with
  | Operation_mode.Streaming =>
    if m.is_running E = true then eca_jack_process_engine_iteration E m
    else some (eca_jack_process_mute m)
  | Operation_mode.Slave => eca_jack_process_timebase_slave E m
  | Operation_mode.Master => eca_jack_process_timebase_master E nframes m

/-- `eca_jack_process`, the process callback; `pthread_mutex_trylock` succeeds
exactly on an unlocked mutex. -/
def eca_jack_process {σ : Type} (E : ECA_ENGINE σ) (nframes : Nat)
    (m : AUDIO_IO_JACK_MANAGER σ) : Option (AUDIO_IO_JACK_MANAGER σ) :=
  if m.engine_mod_lock_rep = Lock_state.unlocked then
    match eca_jack_process_locked E nframes
        { m with engine_mod_lock_rep := Lock_state.locked_by_callback } with
    | none => none
    | some m2 => some { m2 with engine_mod_lock_rep := Lock_state.unlocked }
  else
    some (eca_jack_process_mute m)

/-- The number of `engine_iteration()` calls in a log. -/
def iterations (calls : List Jack_call) : Nat :=
  calls.count Jack_call.engine_iteration

/-- The number of `eca_jack_process_mute` runs in a log. -/
def mutes (calls : List Jack_call) : Nat :=
  calls.count Jack_call.mute

/-- The targets of the `ep_setpos_live_samples` commands in a log, oldest first. -/
def submitted_seeks : List Jack_call → List Int
  | [] => []
  | Jack_call.command Engine_command.ep_setpos_live_samples v :: rest =>
    v :: submitted_seeks rest
  | _ :: rest => submitted_seeks rest

/-- A port is silent when the first `bs` samples of its JACK buffer are zero. -/
def port_is_silent (bs : Int) (p : eca_jack_port_data_t) : Prop :=
  p.jack_buffer.take bs.toNat = List.replicate bs.toNat 0

instance (bs : Int) (p : eca_jack_port_data_t) : Decidable (port_is_silent bs p) := by
  unfold port_is_silent; infer_instance

/-- State of a test engine: the values the manager reads, and the queue of the
commands it was sent. -/
structure Test_engine where
  finished : Bool
  running : Bool
  prepared : Bool
  locked : Bool
  position : Int
  finite : Bool
  length : Int
  queue : List (Engine_command × Int)
deriving DecidableEq

/-- A test engine with block size `bs`: an iteration advances the position by one
block and fills every output callback buffer with ones; a direct start sets it
running; commands are queued and not executed during the callback. -/
def test_engine (bs : Nat) : ECA_ENGINE Test_engine where
  status_finished := fun s => s.finished
  is_running := fun s => s.running
  is_prepared := fun s => s.prepared
  is_locked_for_editing := fun s => s.locked
  current_position_in_samples := fun s => s.position
  is_finite_length := fun s => s.finite
  length_in_samples := fun s => s.length
  engine_iteration := fun s _ outs =>
    ({ s with position := s.position + bs },
      outs.map (fun b => b.map (fun _ => List.replicate bs 1)))
  update_engine_state := fun s => s
  start_operation := fun s => { s with running := true }
  command := fun s c v => { s with queue := s.queue ++ [(c, v)] }

/-- A stopped, prepared test engine at position `pos` of an infinite setup. -/
def engine_at (pos : Int) : Test_engine :=
  { finished := false, running := false, prepared := true, locked := false,
    position := pos, finite := false, length := 0, queue := [] }

/-- A port with a callback buffer of `bs` samples whose JACK buffer holds `v`. -/
def test_port (bs : Nat) (v : ℚ) : eca_jack_port_data_t :=
  { total_latency := 0, cb_buffer := some (List.replicate bs 0),
    jack_buffer := List.replicate bs v }

/-- A manager as `open_server_connection` and `exec` leave it for block size `bs`:
one input and one output port, seek-ahead `4096 / bs + 1`, no seek target, and
the given engine, mode and server transport. -/
def test_manager (bs : Nat) (mode : Operation_mode) (s : Test_engine)
    (transport : jack_transport_info_t) : AUDIO_IO_JACK_MANAGER Test_engine :=
  { engine_repp := some s
    mode_rep := mode
    open_rep := true
    buffersize_rep := bs
    srate_rep := 48000
    shutdown_request_rep := false
    last_node_id_rep := 1
    node_list_rep := []
    jackslave_seekahead_rep := seekahead_initial bs
    jackslave_seekahead_target_rep := -1
    transport_info_rep :=
      { transport_state := jack_transport_state_t.JackTransportStopped, frame := 0, valid := 0 }
    inports_rep := [test_port bs 5]
    outports_rep := [test_port bs 7]
    engine_mod_lock_rep := Lock_state.unlocked
    server_transport := transport
    calls := [] }

/-- The server transport: state, frame and both valid bits. -/
def transport_at (st : jack_transport_state_t) (frame : Nat) : jack_transport_info_t :=
  { transport_state := st, frame := frame, valid := JackTransportState ||| JackTransportPosition }

/-- A Master-mode manager with block size 4 right after the engine was started at
position 100: the last callback ran with the engine stopped and recorded the
state Stopped at frame 100. -/
def master_after_start : AUDIO_IO_JACK_MANAGER Test_engine :=
  { test_manager 4 Operation_mode.Master { engine_at 100 with running := true }
      (transport_at jack_transport_state_t.JackTransportStopped 100) with
    transport_info_rep := transport_at jack_transport_state_t.JackTransportStopped 100 }

/-- A Master-mode manager with block size 4 whose engine runs at position 100 and
whose recorded transport state is Rolling. -/
def master_rolling : AUDIO_IO_JACK_MANAGER Test_engine :=
  { test_manager 4 Operation_mode.Master { engine_at 100 with running := true }
      (transport_at jack_transport_state_t.JackTransportRolling 100) with
    transport_info_rep := transport_at jack_transport_state_t.JackTransportRolling 100 }

/-- A Slave-mode manager with block size 1024 over a stopped, prepared engine at
position 0; the server transport is stopped at frame 0. -/
def slave_stopped_at_zero : AUDIO_IO_JACK_MANAGER Test_engine :=
  test_manager 1024 Operation_mode.Slave (engine_at 0)
    (transport_at jack_transport_state_t.JackTransportStopped 0)

/-- A Slave-mode manager with block size 4 over a stopped test engine at position
100 that is not prepared; the server transport is rolling at frame 100. -/
def slave_rolling_unprepared : AUDIO_IO_JACK_MANAGER Test_engine :=
  test_manager 4 Operation_mode.Slave { engine_at 100 with prepared := false }
    (transport_at jack_transport_state_t.JackTransportRolling 100)

/-- A Slave-mode manager with block size 4 over a running test engine at position
100; the server transport is rolling at frame 100. -/
def slave_rolling_matched : AUDIO_IO_JACK_MANAGER Test_engine :=
  test_manager 4 Operation_mode.Slave { engine_at 100 with running := true }
    (transport_at jack_transport_state_t.JackTransportRolling 100)

/-- A run of process callbacks in which the server transport is rolling and found
at the given frames in turn. -/
def process_at_frames {σ : Type} (E : ECA_ENGINE σ) (nframes : Nat) :
    List Nat → AUDIO_IO_JACK_MANAGER σ → Option (AUDIO_IO_JACK_MANAGER σ)
  | [], m => some m
  | f :: fs, m =>
    match eca_jack_process E nframes
        { m with server_transport := transport_at jack_transport_state_t.JackTransportRolling f } with
    | none => none
    | some m1 => process_at_frames E nframes fs m1

/-- A Slave-mode manager with block size 1024 as `open_server_connection` leaves it
(seek-ahead `4096 / 1024 + 1`, no seek target) over a running test engine at
position 0. -/
def slave_seeking : AUDIO_IO_JACK_MANAGER Test_engine :=
  test_manager 1024 Operation_mode.Slave { engine_at 0 with running := true }
    (transport_at jack_transport_state_t.JackTransportRolling 0)

/-! ## The batch loop of `exec_normal_iactive` -/

/-- How a run of the batch loop ends within a bound on the number of rounds:
`unfinished` when the bound is reached, `exited` when `start()` ends the process,
`returned e` when the function returns in state `e`. -/
inductive Run where
  | unfinished
  | exited
  | returned (e : ECA_PROCESSOR)

/-- The calls made when the run returned (none otherwise). -/
def Run.trace : Run → List Event
  | Run.returned e => e.trace
  | _ => []

/-- The number of frames passed to output slot `o` by the writes in a trace. -/
def frames_passed (o : Nat) (tr : List Event) : Nat :=
  ((writes_to o tr).map (fun b => b.buffersize_rep)).sum

/-- `eca_jack_srate`, the sample-rate callback (it returns 0): a shutdown is
requested when the notified rate differs from `srate_rep`. -/
def eca_jack_srate {σ : Type} (nframes : Nat) (m : AUDIO_IO_JACK_MANAGER σ) :
    AUDIO_IO_JACK_MANAGER σ :=
  if (nframes : Int) ≠ m.srate_rep then { m with shutdown_request_rep := true } else m

/-- `AUDIO_IO_JACK_MANAGER::register_object`: a new node with the next free id is
appended to the node list. -/
def register_object {σ : Type} (m : AUDIO_IO_JACK_MANAGER σ) : AUDIO_IO_JACK_MANAGER σ :=
  { m with
    node_list_rep := m.node_list_rep ++ [{ client_id := m.last_node_id_rep, ports := [] }]
    last_node_id_rep := m.last_node_id_rep + 1 }

/-- `AUDIO_IO_JACK_MANAGER::get_object_list`. -/
def get_object_list {σ : Type} (m : AUDIO_IO_JACK_MANAGER σ) : List Int :=
  m.node_list_rep.map (fun n => n.client_id)

/-- The loop of `unregister_object`: the first node with the given id is erased, and
the `break` ends the scan. -/
def erase_node (id : Int) : List eca_jack_node_t → List eca_jack_node_t
  | [] => []
  | n :: rest => if n.client_id = id then rest else n :: erase_node id rest

/-- `AUDIO_IO_JACK_MANAGER::unregister_object`, without its `DBC_ENSURE` checks. -/
def unregister_object {σ : Type} (id : Int) (m : AUDIO_IO_JACK_MANAGER σ) :
    AUDIO_IO_JACK_MANAGER σ :=
  { m with node_list_rep := erase_node id m.node_list_rep }

/-- The two conditions `unregister_object` hands to `DBC_ENSURE`, evaluated for the
state before (`m`) and after (`m'`) the call; `old_total_nodes` is an
`unsigned int`, so `old_total_nodes - 1` wraps modulo `2^32`. -/
def unregister_object_ensures {σ : Type} (id : Int) (m m' : AUDIO_IO_JACK_MANAGER σ) :
    Bool × Bool :=
  (decide (m'.node_list_rep.length
      = (m.node_list_rep.length % 4294967296 + 4294967296 - 1) % 4294967296),
    decide ((get_object_list m').count id = 1))

/-- `AUDIO_IO_JACK_MANAGER::get_node`: the first node with the given id (`none` is
the null pointer). -/
def get_node {σ : Type} (client_id : Int) (m : AUDIO_IO_JACK_MANAGER σ) :
    Option eca_jack_node_t :=
  m.node_list_rep.find? (fun n => decide (n.client_id = client_id))

/-- The port loop of `client_latency` entered with the local `latency`. -/
def client_latency_ports : List eca_jack_port_data_t → Int → Int
  | [], latency => latency
  | p :: rest, latency =>
    if latency = -1 then client_latency_ports rest p.total_latency
    else if (p.total_latency : Int) > latency then client_latency_ports rest p.total_latency
    else client_latency_ports rest latency

/-- `AUDIO_IO_JACK_MANAGER::client_latency`; `none` is a dereference of the null
pointer `get_node` returns for an unknown client. -/
def client_latency {σ : Type} (client_id : Int) (m : AUDIO_IO_JACK_MANAGER σ) :
    Option Int :=
  match get_node client_id m with
  | none => none
  | some node => some (client_latency_ports node.ports (-1))

/-- A manager with three registered objects (ids 1, 2 and 3). -/
def three_objects : AUDIO_IO_JACK_MANAGER Test_engine :=
  register_object (register_object (register_object
    (test_manager 4 Operation_mode.Streaming (engine_at 0)
      (transport_at jack_transport_state_t.JackTransportStopped 0))))

/-- A manager with one client (id 1) that has three ports of latencies 256, 1024
and 512. -/
def latency_manager : AUDIO_IO_JACK_MANAGER Test_engine :=
  { test_manager 4 Operation_mode.Streaming (engine_at 0)
      (transport_at jack_transport_state_t.JackTransportStopped 0) with
    node_list_rep := [{ client_id := 1, ports :=
      [{ total_latency := 256, cb_buffer := none, jack_buffer := [] },
       { total_latency := 1024, cb_buffer := none, jack_buffer := [] },
       { total_latency := 512, cb_buffer := none, jack_buffer := [] }] }]
    last_node_id_rep := 2 }

/-! ## Multitrack start: the timestamp behind `sync_fix` -/

/-- The `seek_position_in_samples_advance` calls in a trace, oldest first: the
object advanced and the amount. -/
def sync_advances : List Event → List ( AUDIO_IO × Int)
  | [] => []
  | Event.seek_position_in_samples_advance o n :: rest => (o, n) :: sync_advances rest
  | _ :: rest => sync_advances rest

/-- An environment for `start()` in which every read delivers silence, the clock
shows 0 after the first warm-up read and 1000000 (one second later) after the
second, and `start()` reads the clock at 1000000; the proxy server answers both
waits. -/
def late_env : StartEnv :=
  { rd1 := silent_reads, stamp1 := 0, rd2 := silent_reads, stamp2 := 1000000, now := 1000000,
    pserver_is_running := true, pserver_is_full := true }

/-! ## An input no chain reads -/

/-- Two file inputs and one chain, from the first input to the only output: no
chain reads the second input. -/
def spare_input_setup : ECA_CHAINSETUP :=
  setup_of [file_object 1 1, file_object 2 1] [file_object 3 1]
    [plain_chain (file_object 1 1) (file_object 3 1)]

/-- The engine for `spare_input_setup` at the top of a block iteration. -/
def spare_input_engine : ECA_PROCESSOR :=
  { engine_for (session_of spare_input_setup) spare_input_setup with
    input_not_finished := false }

/-- Reads in which input slot 0 reports finished and every other slot does not. -/
def first_finished_reads : ReadEnv := fun i => (silence_block, decide (i = 0))

/-! ## The MIDI input ring (`eca-midi.cpp`) -/

/-- Modelled from the spec: the members of `MIDI_IN_QUEUE` (its declaration in
`eca-midi.h` is not among the sources; the spec calls it the MIDI input ring).  The
index members are signed integers, `buffer` holds the raw bytes `0..255` of the
`vector<char>`, and `controller_value` is the `double` as an exact rational. -/
structure MIDI_IN_QUEUE where
  right : Bool
  current_put : Int
  current_get : Int
  bufsize : Int
  controller_value : ℚ
  buffer : List Nat

/-- `MIDI_IN_QUEUE::is_status_byte`: `(byte & 128) == 128`. -/
def MIDI_IN_QUEUE.is_status_byte (byte : Nat) : Bool :=
  decide (byte &&& 128 = 128)

/-- The value of a `char` holding the raw byte `b` (two's complement, 8 bits). -/
def char_value (b : Nat) : Int :=
  if b % 256 < 128 then ((b % 256 : Nat) : Int) else ((b % 256 : Nat) : Int) - 256

/-- `MIDI_IN_QUEUE::put`. -/
def MIDI_IN_QUEUE.put (q : MIDI_IN_QUEUE) (byte : Nat) : MIDI_IN_QUEUE :=
  let q1 := { q with
    buffer := q.buffer.set q.current_put.toNat byte
    current_put := q.current_put + 1 }
  if q1.current_put = q1.bufsize then { q1 with current_put := 0 } else q1

/-- `MIDI_IN_QUEUE::forth_get`: the returned flag and the queue afterwards. -/
def MIDI_IN_QUEUE.forth_get (q : MIDI_IN_QUEUE) : Bool × MIDI_IN_QUEUE :=
  let q1 := { q with current_get := q.current_get + 1 }
  if q1.current_get = q1.current_put - 1 then (false, q1)
  else if q1.current_put = 0 ∧ q1.current_get = q1.bufsize then (false, q1)
  else if q1.current_put = 1 ∧ q1.current_get = 1 then (false, q1)
  else if q1.current_get = q1.bufsize then (true, { q1 with current_get := 0 })
  else (true, q1)

/-- The state of one `update_controller_value` call: the queue, the locals
`value_found` and `value_used`, and a record of what the scan did: the number of
`forth_get` calls and the buffer indices read, oldest first. -/
structure Scan where
  q : MIDI_IN_QUEUE
  value_found : Bool
  value_used : Int
  forth_get_calls : Nat
  reads : List Int

/-- The byte `buffer[current_get]`. -/
def Scan.byte (s : Scan) : Nat := s.q.buffer.getD s.q.current_get.toNat 0

/-- Records a read of `buffer[current_get]`. -/
def Scan.log_read (s : Scan) : Scan := { s with reads := s.reads ++ [s.q.current_get] }

/-- A call of `forth_get()` inside the scan. -/
def Scan.forth (s : Scan) : Bool × Scan :=
  ((s.q.forth_get).1,
    { s with q := (s.q.forth_get).2, forth_get_calls := s.forth_get_calls + 1 })

/-- The assignment to `right` on a status byte. -/
def Scan.set_right (s : Scan) (r : Bool) : Scan := { s with q := { s.q with right := r } }

/-- The three assignments after the data byte: `controller_value`, `value_found`,
`value_used`. -/
def Scan.take_value (s : Scan) : Scan :=
  { s with
    q := { s.q with controller_value := (char_value s.byte : ℚ) }
    value_found := true
    value_used := s.q.current_get }

/-- One round of the `for(;;)` loop of `update_controller_value`; the flag is
false when the round left the loop through `break`. -/
def scan_body (controller channel : ℚ) (s0 : Scan) : Bool × Scan :=
  let s := s0.log_read
  if MIDI_IN_QUEUE.is_status_byte s.byte = true then
    let s1 :=
      if s.byte &&& (15 <<< 4) = 11 <<< 4 then
        s.set_right (decide (((s.byte &&& 15 : Nat) : ℚ) = channel))
      else s
    s1.forth
  else if s.q.right = true then
    if (char_value s.byte : ℚ) ≠ controller then
      if (s.forth).1 = false then (false, (s.forth).2)
      else (s.forth).2.forth
    else if (s.forth).1 = false then (false, (s.forth).2)
    else if MIDI_IN_QUEUE.is_status_byte (s.forth).2.log_read.byte = true then
      (true, (s.forth).2.log_read)
    else (s.forth).2.log_read.take_value.forth
  else s.forth

/-- The `for(;;)` loop, one round per unit of fuel; `none` when the fuel runs out
before a `break`. -/
def scan_loop (controller channel : ℚ) : Nat → Scan → Option Scan
  | 0, _ => none
  | fuel + 1, s =>
    if (scan_body controller channel s).1 = true then
      scan_loop controller channel fuel (scan_body controller channel s).2
    else some (scan_body controller channel s).2

/-- `MIDI_IN_QUEUE::update_controller_value`: the scan from `current_put`; the
return value is `value_found` of the result. -/
def MIDI_IN_QUEUE.update_controller_value (fuel : Nat) (q : MIDI_IN_QUEUE)
    (controller channel : ℚ) : Option Scan :=
  scan_loop controller channel fuel
    { q := { q with current_get := q.current_put }
      value_found := false, value_used := 0, forth_get_calls := 0, reads := [] }

/-- The number of `forth_get` steps from `current_put` round the ring to index `g`. -/
def ring_rank (P B g : Int) : Int := if P ≤ g then g - P else g + B - P

/-- The rank at which `forth_get` returns false. -/
def last_rank (P B : Int) : Int := if P ≤ 1 then B - 1 else B - 2

/-- The scan is at the top of a round: `current_get` is a valid index, the number
of `forth_get` calls so far is its rank, and every read was in range. -/
structure Scan.Good (P B : Int) (s : Scan) : Prop where
  put : s.q.current_put = P
  size : s.q.bufsize = B
  lo : 0 ≤ s.q.current_get
  hi : s.q.current_get < B
  calls : (s.forth_get_calls : Int) = ring_rank P B s.q.current_get
  bound : ring_rank P B s.q.current_get ≤ last_rank P B
  reads : ∀ i ∈ s.reads, 0 ≤ i ∧ i < B

/-- The scan has left the loop: `forth_get` was called at most `bufsize` times and
every read was in range. -/
structure Scan.Done (P B : Int) (s : Scan) : Prop where
  put : s.q.current_put = P
  size : s.q.bufsize = B
  calls : (s.forth_get_calls : Int) ≤ last_rank P B + 1
  reads : ∀ i ∈ s.reads, 0 ≤ i ∧ i < B

/-- A ring of eight bytes holding a control change on channel 0 (status `0xB0`),
controller 7, value 100, written at indices 2..4, with `current_put` at 2. -/
def midi_ring : MIDI_IN_QUEUE :=
  { right := false, current_put := 2, current_get := 0, bufsize := 8,
    controller_value := 0, buffer := [0, 0, 176, 7, 100, 0, 0, 0] }

/-! ## The command queue and `interpret_queue` (`eca-main.cpp`) -/

/-- Modelled from the spec: the opcodes of the command queue (the header that
declares the `ep_*` codes is not among the sources; the spec lists them as `Start`,
`Stop`, `Exit`, `ChainSelect`, `ChainMute`, `ChainBypass`, `ChainRewind`,
`ChainForward`, `ChainSetPos`, `OpSelect`, `ParamSelect`, `ParamSet`, `Rewind`,
`Forward`, `SetPos`, ...).  The names are those of the `case` labels of
`interpret_queue`; `other` is a code the `switch` has no case for. -/
inductive Queue_command where
  | ep_exit
  | ep_start
  | ep_stop
  | ep_c_select
  | ep_c_mute
  | ep_c_bypass
  | ep_c_rewind
  | ep_c_forward
  | ep_c_setpos
  | ep_cop_select
  | ep_copp_select
  | ep_copp_value
  | ep_rewind
  | ep_forward
  | ep_setpos
  | other (code : Int)
deriving DecidableEq, Repr

/-- Why a call of `interpret_queue` does not return: `start()` ended the process
(`exit(-1)` or a failed `assert`), `(*chains)[active_chain_index]` indexed past the
end of the chain vector, a null endpoint pointer of the chain was dereferenced, or
a wait for the proxy server (`while (...) usleep(50000)`) never ends. -/
inductive Fault where
  | start_aborted
  | chain_out_of_range (index : Nat)
  | null_endpoint (chain : Nat)
  | pserver_wait
deriving DecidableEq, Repr

/-- Calls `interpret_queue` makes on chains and audio objects, in the order they
happen.  `seek_from_current o d` is
`o->seek_position_in_seconds(o->position_in_seconds() + d)`. -/
inductive Object_call where
  | select_chain_operator (chain index : Nat)
  | set_parameter (chain param : Nat) (value : ℚ)
  | seek_position_in_seconds (o : AUDIO_IO) (seconds : ℚ)
  | seek_from_current (o : AUDIO_IO) (seconds : ℚ)
deriving DecidableEq

/-- The conversion of a `double` to `long int`: truncation towards zero. -/
def double_to_long (x : ℚ) : Int := Int.tdiv x.num x.den

/-- The number of halvings that take `n` below 2 (`⌊log₂ n⌋` for `n ≥ 1`), at most
`fuel`. -/
def halvings : Nat → Nat → Nat
  | 0, _ => 0
  | fuel + 1, n => if n < 2 then 0 else halvings fuel (n / 2) + 1

/-- The integer `e` with `2^e ≤ |x| < 2^(e+1)` for a rational `x ≠ 0`. -/
def binary_exponent (x : ℚ) : Int :=
  let c : Int := (halvings x.num.natAbs x.num.natAbs : Int) - (halvings x.den x.den : Int)
  if (2 : ℚ) ^ c ≤ |x| then c else c - 1

/-- The `double` nearest to the rational `x` (IEEE 754 binary64: 53 significant
bits, round to nearest, ties to even): the result of a `double` operation whose
exact value is `x`.  The exponent range is not limited, so this is the value C++
computes when `x` is 0 or within the normal range of a `double`. -/
def to_double (x : ℚ) : ℚ :=
  if x = 0 then 0
  else
    let e : Int := binary_exponent x - 52
    let m : ℚ := |x| / (2 : ℚ) ^ e
    let f : Int := ⌊m⌋
    let r : Int :=
      if m - (f : ℚ) < 1 / 2 then f
      else if 1 / 2 < m - (f : ℚ) then f + 1
      else if f % 2 = 0 then f
      else f + 1
    (if x < 0 then -1 else 1) * (r : ℚ) * (2 : ℚ) ^ e

/-- The cast `static_cast<size_t>(x)` of a `double` (64-bit `size_t`): truncation
towards zero, taken modulo `2^64`.  C++ defines the cast only for
`0 ≤ x < 2^64`, where this is the truncated value. -/
def to_size_t (x : ℚ) : Nat := (double_to_long x % 18446744073709551616).toNat

/-- The `size_t` subtraction `a - b`. -/
def size_t_sub (a b : Nat) : Nat :=
  (a + 18446744073709551616 - b % 18446744073709551616) % 18446744073709551616

/-- The engine together with what `interpret_queue` uses besides it: the members
`active_chainop_index` and `active_chainop_param_index`, the global
`ecasound_queue` (items `pair<int,double>`, the front first), and a record of the
run: the fault that ended it (if any), the commands other than `ep_exit` whose
`case` has run, the indices used in `(*chains)[...]`, and the calls made on chains
and objects. -/
structure Queue_state where
  engine : ECA_PROCESSOR
  active_chainop_index : Nat
  active_chainop_param_index : Nat
  ecasound_queue : List (Queue_command × ℚ)
  fault : Option Fault
  executed : List (Queue_command × ℚ)
  chain_accesses : List Nat
  calls : List Object_call

/-- A statement that evaluates `(*chains)[active_chain_index]`: the index is
recorded. -/
def Queue_state.access_chain (s : Queue_state) : Queue_state :=
  { s with chain_accesses := s.chain_accesses ++ [s.engine.active_chain_index] }

/-- The run ends with the given fault. -/
def Queue_state.fail (s : Queue_state) (f : Fault) : Queue_state :=
  { s with fault := some f }

/-- The engine is replaced by the result of `start()`, or the run ends when that
call ended the process. -/
def Queue_state.started (s : Queue_state) (r : Option ECA_PROCESSOR) : Queue_state :=
  match r with
  | none => s.fail Fault.start_aborted
  | some e => { s with engine := e }

/-- The call `conditional_stop()` of a command: the run ends when the wait for the
proxy server never ends. -/
def Queue_state.cond_stop (env : StartEnv) (s : Queue_state) : Queue_state :=
  match conditional_stop s.engine env with
  | none => s.fail Fault.pserver_wait
  | some e => { s with engine := e }

/-- The call `conditional_start()` of a command: the run ends when `start()` ended
the process (without double buffering) or the wait for the proxy server never ends
(with double buffering). -/
def Queue_state.cond_start (env : StartEnv) (s : Queue_state) : Queue_state :=
  match conditional_start s.engine env with
  | none =>
    s.fail (if s.engine.csetup.double_buffering != true then Fault.start_aborted
      else Fault.pserver_wait)
  | some e => { s with engine := e }

/-- The next statement of a command: it is not reached once the run has ended. -/
def Queue_state.next (s : Queue_state) (f : Queue_state → Queue_state) : Queue_state :=
  if s.fault = none then f s else s

/-- Chain `i` of the engine is replaced. -/
def Queue_state.set_chain (s : Queue_state) (i : Nat) (c : CHAIN) : Queue_state :=
  { s with engine := { s.engine with
      csetup := { s.engine.csetup with chains := s.engine.csetup.chains.set i c } } }

/-- A call on a chain or an object is recorded. -/
def Queue_state.call (s : Queue_state) (c : Object_call) : Queue_state :=
  { s with calls := s.calls ++ [c] }

/-- `ECA_PROCESSOR::chain_muting`. -/
def chain_muting (s : Queue_state) : Queue_state :=
  match s.engine.csetup.chains[s.engine.active_chain_index]? with
  | none => s.access_chain.fail (Fault.chain_out_of_range s.engine.active_chain_index)
  | some c =>
    if c.muted = true then
      s.access_chain.access_chain.set_chain s.engine.active_chain_index { c with muted := false }
    else
      s.access_chain.access_chain.set_chain s.engine.active_chain_index { c with muted := true }

/-- `ECA_PROCESSOR::chain_processing`. -/
def chain_processing (s : Queue_state) : Queue_state :=
  match s.engine.csetup.chains[s.engine.active_chain_index]? with
  | none => s.access_chain.fail (Fault.chain_out_of_range s.engine.active_chain_index)
  | some c =>
    if c.processing = true then
      s.access_chain.access_chain.set_chain s.engine.active_chain_index
        { c with processing := false }
    else
      s.access_chain.access_chain.set_chain s.engine.active_chain_index
        { c with processing := true }

/-- The two seeks of `set_position_chain` / `change_position_chain` on the
endpoints of the active chain, `mk` building the call on an endpoint. -/
def seek_chain_endpoints (mk : AUDIO_IO → Object_call) (s : Queue_state) : Queue_state :=
  match s.engine.csetup.chains[s.engine.active_chain_index]? with
  | none => s.access_chain.fail (Fault.chain_out_of_range s.engine.active_chain_index)
  | some c =>
    match c.input_id_repp with
    | none => s.access_chain.fail (Fault.null_endpoint s.engine.active_chain_index)
    | some inp =>
      match c.output_id_repp with
      | none =>
        ((s.access_chain.call (mk inp)).access_chain).fail
          (Fault.null_endpoint s.engine.active_chain_index)
      | some out => ((s.access_chain.call (mk inp)).access_chain).call (mk out)

/-- `ECA_PROCESSOR::set_position_chain`. -/
def set_position_chain (env : StartEnv) (seconds : ℚ) (s : Queue_state) : Queue_state :=
  ((s.cond_stop env).next
    (seek_chain_endpoints (fun o => Object_call.seek_position_in_seconds o seconds))).next
    (Queue_state.cond_start env)

/-- `ECA_PROCESSOR::change_position_chain`. -/
def change_position_chain (env : StartEnv) (seconds : ℚ) (s : Queue_state) : Queue_state :=
  ((s.cond_stop env).next
    (seek_chain_endpoints (fun o => Object_call.seek_from_current o seconds))).next
    (Queue_state.cond_start env)

/-- The engine with the chainsetup position set to `samples`
(`csetup->set_position(samples)`). -/
def set_csetup_position (e : ECA_PROCESSOR) (samples : Int) : ECA_PROCESSOR :=
  { e with csetup := { e.csetup with position_in_samples := samples } }

/-- The statements of `set_position` between `conditional_stop()` and
`conditional_start()`: the `double` product `seconds * sample_rate` is converted to
the `long` the chainsetup takes, and every non-realtime object is seeked. -/
def set_position_seeks (seconds : ℚ) (s : Queue_state) : Queue_state :=
  { s with
    engine := set_csetup_position s.engine
      (double_to_long (to_double (seconds * (s.engine.csetup.sample_rate : ℚ))))
    calls := s.calls ++ s.engine.non_realtime_objects.map
      (fun o => Object_call.seek_position_in_seconds o seconds) }

/-- `ECA_PROCESSOR::set_position`. -/
def set_position (env : StartEnv) (seconds : ℚ) (s : Queue_state) : Queue_state :=
  ((s.cond_stop env).next (set_position_seeks seconds)).next (Queue_state.cond_start env)

/-- The statements of `change_position` between `conditional_stop()` and
`conditional_start()`: `seconds` is converted to the `long` that
`csetup->change_position` takes, and every non-realtime object is seeked. -/
def change_position_seeks (seconds : ℚ) (s : Queue_state) : Queue_state :=
  { s with
    engine := { s.engine with
      csetup := s.engine.csetup.change_position (double_to_long seconds) }
    calls := s.calls ++ s.engine.non_realtime_objects.map
      (fun o => Object_call.seek_from_current o seconds) }

/-- `ECA_PROCESSOR::change_position`. -/
def change_position (env : StartEnv) (seconds : ℚ) (s : Queue_state) : Queue_state :=
  ((s.cond_stop env).next (change_position_seeks seconds)).next (Queue_state.cond_start env)

/-- The `case ep_copp_value` of `interpret_queue`. -/
def copp_value (value : ℚ) (s : Queue_state) : Queue_state :=
  match s.engine.csetup.chains[s.engine.active_chain_index]? with
  | none => s.access_chain.fail (Fault.chain_out_of_range s.engine.active_chain_index)
  | some c =>
    if size_t_sub s.active_chainop_index 1 < c.chainops_rep.length then
      (((s.access_chain.access_chain).call
        (Object_call.select_chain_operator s.engine.active_chain_index
          s.active_chainop_index)).access_chain).call
        (Object_call.set_parameter s.engine.active_chain_index
          s.active_chainop_param_index value)
    else s.access_chain

/-- The assignment `active_chain_index = static_cast<size_t>(item.second)`. -/
def c_select (value : ℚ) (s : Queue_state) : Queue_state :=
  { s with engine := { s.engine with active_chain_index := to_size_t value } }

/-- The `switch` of `interpret_queue` on an item other than `ep_exit`. -/
def exec_command (env : StartEnv) (item : Queue_command × ℚ) (s : Queue_state) :
    Queue_state :=
  match item.1 with
  | Queue_command.ep_exit => s
  | Queue_command.ep_start => s.started (start s.engine env)
  | Queue_command.ep_stop => { s with engine := stop s.engine }
  | Queue_command.ep_c_select => c_select item.2 s
  | Queue_command.ep_c_mute => chain_muting s
  | Queue_command.ep_c_bypass => chain_processing s
  | Queue_command.ep_c_rewind => change_position_chain env (-item.2) s
  | Queue_command.ep_c_forward => change_position_chain env item.2 s
  | Queue_command.ep_c_setpos => set_position_chain env item.2 s
  | Queue_command.ep_cop_select => { s with active_chainop_index := to_size_t item.2 }
  | Queue_command.ep_copp_select => { s with active_chainop_param_index := to_size_t item.2 }
  | Queue_command.ep_copp_value => copp_value item.2 s
  | Queue_command.ep_rewind => change_position env (-item.2) s
  | Queue_command.ep_forward => change_position env item.2 s
  | Queue_command.ep_setpos => set_position env item.2 s
  | Queue_command.other _ => s

/-- The `case ep_exit`: the queue is emptied, the engine stopped, `end_request`
set. -/
def exec_exit (s : Queue_state) : Queue_state :=
  { s with
    ecasound_queue := []
    engine := { stop s.engine with end_request := true } }

/-- The item at the front has been handled: `pop_front()`. -/
def pop_front (item : Queue_command × ℚ) (rest : List (Queue_command × ℚ))
    (s : Queue_state) : Queue_state :=
  { s with ecasound_queue := rest, executed := s.executed ++ [item] }

/-- The `while` loop of `interpret_queue` over the queued items; `envs n` is what
the `start()` and the proxy-server waits of the command after `n` executed ones
meet.  A fault ends the run with the faulting item still at the front. -/
def interpret_queue_loop (envs : Nat → StartEnv) :
    List (Queue_command × ℚ) → Queue_state → Queue_state
  | [], s => s
  | item :: rest, s =>
    if item.1 = Queue_command.ep_exit then exec_exit s
    else if (exec_command (envs s.executed.length) item s).fault = none then
      interpret_queue_loop envs rest
        (pop_front item rest (exec_command (envs s.executed.length) item s))
    else exec_command (envs s.executed.length) item s

/-- `ECA_PROCESSOR::interpret_queue`; it returns exactly when the result has no
fault. -/
def interpret_queue (envs : Nat → StartEnv) (s : Queue_state) : Queue_state :=
  interpret_queue_loop envs s.ecasound_queue s

/-- A state of the queue interpreter on the given engine, with both operator
indices 0 and nothing recorded yet. -/
def queue_state (e : ECA_PROCESSOR) (q : List (Queue_command × ℚ)) : Queue_state :=
  { engine := e, active_chainop_index := 0, active_chainop_param_index := 0,
    ecasound_queue := q, fault := none, executed := [], chain_accesses := [], calls := [] }

/-- The two endpoint pointers of a chain. -/
def chain_ends (c : CHAIN) : Option AUDIO_IO × Option AUDIO_IO :=
  (c.input_id_repp, c.output_id_repp)

/-- What the commands of the queue other than `ep_c_select` keep of the engine:
the endpoints of every chain (so also the number of chains), the multitrack
switch, the active chain index, the realtime endpoints, the sample rate and the
double-buffering switch. -/
structure SameEnds (e e' : ECA_PROCESSOR) : Prop where
  ends : e'.csetup.chains.map chain_ends = e.csetup.chains.map chain_ends
  multitrack : e'.eparams.multitrack_mode_rep = e.eparams.multitrack_mode_rep
  active : e'.active_chain_index = e.active_chain_index
  realtime_inputs : e'.realtime_inputs = e.realtime_inputs
  realtime_outputs : e'.realtime_outputs = e.realtime_outputs
  sample_rate : e'.csetup.sample_rate = e.csetup.sample_rate
  double_buffering : e'.csetup.double_buffering = e.csetup.double_buffering

/-- A condition under which `start()` returns: outside multitrack mode always; in
multitrack mode when there are realtime inputs and realtime outputs and `sync_fix`,
computed from the stamp of the second warm-up read, is not negative. -/
def start_returns (e : ECA_PROCESSOR) (env : StartEnv) : Prop :=
  e.eparams.multitrack_mode_rep = true →
    e.realtime_inputs ≠ [] ∧ e.realtime_outputs ≠ [] ∧
    0 ≤ Int.tdiv ((env.now - env.stamp2) * (e.csetup.sample_rate : Int)) 1000000

/-- Under double buffering the proxy server answers both waits. -/
def waits_end (e : ECA_PROCESSOR) (env : StartEnv) : Prop :=
  e.csetup.double_buffering = true →
    env.pserver_is_running = true ∧ env.pserver_is_full = true

/-- What one command other than `ep_c_select` does to the record of the run: the
queue and the executed commands are left alone, the engine keeps its chain
endpoints, every recorded chain access uses the active chain index, and a new
fault has its cause in the state the command started from. -/
structure Exec_rel (env : StartEnv) (s s' : Queue_state) : Prop where
  executed : s'.executed = s.executed
  queue : s'.ecasound_queue = s.ecasound_queue
  engine : SameEnds s.engine s'.engine
  accesses : ∃ k, s'.chain_accesses
    = s.chain_accesses ++ List.replicate k s.engine.active_chain_index
  fault : s'.fault = s.fault ∨
    (s'.fault = some (Fault.chain_out_of_range s.engine.active_chain_index) ∧
      s.engine.csetup.chains.length ≤ s.engine.active_chain_index) ∨
    (s'.fault = some (Fault.null_endpoint s.engine.active_chain_index) ∧
      ∃ p ∈ s.engine.csetup.chains.map chain_ends, p.1 = none ∨ p.2 = none) ∨
    (s'.fault = some Fault.start_aborted ∧ ¬ start_returns s.engine env) ∨
    (s'.fault = some Fault.pserver_wait ∧ ¬ waits_end s.engine env)

/-- The chain indexing of the run is in range: the engine has `n` chains, the
active chain index is below `n`, and the run has not ended on an out-of-range
access. -/
structure Chains_valid (n : Nat) (s : Queue_state) : Prop where
  length : s.engine.csetup.chains.length = n
  active : s.engine.active_chain_index < n
  fault : ∀ i, s.fault ≠ some (Fault.chain_out_of_range i)

/-- Nothing can end the run: every `start()` returns, under double buffering the
proxy server answers every wait, every chain has both endpoints, and no fault has
happened. -/
structure Safe (envs : Nat → StartEnv) (s : Queue_state) : Prop where
  starts : ∀ n, start_returns s.engine (envs n)
  waits : ∀ n, waits_end s.engine (envs n)
  ends : ∀ p ∈ s.engine.csetup.chains.map chain_ends, p.1 ≠ none ∧ p.2 ≠ none
  fault : s.fault = none

/-- An environment for `start()` in which the clock read by `start()` (0) is behind
the stamp taken after the second warm-up read (1000000); the proxy server answers
both waits. -/
def early_env : StartEnv :=
  { rd1 := silent_reads, stamp1 := 0, rd2 := silent_reads, stamp2 := 1000000, now := 0,
    pserver_is_running := true, pserver_is_full := true }

/-- The playback engine with its only chain released from its output. -/
def released_engine : ECA_PROCESSOR :=
  { playback_engine with
    csetup := { playback_engine.csetup with
      chains := [{ plain_chain (file_object 1 1) (device_object 2 1) with
        output_id_repp := none }] } }

/-- The playback engine with one chain operator (the identity) on its chain. -/
def operator_engine : ECA_PROCESSOR :=
  { playback_engine with
    csetup := { playback_engine.csetup with
      chains := [{ plain_chain (file_object 1 1) (device_object 2 1) with
        chainops_rep := [fun b => b] }] } }

/-- The playback setup with double buffering (proxy buffers of 8 frames). -/
def buffered_setup : ECA_CHAINSETUP :=
  { playback_setup with double_buffering := true, double_buffer_size := 8 }

/-- The engine constructed for `buffered_setup`, after `start()`. -/
def buffered_running_engine : ECA_PROCESSOR :=
  start_of (engine_for (session_of buffered_setup) buffered_setup) idle_env

/-- An environment in which the proxy server never reports `is_running()`. -/
def deaf_env : StartEnv := { idle_env with pserver_is_running := false }

/-- An environment in which the proxy server is reported running after a stop but
never full: the wait of `conditional_start()` does not end. -/
def starved_env : StartEnv := { idle_env with pserver_is_full := false }

/-- The engine constructed for the playback setup (no realtime input) in a session
whose multitrack flag is already set. -/
def forced_multitrack_engine : ECA_PROCESSOR :=
  engine_for { session_of playback_setup with multitrack_mode_rep := true } playback_setup

/-! ## Lemmas on the chain loop of `mix_to_outputs` -/

theorem writes_to_append (i : Nat) (xs ys : List Event) :
    writes_to i (xs ++ ys) = writes_to i xs ++ writes_to i ys := by
  induction xs with
  | nil => rfl
  | cons x xs ih =>
    cases x <;> simp [writes_to, ih]
    split <;> simp

theorem length_in_samples_self (s : SAMPLE_BUFFER) (bs : Nat) (h : s.buffersize_rep = bs) :
    s.length_in_samples bs = s := by
  cases s
  simp only [SAMPLE_BUFFER.length_in_samples] at *
  simp [h]

theorem set_getElem?_same {α : Type} :
    ∀ (cs : List α) (n : Nat) (a : α), cs[n]? = some a → cs.set n a = cs
  | [], _, _, _ => rfl
  | x :: xs, 0, a, h => by
    simp at h
    simp [h]
  | x :: xs, n + 1, a, h => by
    simp at h
    simp [set_getElem?_same xs n a h]

theorem set_getD_length_self (cs : List SAMPLE_BUFFER) (n bs : Nat)
    (h : ∀ s ∈ cs, s.buffersize_rep = bs) :
    cs.set n ((cs.getD n default).length_in_samples bs) = cs := by
  by_cases hn : n < cs.length
  · rw [List.getD_eq_getElem _ _ hn,
      length_in_samples_self _ _ (h _ (List.getElem_mem hn))]
    exact set_getElem?_same _ _ _ (List.getElem?_eq_getElem hn)
  · exact List.set_eq_of_length_le (Nat.le_of_not_lt hn)

theorem mix_chains_writes_other (out : AUDIO_IO) (slot k bs o : Nat) (h : slot ≠ o) :
    ∀ (l : List (Nat × CHAIN)) (st : MixLoop),
      writes_to o (mix_to_outputs_chains out slot k bs l st).trace = writes_to o st.trace := by
  intro l
  induction l with
  | nil => intro st; rfl
  | cons p rest ih =>
    intro st
    obtain ⟨n, c⟩ := p
    simp only [mix_to_outputs_chains]
    split
    · exact ih st
    · split
      · split
        · simp [writes_to_append, writes_to, h]
        · split
          · rw [ih]; simp [writes_to_append, writes_to, h]
          · rw [ih]
      · exact ih st

theorem enumFrom_filter_length {α : Type} (f : α → Bool) :
    ∀ (l : List α) (n : Nat),
      ((l.enumFrom n).filter (fun p => f p.2)).length = l.countP f
  | [], _ => rfl
  | x :: xs, n => by
    cases hx : f x <;>
      simp [List.enumFrom_cons, List.filter, List.countP_cons, hx,
        enumFrom_filter_length f xs (n + 1)]

theorem enum_split {α : Type} (l : List α) (o : Nat) (a : α) (h : l[o]? = some a) :
    l.enum = (l.take o).enum ++ (o, a) :: (l.drop (o + 1)).enumFrom (o + 1) ∧
      (∀ p ∈ (l.take o).enum, p.1 ≠ o) ∧
      (∀ p ∈ (l.drop (o + 1)).enumFrom (o + 1), p.1 ≠ o) := by
  obtain ⟨ho, ha⟩ := List.getElem?_eq_some.mp h
  have hlen : (l.take o).length = o := by
    rw [List.length_take]; exact min_eq_left (Nat.le_of_lt ho)
  refine ⟨?_, ?_, ?_⟩
  · have hl : l = l.take o ++ a :: l.drop (o + 1) := by
      rw [← ha, ← List.drop_eq_getElem_cons ho, List.take_append_drop]
    conv_lhs => rw [hl]
    rw [List.enum_append, hlen, List.enumFrom_cons]
  · intro p hp
    have := List.fst_lt_add_of_mem_enumFrom hp
    omega
  · intro p hp
    have := List.le_fst_of_mem_enumFrom hp
    omega

theorem mix_fold_writes_other (o : Nat) :
    ∀ (l : List (Nat × AUDIO_IO)) (e : ECA_PROCESSOR),
      (∀ p ∈ l, p.1 ≠ o) →
      writes_to o (l.foldl (fun acc p => mix_to_outputs_step acc p.1 p.2) e).trace
        = writes_to o e.trace
  | [], _, _ => rfl
  | p :: rest, e, h => by
    simp only [List.foldl_cons]
    rw [mix_fold_writes_other o rest _ (fun q hq => h q (List.mem_cons_of_mem _ hq))]
    simp only [mix_to_outputs_step]
    exact mix_chains_writes_other p.2 p.1 _ _ o (h p (List.mem_cons_self _ _)) _ _

theorem mix_step_eq (e : ECA_PROCESSOR) (slot : Nat) (out : AUDIO_IO) :
    mix_to_outputs_step e slot out =
      { e with
        mixslot := (mix_to_outputs_step e slot out).mixslot
        cslots := (mix_to_outputs_step e slot out).cslots
        trace := (mix_to_outputs_step e slot out).trace } := rfl

theorem mix_fold_eq :
    ∀ (l : List (Nat × AUDIO_IO)) (e : ECA_PROCESSOR),
      l.foldl (fun acc p => mix_to_outputs_step acc p.1 p.2) e =
        { e with
          mixslot := (l.foldl (fun acc p => mix_to_outputs_step acc p.1 p.2) e).mixslot
          cslots := (l.foldl (fun acc p => mix_to_outputs_step acc p.1 p.2) e).cslots
          trace := (l.foldl (fun acc p => mix_to_outputs_step acc p.1 p.2) e).trace }
  | [], _ => rfl
  | p :: rest, e => by
    have ih := mix_fold_eq rest (mix_to_outputs_step e p.1 p.2)
    exact ih.trans rfl

/-! ## C1: equal-weight mixing -/

theorem written_slots_append (xs ys : List Event) :
    written_slots (xs ++ ys) = written_slots xs ++ written_slots ys := by
  induction xs with
  | nil => rfl
  | cons x xs ih => cases x <;> simp [written_slots, ih]

theorem is_slave_output_chains_iff (o : AUDIO_IO) :
    ∀ (l : List CHAIN), is_slave_output_chains (some o) l = true ↔
      ∃ c ∈ l, c.output_id_repp = some o ∧
        ∃ i, c.input_id_repp = some i ∧ i.is_device = true := by
  intro l
  induction l with
  | nil => simp [is_slave_output_chains]
  | cons q rest ih =>
    simp only [is_slave_output_chains, List.mem_cons, exists_eq_or_imp]
    by_cases hq : q.output_id_repp = some o
    · rw [if_pos hq]
      cases hi : q.input_id_repp with
      | none => simp [dynamic_cast_device, ih, hq]
      | some i =>
        cases hd : i.is_device with
        | true => simp [dynamic_cast_device, hd, hq]
        | false => simp [dynamic_cast_device, hd, ih, hq]
    · rw [if_neg hq]
      simp [ih, hq]

/-- C3: `is_slave_output(o)` returns true exactly when `o` is not a realtime device
and some chain has `o` as its output and a realtime device as its input. -/
theorem is_slave_output_iff (e : ECA_PROCESSOR) ( o : AUDIO_IO) :
    is_slave_output e (some o) = true ↔
      (o.is_device = false ∧
        ∃ c ∈ e.csetup.chains, c.output_id_repp = some o ∧
          ∃ i, c.input_id_repp = some i ∧ i.is_device = true) := by
  cases hd : o.is_device with
  | true => simp [is_slave_output, dynamic_cast_device, hd]
  | false =>
    simp only [is_slave_output, dynamic_cast_device, hd, true_and]
    exact is_slave_output_chains_iff o e.csetup.chains

theorem inputs_chains_written (rd : ReadEnv) (inp : AUDIO_IO) (i icc : Nat)
    (m : SAMPLE_BUFFER) :
    ∀ (l : List (Nat × CHAIN)) (st : ReadLoop),
      written_slots (inputs_to_chains_chains rd inp i icc m l st).trace
        = written_slots st.trace := by
  intro l
  induction l with
  | nil => intro st; rfl
  | cons p rest ih =>
    intro st
    obtain ⟨c, ch⟩ := p
    simp only [inputs_to_chains_chains]
    split
    · split
      · simp [written_slots_append, written_slots]
      · exact ih _
    · exact ih _

theorem inputs_to_chains_step_written (rd : ReadEnv) (e : ECA_PROCESSOR)
    (p : Nat × AUDIO_IO) :
    written_slots (inputs_to_chains_step rd e p).trace = written_slots e.trace ∧
      (inputs_to_chains_step rd e p).csetup = e.csetup ∧
      (inputs_to_chains_step rd e p).output_chain_count = e.output_chain_count := by
  simp only [inputs_to_chains_step]
  split
  · refine ⟨?_, rfl, rfl⟩
    rw [inputs_chains_written]
    simp [written_slots_append, written_slots]
  · refine ⟨?_, rfl, rfl⟩
    rw [inputs_chains_written]

theorem inputs_to_chains_fold_written (rd : ReadEnv) :
    ∀ (l : List (Nat × AUDIO_IO)) (e : ECA_PROCESSOR),
      written_slots (l.foldl (inputs_to_chains_step rd) e).trace = written_slots e.trace ∧
        (l.foldl (inputs_to_chains_step rd) e).csetup = e.csetup
  | [], _ => ⟨rfl, rfl⟩
  | p :: rest, e => by
    obtain ⟨h1, h2, _⟩ := inputs_to_chains_step_written rd e p
    obtain ⟨g1, g2⟩ := inputs_to_chains_fold_written rd rest (inputs_to_chains_step rd e p)
    simp only [List.foldl_cons]
    exact ⟨g1.trans h1, g2.trans h2⟩

theorem multitrack_sync_chains_written (out : AUDIO_IO) (slot k bs : Nat) :
    ∀ (l : List (Nat × CHAIN)) (st : MixLoop),
      ∃ ws, written_slots (multitrack_sync_chains out slot k bs l st).trace
          = written_slots st.trace ++ ws ∧ ∀ i ∈ ws, i = slot := by
  intro l
  induction l with
  | nil => intro st; exact ⟨[], by simp [multitrack_sync_chains], by simp⟩
  | cons p rest ih =>
    intro st
    obtain ⟨n, c⟩ := p
    simp only [multitrack_sync_chains]
    split
    · exact ih st
    · split
      · split
        · exact ⟨[slot], by simp [written_slots_append, written_slots], by simp⟩
        · split
          · exact ih _
          · split
            · obtain ⟨ws, h1, h2⟩ := ih
                { st with
                  count := st.count + 1
                  trace := st.trace ++ [Event.write_buffer slot
                    (st.mixslot.add_with_weight (st.cslots.getD n default) k)]
                  mixslot := (st.mixslot.add_with_weight
                    (st.cslots.getD n default) k).length_in_samples bs }
              refine ⟨slot :: ws, ?_, ?_⟩
              · rw [h1]; simp [written_slots_append, written_slots]
              · intro i hi
                rcases List.mem_cons.mp hi with h | h
                · exact h
                · exact h2 i h
            · exact ih _
      · exact ih st

theorem is_slave_output_congr (e e' : ECA_PROCESSOR) (a : Option AUDIO_IO)
    (h : e'.csetup = e.csetup) : is_slave_output e' a = is_slave_output e a := by
  simp only [is_slave_output, h]

theorem multitrack_sync_step_csetup (e : ECA_PROCESSOR) (p : Nat × AUDIO_IO) :
    (multitrack_sync_step e p).csetup = e.csetup := by
  simp only [multitrack_sync_step]
  split <;> rfl

theorem multitrack_sync_step_written (e : ECA_PROCESSOR) (p : Nat × AUDIO_IO) :
    ∃ ws, written_slots (multitrack_sync_step e p).trace = written_slots e.trace ++ ws ∧
      ∀ i ∈ ws, i = p.1 ∧ is_slave_output e (some p.2) = false := by
  by_cases hs : is_slave_output e (some p.2) = true
  · exact ⟨[], by simp [multitrack_sync_step, hs], by simp⟩
  · obtain ⟨ws0, g1, g2⟩ := multitrack_sync_chains_written p.2 p.1
      (e.output_chain_count.getD p.1 0) e.buffersize_rep e.csetup.chains.enum
      { count := 0, mixslot := e.mixslot.make_silent, cslots := e.cslots, trace := e.trace }
    refine ⟨ws0, ?_, ?_⟩
    · simp only [multitrack_sync_step, hs]
      exact g1
    · intro i hi
      exact ⟨g2 i hi, by simpa using hs⟩

theorem multitrack_sync_fold_written (e0 : ECA_PROCESSOR) :
    ∀ (l : List (Nat × AUDIO_IO)) (e : ECA_PROCESSOR),
      e.csetup = e0.csetup →
      ∃ ws, written_slots (l.foldl multitrack_sync_step e).trace
          = written_slots e.trace ++ ws ∧
        ∀ i ∈ ws, ∃ p ∈ l, p.1 = i ∧ is_slave_output e0 (some p.2) = false
  | [], e, _ => ⟨[], by simp, by simp⟩
  | p :: rest, e, hcs => by
    simp only [List.foldl_cons]
    obtain ⟨ws0, g1, g2⟩ := multitrack_sync_step_written e p
    obtain ⟨ws, h1, h2⟩ := multitrack_sync_fold_written e0 rest (multitrack_sync_step e p)
      ((multitrack_sync_step_csetup e p).trans hcs)
    refine ⟨ws0 ++ ws, ?_, ?_⟩
    · rw [h1, g1, List.append_assoc]
    · intro i hi
      rcases List.mem_append.mp hi with h | h
      · obtain ⟨hi1, hi2⟩ := g2 i h
        exact ⟨p, List.mem_cons_self _ _, hi1.symm,
          (is_slave_output_congr e0 e _ hcs).symm.trans hi2⟩
      · obtain ⟨q, hq, hq1, hq2⟩ := h2 i h
        exact ⟨q, List.mem_cons_of_mem _ hq, hq1, hq2⟩

/-- C2 as stated fails: in the monitoring setup a warm-up round writes exactly one
block, to output slot 1, which is the realtime output and not a slave output,
while the slave output (slot 0, the file recorded from the realtime input) is
not written. -/
theorem multitrack_sync_writes_non_slave :
    monitor_engine.eparams.multitrack_mode_rep = true ∧
    written_slots monitor_engine.trace = [] ∧
    written_slots (multitrack_sync monitor_engine silent_reads 0).trace = [1] ∧
    is_slave_output monitor_engine (monitor_engine.csetup.outputs[1]?) = false ∧
    is_slave_output monitor_engine (monitor_engine.csetup.outputs[0]?) = true := by
  decide

/-- C2 (amended): a round of `multitrack_sync` calls `write_buffer` only on output
slots whose object is not a slave output; no slave output is written. -/
theorem multitrack_sync_skips_slave_outputs (e : ECA_PROCESSOR) (rd : ReadEnv)
    (stamp : Int) :
    ∃ ws, written_slots (multitrack_sync e rd stamp).trace = written_slots e.trace ++ ws ∧
      ∀ i ∈ ws, ∃ out, e.csetup.outputs[i]? = some out ∧
        is_slave_output e (some out) = false := by
  obtain ⟨h1, h2⟩ := inputs_to_chains_fold_written rd e.csetup.inputs.enum e
  have hcs : (process_chains
      { inputs_to_chains e rd with multitrack_input_stamp_rep := stamp }).csetup = e.csetup := h2
  obtain ⟨ws, g1, g2⟩ := multitrack_sync_fold_written e
    (process_chains
      { inputs_to_chains e rd with multitrack_input_stamp_rep := stamp }).csetup.outputs.enum
    _ hcs
  refine ⟨ws, ?_, ?_⟩
  · simp only [multitrack_sync]
    rw [g1]
    exact congrArg (fun x => x ++ ws) h1
  · intro i hi
    obtain ⟨p, hp, hp1, hp2⟩ := g2 i hi
    rw [hcs] at hp
    refine ⟨p.2, ?_, hp2⟩
    rw [← hp1]
    exact List.mem_enum_iff_getElem?.mp hp

/-! ## Initialisation lemmas -/

theorem buffersize_calls_append (xs ys : List Event) :
    buffersize_calls (xs ++ ys) = buffersize_calls xs ++ buffersize_calls ys := by
  induction xs with
  | nil => rfl
  | cons x xs ih => cases x <;> simp [buffersize_calls, ih]

theorem seek_calls_append (xs ys : List Event) :
    seek_calls (xs ++ ys) = seek_calls xs ++ seek_calls ys := by
  induction xs with
  | nil => rfl
  | cons x xs ih => cases x <;> simp [seek_calls, ih]

/-- What one round of the input loop of `init_inputs` changes and what it keeps. -/
theorem init_inputs_step_spec (st : ECA_PROCESSOR × Int) (p : Nat × AUDIO_IO) :
    (init_inputs_step st p).1.realtime_inputs
        = st.1.realtime_inputs ++ (if p.2.is_device then [p.2] else []) ∧
    (init_inputs_step st p).1.non_realtime_inputs
        = st.1.non_realtime_inputs ++ (if p.2.is_device then [] else [p.2]) ∧
    (init_inputs_step st p).1.realtime_outputs = st.1.realtime_outputs ∧
    (init_inputs_step st p).1.non_realtime_outputs = st.1.non_realtime_outputs ∧
    (init_inputs_step st p).1.csetup = st.1.csetup ∧
    (init_inputs_step st p).1.eparams = st.1.eparams ∧
    (init_inputs_step st p).1.rt_running = st.1.rt_running ∧
    (init_inputs_step st p).1.clock_running = st.1.clock_running ∧
    buffersize_calls (init_inputs_step st p).1.trace
        = buffersize_calls st.1.trace ++ [(true, p.1)] ∧
    seek_calls (init_inputs_step st p).1.trace = seek_calls st.1.trace ++ [(true, p.1)] ∧
    (init_inputs_step st p).1.realtime_objects
        = st.1.realtime_objects ++ (if p.2.is_device then [p.2] else []) := by
  obtain ⟨e, m⟩ := st
  obtain ⟨i, a⟩ := p
  cases hd : a.is_device <;> by_cases hm : a.channels > e.max_channels <;>
    simp [init_inputs_step, dynamic_cast_device, hd, hm, buffersize_calls_append,
      seek_calls_append, buffersize_calls, seek_calls]

theorem init_inputs_fold_spec :
    ∀ (l : List (Nat × AUDIO_IO)) (st : ECA_PROCESSOR × Int),
      (l.foldl init_inputs_step st).1.realtime_inputs
          = st.1.realtime_inputs ++ (l.map Prod.snd).filter (fun a => a.is_device) ∧
      (l.foldl init_inputs_step st).1.non_realtime_inputs
          = st.1.non_realtime_inputs ++ (l.map Prod.snd).filter (fun a => !a.is_device) ∧
      (l.foldl init_inputs_step st).1.realtime_outputs = st.1.realtime_outputs ∧
      (l.foldl init_inputs_step st).1.non_realtime_outputs = st.1.non_realtime_outputs ∧
      (l.foldl init_inputs_step st).1.csetup = st.1.csetup ∧
      (l.foldl init_inputs_step st).1.eparams = st.1.eparams ∧
      (l.foldl init_inputs_step st).1.rt_running = st.1.rt_running ∧
      (l.foldl init_inputs_step st).1.clock_running = st.1.clock_running ∧
      buffersize_calls (l.foldl init_inputs_step st).1.trace
          = buffersize_calls st.1.trace ++ l.map (fun p => (true, p.1)) ∧
      seek_calls (l.foldl init_inputs_step st).1.trace
          = seek_calls st.1.trace ++ l.map (fun p => (true, p.1)) ∧
      (l.foldl init_inputs_step st).1.realtime_objects
          = st.1.realtime_objects ++ (l.map Prod.snd).filter (fun a => a.is_device)
  | [], st => by simp
  | p :: rest, st => by
    obtain ⟨a1, a2, a3, a4, a5, a6, a7, a8, a9, a10, a11⟩ := init_inputs_step_spec st p
    obtain ⟨b1, b2, b3, b4, b5, b6, b7, b8, b9, b10, b11⟩ :=
      init_inputs_fold_spec rest (init_inputs_step st p)
    simp only [List.foldl_cons]
    refine ⟨?_, ?_, b3.trans a3, b4.trans a4, b5.trans a5, b6.trans a6, b7.trans a7,
      b8.trans a8, ?_, ?_, ?_⟩
    · rw [b1, a1]
      cases hd : p.2.is_device <;> simp [List.filter, hd]
    · rw [b2, a2]
      cases hd : p.2.is_device <;> simp [List.filter, hd]
    · rw [b9, a9]; simp
    · rw [b10, a10]; simp
    · rw [b11, a11]
      cases hd : p.2.is_device <;> simp [List.filter, hd]

/-- What one round of the output loop of `init_outputs` changes and what it keeps. -/
theorem init_outputs_step_spec (e : ECA_PROCESSOR) (p : Nat × AUDIO_IO) :
    (init_outputs_step e p).realtime_outputs
        = e.realtime_outputs ++ (if p.2.is_device then [p.2] else []) ∧
    (init_outputs_step e p).non_realtime_outputs
        = e.non_realtime_outputs ++ (if p.2.is_device then [] else [p.2]) ∧
    (init_outputs_step e p).realtime_inputs = e.realtime_inputs ∧
    (init_outputs_step e p).non_realtime_inputs = e.non_realtime_inputs ∧
    (init_outputs_step e p).csetup = e.csetup ∧
    (init_outputs_step e p).eparams = e.eparams ∧
    (init_outputs_step e p).rt_running = e.rt_running ∧
    (init_outputs_step e p).clock_running = e.clock_running ∧
    buffersize_calls (init_outputs_step e p).trace
        = buffersize_calls e.trace ++ [(false, p.1)] ∧
    seek_calls (init_outputs_step e p).trace = seek_calls e.trace ++ [(false, p.1)] ∧
    (init_outputs_step e p).realtime_objects
        = e.realtime_objects ++ (if p.2.is_device then [p.2] else []) := by
  obtain ⟨i, a⟩ := p
  cases hd : a.is_device <;> by_cases hm : a.channels > e.max_channels <;>
    simp [init_outputs_step, dynamic_cast_device, hd, hm, buffersize_calls_append,
      seek_calls_append, buffersize_calls, seek_calls]

theorem init_outputs_fold_spec :
    ∀ (l : List (Nat × AUDIO_IO)) (e : ECA_PROCESSOR),
      (l.foldl init_outputs_step e).realtime_outputs
          = e.realtime_outputs ++ (l.map Prod.snd).filter (fun a => a.is_device) ∧
      (l.foldl init_outputs_step e).non_realtime_outputs
          = e.non_realtime_outputs ++ (l.map Prod.snd).filter (fun a => !a.is_device) ∧
      (l.foldl init_outputs_step e).realtime_inputs = e.realtime_inputs ∧
      (l.foldl init_outputs_step e).non_realtime_inputs = e.non_realtime_inputs ∧
      (l.foldl init_outputs_step e).csetup = e.csetup ∧
      (l.foldl init_outputs_step e).eparams = e.eparams ∧
      (l.foldl init_outputs_step e).rt_running = e.rt_running ∧
      (l.foldl init_outputs_step e).clock_running = e.clock_running ∧
      buffersize_calls (l.foldl init_outputs_step e).trace
          = buffersize_calls e.trace ++ l.map (fun p => (false, p.1)) ∧
      seek_calls (l.foldl init_outputs_step e).trace
          = seek_calls e.trace ++ l.map (fun p => (false, p.1)) ∧
      (l.foldl init_outputs_step e).realtime_objects
          = e.realtime_objects ++ (l.map Prod.snd).filter (fun a => a.is_device)
  | [], e => by simp
  | p :: rest, e => by
    obtain ⟨a1, a2, a3, a4, a5, a6, a7, a8, a9, a10, a11⟩ := init_outputs_step_spec e p
    obtain ⟨b1, b2, b3, b4, b5, b6, b7, b8, b9, b10, b11⟩ :=
      init_outputs_fold_spec rest (init_outputs_step e p)
    simp only [List.foldl_cons]
    refine ⟨?_, ?_, b3.trans a3, b4.trans a4, b5.trans a5, b6.trans a6, b7.trans a7,
      b8.trans a8, ?_, ?_, ?_⟩
    · rw [b1, a1]
      cases hd : p.2.is_device <;> simp [List.filter, hd]
    · rw [b2, a2]
      cases hd : p.2.is_device <;> simp [List.filter, hd]
    · rw [b9, a9]; simp
    · rw [b10, a10]; simp
    · rw [b11, a11]
      cases hd : p.2.is_device <;> simp [List.filter, hd]

theorem init_inputs_thrown (e : ECA_PROCESSOR) (h : e.csetup.inputs = []) :
    init_inputs e = Outcome.thrown error_no_inputs e.trace := by
  simp only [init_inputs]
  split <;> simp [h]

theorem init_inputs_done (e : ECA_PROCESSOR) (h : e.csetup.inputs ≠ []) :
    ∃ e', init_inputs e = Outcome.done e' ∧
      e'.realtime_inputs
        = e.realtime_inputs ++ e.csetup.inputs.filter (fun a => a.is_device) ∧
      e'.non_realtime_inputs
        = e.non_realtime_inputs ++ e.csetup.inputs.filter (fun a => !a.is_device) ∧
      e'.realtime_outputs = e.realtime_outputs ∧
      e'.non_realtime_outputs = e.non_realtime_outputs ∧
      e'.csetup.inputs = e.csetup.inputs ∧
      e'.csetup.outputs = e.csetup.outputs ∧
      e'.csetup.chains = e.csetup.chains ∧
      e'.eparams = e.eparams ∧
      e'.rt_running = e.rt_running ∧
      e'.clock_running = e.clock_running ∧
      buffersize_calls e'.trace
        = buffersize_calls e.trace ++ e.csetup.inputs.enum.map (fun p => (true, p.1)) ∧
      seek_calls e'.trace
        = seek_calls e.trace ++ e.csetup.inputs.enum.map (fun p => (true, p.1)) ∧
      e'.realtime_objects
        = e.realtime_objects ++ e.csetup.inputs.filter (fun a => a.is_device) := by
  have hlen : ¬ e.csetup.inputs.length = 0 := by
    intro h0; exact h (List.length_eq_zero.mp h0)
  by_cases hdb : e.csetup.double_buffering = true <;>
    by_cases hls : e.csetup.length_set = false
  all_goals
    simp only [init_inputs, hdb, hlen, bne_self_eq_false, if_false, if_true,
      Bool.false_eq_true, Bool.true_bne, Bool.false_bne, bne_iff_ne, ne_eq,
      not_true_eq_false, not_false_eq_true]
    split <;> refine ⟨_, rfl, ?_⟩ <;>
    exact ⟨(init_inputs_fold_spec _ _).1.trans (by rw [List.enum_map_snd]),
      (init_inputs_fold_spec _ _).2.1.trans (by rw [List.enum_map_snd]),
      (init_inputs_fold_spec _ _).2.2.1,
      (init_inputs_fold_spec _ _).2.2.2.1,
      (by dsimp only; rw [(init_inputs_fold_spec _ _).2.2.2.2.1]),
      (by dsimp only; rw [(init_inputs_fold_spec _ _).2.2.2.2.1]),
      (by dsimp only; rw [(init_inputs_fold_spec _ _).2.2.2.2.1]),
      (init_inputs_fold_spec _ _).2.2.2.2.2.1,
      (init_inputs_fold_spec _ _).2.2.2.2.2.2.1,
      (init_inputs_fold_spec _ _).2.2.2.2.2.2.2.1,
      (init_inputs_fold_spec _ _).2.2.2.2.2.2.2.2.1,
      (init_inputs_fold_spec _ _).2.2.2.2.2.2.2.2.2.1,
      (init_inputs_fold_spec _ _).2.2.2.2.2.2.2.2.2.2.trans (by rw [List.enum_map_snd])⟩

theorem init_outputs_thrown (e : ECA_PROCESSOR) (h : e.csetup.outputs = []) :
    init_outputs e = Outcome.thrown error_no_outputs e.trace := by
  simp only [init_outputs]
  split <;> simp [h]

theorem init_outputs_done (e : ECA_PROCESSOR) (h : e.csetup.outputs ≠ []) :
    ∃ e', init_outputs e = Outcome.done e' ∧
      e'.realtime_outputs
        = e.realtime_outputs ++ e.csetup.outputs.filter (fun a => a.is_device) ∧
      e'.non_realtime_outputs
        = e.non_realtime_outputs ++ e.csetup.outputs.filter (fun a => !a.is_device) ∧
      e'.realtime_inputs = e.realtime_inputs ∧
      e'.non_realtime_inputs = e.non_realtime_inputs ∧
      e'.csetup = e.csetup ∧
      e'.eparams = e.eparams ∧
      e'.rt_running = e.rt_running ∧
      e'.clock_running = e.clock_running ∧
      buffersize_calls e'.trace
        = buffersize_calls e.trace ++ e.csetup.outputs.enum.map (fun p => (false, p.1)) ∧
      seek_calls e'.trace
        = seek_calls e.trace ++ e.csetup.outputs.enum.map (fun p => (false, p.1)) ∧
      e'.realtime_objects
        = e.realtime_objects ++ e.csetup.outputs.filter (fun a => a.is_device) := by
  have hlen : ¬ e.csetup.outputs.length = 0 := by
    intro h0; exact h (List.length_eq_zero.mp h0)
  by_cases hdb : e.csetup.double_buffering = true
  all_goals
    simp only [init_outputs, hdb, hlen, bne_self_eq_false, if_false, if_true,
      Bool.false_eq_true, Bool.true_bne, Bool.false_bne, bne_iff_ne, ne_eq,
      not_true_eq_false, not_false_eq_true]
    refine ⟨_, rfl, ?_⟩
    exact ⟨(init_outputs_fold_spec _ _).1.trans (by rw [List.enum_map_snd]),
      (init_outputs_fold_spec _ _).2.1.trans (by rw [List.enum_map_snd]),
      (init_outputs_fold_spec _ _).2.2.1,
      (init_outputs_fold_spec _ _).2.2.2.1,
      (init_outputs_fold_spec _ _).2.2.2.2.1,
      (init_outputs_fold_spec _ _).2.2.2.2.2.1,
      (init_outputs_fold_spec _ _).2.2.2.2.2.2.1,
      (init_outputs_fold_spec _ _).2.2.2.2.2.2.2.1,
      (init_outputs_fold_spec _ _).2.2.2.2.2.2.2.2.1,
      (init_outputs_fold_spec _ _).2.2.2.2.2.2.2.2.2.1,
      (init_outputs_fold_spec _ _).2.2.2.2.2.2.2.2.2.2.trans (by rw [List.enum_map_snd])⟩

theorem init_chains_thrown (e : ECA_PROCESSOR) (h : e.csetup.chains = []) :
    init_chains e = Outcome.thrown error_no_chains e.trace := by
  simp [init_chains, h]

theorem init_chains_done (e : ECA_PROCESSOR) (h : e.csetup.chains ≠ []) :
    ∃ e', init_chains e = Outcome.done e' ∧
      e'.chain_count = e.csetup.chains.length ∧
      e'.realtime_inputs = e.realtime_inputs ∧
      e'.non_realtime_inputs = e.non_realtime_inputs ∧
      e'.realtime_outputs = e.realtime_outputs ∧
      e'.non_realtime_outputs = e.non_realtime_outputs ∧
      e'.eparams = e.eparams ∧
      e'.rt_running = e.rt_running ∧
      e'.clock_running = e.clock_running ∧
      e'.csetup = e.csetup ∧
      e'.realtime_objects = e.realtime_objects := by
  have hlen : ¬ e.csetup.chains.length = 0 := by
    intro h0; exact h (List.length_eq_zero.mp h0)
  simp only [init_chains, hlen, if_false]
  exact ⟨_, rfl, rfl, rfl, rfl, rfl, rfl, rfl, rfl, rfl, rfl, rfl⟩

/-- The three stages of `init_connection_to_chainsetup` on a setup with inputs,
outputs and chains: the engine is produced, with the endpoint partition and the
chain count of the setup. -/
theorem init_connection_done (e : ECA_PROCESSOR) (hi : e.csetup.inputs ≠ [])
    (ho : e.csetup.outputs ≠ []) (hc : e.csetup.chains ≠ []) :
    ∃ e', init_connection_to_chainsetup e = Outcome.done e' ∧
      e'.realtime_inputs
        = e.realtime_inputs ++ e.csetup.inputs.filter (fun a => a.is_device) ∧
      e'.non_realtime_inputs
        = e.non_realtime_inputs ++ e.csetup.inputs.filter (fun a => !a.is_device) ∧
      e'.realtime_outputs
        = e.realtime_outputs ++ e.csetup.outputs.filter (fun a => a.is_device) ∧
      e'.non_realtime_outputs
        = e.non_realtime_outputs ++ e.csetup.outputs.filter (fun a => !a.is_device) ∧
      e'.chain_count = e.csetup.chains.length ∧
      e'.eparams = e.eparams ∧
      e'.rt_running = e.rt_running ∧
      e'.clock_running = e.clock_running ∧
      e'.csetup.inputs = e.csetup.inputs ∧
      e'.csetup.outputs = e.csetup.outputs ∧
      e'.realtime_objects = e.realtime_objects
        ++ e.csetup.inputs.filter (fun a => a.is_device)
        ++ e.csetup.outputs.filter (fun a => a.is_device) := by
  obtain ⟨ea, ha, a1, a2, a3, a4, a5, a6, a7, a8, a9, a10, _, _, a13⟩ :=
    init_inputs_done (init_pserver e) hi
  obtain ⟨eb, hb, b1, b2, b3, b4, b5, b6, b7, b8, _, _, b11⟩ :=
    init_outputs_done ea (by rw [a6]; exact ho)
  obtain ⟨ec, hc', c1, c2, c3, c4, c5, c6, c7, c8, c9, c10⟩ :=
    init_chains_done eb (by rw [b5, a7]; exact hc)
  refine ⟨ec, ?_, ?_, ?_, ?_, ?_, ?_, ?_, ?_, ?_, ?_, ?_, ?_⟩
  · simp only [init_connection_to_chainsetup, ha, hb, hc']
  · rw [c2, b3, a1]; rfl
  · rw [c3, b4, a2]; rfl
  · rw [c4, b1, a3, a6]; rfl
  · rw [c5, b2, a4, a6]; rfl
  · rw [c1, b5, a7]; rfl
  · rw [c6, b6, a8]; rfl
  · rw [c7, b7, a9]; rfl
  · rw [c8, b8, a10]; rfl
  · rw [c9, b5, a5]; rfl
  · rw [c9, b5, a6]; rfl
  · rw [c10, b11, a13, a6]; rfl

/-- The constructor on a setup with inputs, outputs and chains. -/
theorem construct_done (params : ECA_SESSION) (cs : ECA_CHAINSETUP)
    (hcs : params.connected_chainsetup_repp = some cs)
    (hi : cs.inputs ≠ []) (ho : cs.outputs ≠ []) (hc : cs.chains ≠ []) :
    ∃ e1 e, init_connection_to_chainsetup
        (init_variables { ECA_PROCESSOR.members params cs with
          eparams := { params with status := Status.ep_status_stopped } }) = Outcome.done e1 ∧
      ECA_PROCESSOR.construct params
        = Outcome.done (init_mix_method (init_multitrack_mode e1)) ∧
      e = init_mix_method (init_multitrack_mode e1) ∧
      e1.realtime_inputs = cs.inputs.filter (fun a => a.is_device) ∧
      e1.non_realtime_inputs = cs.inputs.filter (fun a => !a.is_device) ∧
      e1.realtime_outputs = cs.outputs.filter (fun a => a.is_device) ∧
      e1.non_realtime_outputs = cs.outputs.filter (fun a => !a.is_device) ∧
      e1.chain_count = cs.chains.length ∧
      e.rt_running = false ∧
      e.clock_running = [] ∧
      e.eparams.status = Status.ep_status_stopped ∧
      e.csetup.inputs = cs.inputs ∧
      e.csetup.outputs = cs.outputs ∧
      e.realtime_objects = cs.inputs.filter (fun a => a.is_device)
        ++ cs.outputs.filter (fun a => a.is_device) := by
  obtain ⟨e1, h0, h1, h2, h3, h4, h5, h6, h7, h8, h9, h10, h11⟩ := init_connection_done
    (init_variables { ECA_PROCESSOR.members params cs with
      eparams := { params with status := Status.ep_status_stopped } }) hi ho hc
  refine ⟨e1, _, h0, ?_, rfl, h1, h2, h3, h4, h5, ?_, ?_, ?_, ?_, ?_, ?_⟩
  · simp only [ECA_PROCESSOR.construct, hcs, ECA_PROCESSOR.init]
    rw [show ({ ECA_PROCESSOR.members params cs with
        eparams := { (ECA_PROCESSOR.members params cs).eparams with
          status := Status.ep_status_stopped } } : ECA_PROCESSOR)
      = { ECA_PROCESSOR.members params cs with
        eparams := { params with status := Status.ep_status_stopped } } from rfl, h0]
  · simp only [init_mix_method, init_multitrack_mode]
    split <;> exact h7
  · simp only [init_mix_method, init_multitrack_mode]
    split <;> exact h8
  · simp only [init_mix_method, init_multitrack_mode]
    split <;> simp only [h6] <;> rfl
  · simp only [init_mix_method, init_multitrack_mode]
    split <;> exact h9
  · simp only [init_mix_method, init_multitrack_mode]
    split <;> exact h10
  · simp only [init_mix_method, init_multitrack_mode]
    split <;> exact h11

theorem filter_length_pos {α : Type} (f : α → Bool) (l : List α)
    (h : ∃ a ∈ l, f a = true) : 0 < (l.filter f).length := by
  obtain ⟨a, ha, hfa⟩ := h
  exact List.length_pos_of_mem (List.mem_filter.mpr ⟨ha, hfa⟩)

/-! ## C4: multitrack mode -/

/-- C4: when the connected chainsetup has a realtime input, a realtime output, a
non-realtime input, a non-realtime output and at least two chains, engine
initialisation succeeds and leaves `multitrack_mode` true. -/
theorem init_enters_multitrack_mode (params : ECA_SESSION) (cs : ECA_CHAINSETUP)
    (hcs : params.connected_chainsetup_repp = some cs)
    (hri : ∃ a ∈ cs.inputs, a.is_device = true)
    (hro : ∃ a ∈ cs.outputs, a.is_device = true)
    (hni : ∃ a ∈ cs.inputs, a.is_device = false)
    (hno : ∃ a ∈ cs.outputs, a.is_device = false)
    (hch : 2 ≤ cs.chains.length) :
    ∃ e, ECA_PROCESSOR.construct params = Outcome.done e ∧
      e.eparams.multitrack_mode_rep = true := by
  have hi : cs.inputs ≠ [] := by
    obtain ⟨a, ha, _⟩ := hri
    exact List.ne_nil_of_mem ha
  have ho : cs.outputs ≠ [] := by
    obtain ⟨a, ha, _⟩ := hro
    exact List.ne_nil_of_mem ha
  have hc : cs.chains ≠ [] := by
    intro h0; rw [h0] at hch; simp at hch
  obtain ⟨e1, e, _, h1, _, g1, g2, g3, g4, g5, _, _, _, _⟩ :=
    construct_done params cs hcs hi ho hc
  refine ⟨_, h1, ?_⟩
  have c1 : e1.realtime_inputs.length > 0 := by
    rw [g1]; exact filter_length_pos _ _ hri
  have c2 : e1.realtime_outputs.length > 0 := by
    rw [g3]; exact filter_length_pos _ _ hro
  have c3 : e1.non_realtime_inputs.length > 0 := by
    rw [g2]; exact filter_length_pos _ _ (by
      obtain ⟨a, ha, hd⟩ := hni
      exact ⟨a, ha, by simp [hd]⟩)
  have c4 : e1.non_realtime_outputs.length > 0 := by
    rw [g4]; exact filter_length_pos _ _ (by
      obtain ⟨a, ha, hd⟩ := hno
      exact ⟨a, ha, by simp [hd]⟩)
  have c5 : e1.chain_count > 1 := by rw [g5]; omega
  simp only [init_mix_method, init_multitrack_mode]
  rw [if_pos ⟨c1, c2, c3, c4, c5⟩]

/-- C4 at the monitoring setup. -/
theorem init_enters_multitrack_mode_witness :
    ∃ e, ECA_PROCESSOR.construct monitor_session = Outcome.done e ∧
      e.eparams.multitrack_mode_rep = true :=
  init_enters_multitrack_mode monitor_session monitor_setup rfl
    ⟨device_object 1 1, by decide, rfl⟩ ⟨device_object 4 1, by decide, rfl⟩
    ⟨file_object 2 1, by decide, rfl⟩ ⟨file_object 3 1, by decide, rfl⟩ (by decide)

/-! ## C5: mixmode resolution -/

/-- C5: with all three counts at least 1, the mixmode left by `init_mix_method` is
never Auto; it is Simple exactly when multitrack mode is off, the configured mode
is Auto or Simple and there is one chain, one input and one output; in every
other case it is Normal. -/
theorem init_mix_method_resolved (e : ECA_PROCESSOR)
    (hc : 1 ≤ e.chain_count) (hi : 1 ≤ e.input_count) (ho : 1 ≤ e.output_count) :
    (init_mix_method e).mixmode_rep ≠ Mixmode.ep_mm_auto ∧
    ((init_mix_method e).mixmode_rep = Mixmode.ep_mm_simple ↔
      (e.eparams.multitrack_mode_rep = false ∧
        (e.csetup.mixmode = Mixmode.ep_mm_auto ∨ e.csetup.mixmode = Mixmode.ep_mm_simple) ∧
        e.chain_count = 1 ∧ e.input_count = 1 ∧ e.output_count = 1)) ∧
    (¬ (e.eparams.multitrack_mode_rep = false ∧
        (e.csetup.mixmode = Mixmode.ep_mm_auto ∨ e.csetup.mixmode = Mixmode.ep_mm_simple) ∧
        e.chain_count = 1 ∧ e.input_count = 1 ∧ e.output_count = 1) →
      (init_mix_method e).mixmode_rep = Mixmode.ep_mm_normal) := by
  have key : ∀ (m : Mixmode) (mt : Bool) (c i o : Nat), 1 ≤ c → 1 ≤ i → 1 ≤ o →
      resolve_mixmode m mt c i o ≠ Mixmode.ep_mm_auto ∧
      (resolve_mixmode m mt c i o = Mixmode.ep_mm_simple ↔
        (mt = false ∧ (m = Mixmode.ep_mm_auto ∨ m = Mixmode.ep_mm_simple) ∧
          c = 1 ∧ i = 1 ∧ o = 1)) ∧
      (¬ (mt = false ∧ (m = Mixmode.ep_mm_auto ∨ m = Mixmode.ep_mm_simple) ∧
          c = 1 ∧ i = 1 ∧ o = 1) →
        resolve_mixmode m mt c i o = Mixmode.ep_mm_normal) := by
    intro m mt c i o h1 h2 h3
    by_cases hall : c = 1 ∧ i = 1 ∧ o = 1
    · have hn : ¬ (c > 1 ∨ i > 1 ∨ o > 1) := by omega
      cases m <;> cases mt <;> simp [resolve_mixmode, hall, hn]
    · have hn : c > 1 ∨ i > 1 ∨ o > 1 := by omega
      have hall' : ¬ (c = 1 ∧ i = 1 ∧ o = 1) := hall
      cases m <;> cases mt <;> simp [resolve_mixmode, hall', hn]
  exact key e.csetup.mixmode e.eparams.multitrack_mode_rep _ _ _ hc hi ho

/-- C5 on the two-chain engine: configured Auto on a 2-2-1 graph resolves to
Normal. -/
theorem init_mix_method_resolved_witness :
    (init_mix_method two_chain_engine).mixmode_rep ≠ Mixmode.ep_mm_auto ∧
    ((init_mix_method two_chain_engine).mixmode_rep = Mixmode.ep_mm_simple ↔
      (two_chain_engine.eparams.multitrack_mode_rep = false ∧
        (two_chain_engine.csetup.mixmode = Mixmode.ep_mm_auto ∨
          two_chain_engine.csetup.mixmode = Mixmode.ep_mm_simple) ∧
        two_chain_engine.chain_count = 1 ∧ two_chain_engine.input_count = 1 ∧
        two_chain_engine.output_count = 1)) ∧
    (¬ (two_chain_engine.eparams.multitrack_mode_rep = false ∧
        (two_chain_engine.csetup.mixmode = Mixmode.ep_mm_auto ∨
          two_chain_engine.csetup.mixmode = Mixmode.ep_mm_simple) ∧
        two_chain_engine.chain_count = 1 ∧ two_chain_engine.input_count = 1 ∧
        two_chain_engine.output_count = 1) →
      (init_mix_method two_chain_engine).mixmode_rep = Mixmode.ep_mm_normal) :=
  init_mix_method_resolved two_chain_engine (by decide) (by decide) (by decide)

/-! ## C9: `finished()` -/

/-- C9: `finished()` returns true exactly when `input_not_finished` is false or the
status is already Finished; when it returns true the status afterwards is
Finished, and when it returns false the engine state is unchanged. -/
theorem finished_spec (e : ECA_PROCESSOR) :
    ((finished e).1 = true ↔
      (e.input_not_finished = false ∨ e.eparams.status = Status.ep_status_finished)) ∧
    ((finished e).1 = true → (finished e).2.eparams.status = Status.ep_status_finished) ∧
    ((finished e).1 = false → (finished e).2 = e) := by
  by_cases h : e.input_not_finished = true ∧ e.eparams.status ≠ Status.ep_status_finished
  · obtain ⟨h1, h2⟩ := h
    simp [finished, h1, h2]
  · have hf : finished e = (true, { e with eparams :=
        { e.eparams with status := Status.ep_status_finished } }) := by
      simp only [finished, if_neg h]
    rw [hf]
    refine ⟨?_, fun _ => rfl, fun h0 => by simp at h0⟩
    simp only [true_iff]
    by_cases h1 : e.input_not_finished = true
    · right
      by_contra h2
      exact h ⟨h1, h2⟩
    · left
      simpa using h1

/-! ## C7: status Finished -/

/-- C7 as stated fails: the playback engine reaches status Finished through
`finished()` with its realtime devices running; from there `start()` returns with
status Running and `stop()` leaves status Stopped. -/
theorem finished_not_terminal :
    playback_finished.eparams.status = Status.ep_status_finished ∧
    (start playback_finished idle_env).map (fun e => e.eparams.status)
      = some Status.ep_status_running ∧
    (stop playback_finished).eparams.status = Status.ep_status_stopped := by
  decide

theorem stop_status_of_not_running (e : ECA_PROCESSOR)
    (h : e.eparams.status ≠ Status.ep_status_running) (hr : e.rt_running = false) :
    stop e = e := by
  simp [stop, h, hr]

/-- C7 (amended): in a state whose status is Finished, `finished()`,
`trigger_outputs()` and `posthandle_control_position()` return with status
Finished, and so does `stop()` when `rt_running` is false; `stop()` with
`rt_running` true leaves status Stopped, and a `start()` that returns leaves
status Running. -/
theorem finished_status_preserved (e : ECA_PROCESSOR)
    (h : e.eparams.status = Status.ep_status_finished) :
    (finished e).2.eparams.status = Status.ep_status_finished ∧
    (trigger_outputs e).eparams.status = Status.ep_status_finished ∧
    (∀ env, ∃ e', posthandle_control_position e env = some e' ∧
      e'.eparams.status = Status.ep_status_finished) ∧
    (e.rt_running = false → (stop e).eparams.status = Status.ep_status_finished) ∧
    (e.rt_running = true → (stop e).eparams.status = Status.ep_status_stopped) ∧
    (∀ env e', start e env = some e' → e'.eparams.status = Status.ep_status_running) := by
  have hnr : e.eparams.status ≠ Status.ep_status_running := by rw [h]; decide
  refine ⟨?_, ?_, ?_, ?_, ?_, ?_⟩
  · simp only [finished]
    split <;> simp [h]
  · simp only [trigger_outputs]
    split
    · split <;> exact h
    · exact h
  · intro env
    simp only [posthandle_control_position]
    split
    · split
      · have hcs : conditional_stop e env = some { e with was_running := false } := by
          simp [conditional_stop, hnr]
        simp only [rewind_to_start_position, hcs, conditional_start, seek_to_start_positions]
        simp [h]
      · exact ⟨_, rfl, rfl⟩
    · exact ⟨e, rfl, h⟩
  · intro hr
    rw [stop_status_of_not_running e hnr hr]
    exact h
  · intro hr
    simp [stop, hr]
  · intro env e' hs
    simp only [start, if_neg hnr] at hs
    split at hs
    · split at hs
      · simp at hs
      · split at hs
        · simp at hs
        · simp only [Option.some.injEq] at hs
          rw [← hs]
    · simp only [Option.some.injEq] at hs
      rw [← hs]

/-- C7 (amended) at the finished playback engine. -/
theorem finished_status_preserved_witness :
    (finished playback_finished).2.eparams.status = Status.ep_status_finished ∧
    (trigger_outputs playback_finished).eparams.status = Status.ep_status_finished ∧
    (∀ env, ∃ e', posthandle_control_position playback_finished env = some e' ∧
      e'.eparams.status = Status.ep_status_finished) ∧
    (playback_finished.rt_running = false →
      (stop playback_finished).eparams.status = Status.ep_status_finished) ∧
    (playback_finished.rt_running = true →
      (stop playback_finished).eparams.status = Status.ep_status_stopped) ∧
    (∀ env e', start playback_finished env = some e' →
      e'.eparams.status = Status.ep_status_running) :=
  finished_status_preserved playback_finished (by decide)

/-! ## C6: output triggering -/

/-- C6, the code at the failing input: after a first `start()` the realtime output
(device 2) is started by the second `trigger_outputs()`, but after `start()`, one
`trigger_outputs()`, `stop()` and a second `start()` the stale counter makes the
very first `trigger_outputs()` start it. -/
theorem trigger_outputs_stale_counter :
    2 ∉ (trigger_outputs (start_of playback_engine idle_env)).clock_running ∧
    2 ∈ (trigger_outputs (trigger_outputs (start_of playback_engine idle_env))).clock_running ∧
    2 ∉ (start_of (stop (trigger_outputs (start_of playback_engine idle_env)))
      idle_env).clock_running ∧
    (start_of (stop (trigger_outputs (start_of playback_engine idle_env)))
      idle_env).eparams.status = Status.ep_status_running ∧
    2 ∈ (trigger_outputs (start_of (stop (trigger_outputs
      (start_of playback_engine idle_env))) idle_env)).clock_running := by
  decide

/-! ## C8: `stop()` stops every realtime clock -/

theorem device_stop_fold_not_mem (x : Nat) :
    ∀ (objs : List AUDIO_IO) (clock : List Nat),
      x ∉ clock → x ∉ objs.foldl device_stop clock
  | [], _, h => h
  | d :: rest, clock, h => by
    simp only [List.foldl_cons]
    apply device_stop_fold_not_mem x rest
    intro hx
    exact h (List.mem_filter.mp hx).1

theorem device_stop_fold_clears :
    ∀ (objs : List AUDIO_IO) (clock : List Nat) ( d : AUDIO_IO),
      d ∈ objs → d.id ∉ objs.foldl device_stop clock
  | [], _, _, h => by simp at h
  | o :: rest, clock, d, h => by
    simp only [List.foldl_cons]
    rcases List.mem_cons.mp h with h1 | h1
    · apply device_stop_fold_not_mem
      rw [h1]
      simp [device_stop]
    · exact device_stop_fold_clears rest _ d h1

theorem stop_transport_invariant (e : ECA_PROCESSOR) (h : transport_invariant e) :
    no_clock_running (stop e) ∧ (stop e).rt_running = false ∧
      (stop e).eparams.status ≠ Status.ep_status_running := by
  obtain ⟨h1, h2⟩ := h
  by_cases hc : e.eparams.status ≠ Status.ep_status_running ∧ e.rt_running = false
  · have hs : stop e = e := by simp only [stop, if_pos hc]
    rw [hs]
    exact ⟨h1 hc.2, hc.2, hc.1⟩
  · have hs : stop e =
        { e with
          clock_running :=
            if e.rt_running = true then e.realtime_objects.foldl device_stop e.clock_running
            else e.clock_running
          rt_running := false
          eparams := { e.eparams with status := Status.ep_status_stopped } } := if_neg hc
    rw [hs]
    refine ⟨?_, rfl, fun h0 => by cases h0⟩
    by_cases hr : e.rt_running = true
    · intro d hd
      simp only [hr, if_true]
      exact device_stop_fold_clears _ _ d hd
    · have hr' : e.rt_running = false := by simpa using hr
      intro d hd
      simp only [hr, if_false]
      exact h1 hr' d hd

theorem start_transport_invariant (e e' : ECA_PROCESSOR) (env : StartEnv)
    (h : transport_invariant e) (hs : start e env = some e') : transport_invariant e' := by
  by_cases hrun : e.eparams.status = Status.ep_status_running
  · simp only [start, if_pos hrun, Option.some.injEq] at hs
    rw [← hs]; exact h
  · have hrt : e'.rt_running = true := by
      simp only [start, if_neg hrun] at hs
      split at hs
      · split at hs
        · simp at hs
        · split at hs
          · simp at hs
          · simp only [Option.some.injEq] at hs
            rw [← hs]
      · simp only [Option.some.injEq] at hs
        rw [← hs]
    exact ⟨fun hf => by rw [hrt] at hf; simp at hf, fun _ => hrt⟩

theorem trigger_outputs_transport_invariant (e : ECA_PROCESSOR)
    (h : transport_invariant e) : transport_invariant (trigger_outputs e) := by
  simp only [trigger_outputs]
  split
  · split
    · exact ⟨fun hf => by simp at hf, fun _ => rfl⟩
    · exact h
  · exact h

theorem init_connection_thrown_inputs (e : ECA_PROCESSOR) (h : e.csetup.inputs = []) :
    init_connection_to_chainsetup e = Outcome.thrown error_no_inputs e.trace := by
  simp only [init_connection_to_chainsetup,
    init_inputs_thrown (init_pserver e) (by simpa [init_pserver] using h)]
  rfl

theorem init_connection_thrown_outputs (e : ECA_PROCESSOR) (hi : e.csetup.inputs ≠ [])
    (h : e.csetup.outputs = []) :
    ∃ tr, init_connection_to_chainsetup e = Outcome.thrown error_no_outputs tr ∧
      buffersize_calls tr
        = buffersize_calls e.trace ++ e.csetup.inputs.enum.map (fun p => (true, p.1)) ∧
      seek_calls tr
        = seek_calls e.trace ++ e.csetup.inputs.enum.map (fun p => (true, p.1)) := by
  obtain ⟨ea, ha, _, _, _, _, _, a6, _, _, _, _, a11, a12, _⟩ :=
    init_inputs_done (init_pserver e) hi
  refine ⟨ea.trace, ?_, a11, a12⟩
  simp only [init_connection_to_chainsetup, ha,
    init_outputs_thrown ea (by rw [a6]; exact h)]

theorem init_connection_thrown_chains (e : ECA_PROCESSOR) (hi : e.csetup.inputs ≠ [])
    (ho : e.csetup.outputs ≠ []) (h : e.csetup.chains = []) :
    ∃ tr, init_connection_to_chainsetup e = Outcome.thrown error_no_chains tr ∧
      buffersize_calls tr
        = buffersize_calls e.trace ++ e.csetup.inputs.enum.map (fun p => (true, p.1))
          ++ e.csetup.outputs.enum.map (fun p => (false, p.1)) ∧
      seek_calls tr
        = seek_calls e.trace ++ e.csetup.inputs.enum.map (fun p => (true, p.1))
          ++ e.csetup.outputs.enum.map (fun p => (false, p.1)) := by
  obtain ⟨ea, ha, _, _, _, _, _, a6, a7, _, _, _, a11, a12, _⟩ :=
    init_inputs_done (init_pserver e) hi
  obtain ⟨eb, hb, _, _, _, _, b5, _, _, _, b9, b10, _⟩ :=
    init_outputs_done ea (by rw [a6]; exact ho)
  refine ⟨eb.trace, ?_, ?_, ?_⟩
  · simp only [init_connection_to_chainsetup, ha, hb,
      init_chains_thrown eb (by rw [b5, a7]; exact h)]
  · rw [b9, a11, a6]; rfl
  · rw [b10, a12, a6]; rfl

theorem construct_transport_invariant (params : ECA_SESSION) (e : ECA_PROCESSOR)
    (h : ECA_PROCESSOR.construct params = Outcome.done e) : transport_invariant e := by
  cases hcs : params.connected_chainsetup_repp with
  | none => simp [ECA_PROCESSOR.construct, hcs] at h
  | some cs =>
    by_cases hi : cs.inputs = []
    · have ht := init_connection_thrown_inputs
        (init_variables { ECA_PROCESSOR.members params cs with
          eparams := { params with status := Status.ep_status_stopped } }) hi
      simp only [ECA_PROCESSOR.construct, hcs, ECA_PROCESSOR.init] at h
      rw [show ({ ECA_PROCESSOR.members params cs with
          eparams := { (ECA_PROCESSOR.members params cs).eparams with
            status := Status.ep_status_stopped } } : ECA_PROCESSOR)
        = { ECA_PROCESSOR.members params cs with
          eparams := { params with status := Status.ep_status_stopped } } from rfl, ht] at h
      simp at h
    · by_cases ho : cs.outputs = []
      · obtain ⟨tr, ht, _⟩ := init_connection_thrown_outputs
          (init_variables { ECA_PROCESSOR.members params cs with
            eparams := { params with status := Status.ep_status_stopped } }) hi ho
        simp only [ECA_PROCESSOR.construct, hcs, ECA_PROCESSOR.init] at h
        rw [show ({ ECA_PROCESSOR.members params cs with
            eparams := { (ECA_PROCESSOR.members params cs).eparams with
              status := Status.ep_status_stopped } } : ECA_PROCESSOR)
          = { ECA_PROCESSOR.members params cs with
            eparams := { params with status := Status.ep_status_stopped } } from rfl, ht] at h
        simp at h
      · by_cases hc : cs.chains = []
        · obtain ⟨tr, ht, _⟩ := init_connection_thrown_chains
            (init_variables { ECA_PROCESSOR.members params cs with
              eparams := { params with status := Status.ep_status_stopped } }) hi ho hc
          simp only [ECA_PROCESSOR.construct, hcs, ECA_PROCESSOR.init] at h
          rw [show ({ ECA_PROCESSOR.members params cs with
              eparams := { (ECA_PROCESSOR.members params cs).eparams with
                status := Status.ep_status_stopped } } : ECA_PROCESSOR)
            = { ECA_PROCESSOR.members params cs with
              eparams := { params with status := Status.ep_status_stopped } } from rfl, ht] at h
          simp at h
        · obtain ⟨e1, e2, _, h1, h2, _, _, _, _, _, h7, h8, h9, _⟩ :=
            construct_done params cs hcs hi ho hc
          rw [h1] at h
          simp only [Outcome.done.injEq] at h
          rw [← h, ← h2]
          refine ⟨fun _ => ?_, fun hr => ?_⟩
          · intro d _
            rw [h8]
            simp
          · rw [h9] at hr
            cases hr

theorem reachable_transport_invariant (e : ECA_PROCESSOR) (h : Reachable e) :
    transport_invariant e := by
  induction h with
  | init params e hc => exact construct_transport_invariant params e hc
  | start e e' env _ hs ih => exact start_transport_invariant e e' env ih hs
  | stop e _ ih =>
    obtain ⟨h1, h2, h3⟩ := stop_transport_invariant e ih
    exact ⟨fun _ => h1, fun hr => absurd hr h3⟩
  | trigger_outputs e _ ih => exact trigger_outputs_transport_invariant e ih

theorem inputs_to_chains_fold_objects (rd : ReadEnv) :
    ∀ (l : List (Nat × AUDIO_IO)) (e : ECA_PROCESSOR),
      (l.foldl (inputs_to_chains_step rd) e).realtime_objects = e.realtime_objects
  | [], _ => rfl
  | p :: rest, e => by
    simp only [List.foldl_cons]
    rw [inputs_to_chains_fold_objects rd rest]
    simp only [inputs_to_chains_step]
    split <;> rfl

theorem multitrack_sync_fold_frame :
    ∀ (l : List (Nat × AUDIO_IO)) (e : ECA_PROCESSOR),
      (l.foldl multitrack_sync_step e).csetup = e.csetup ∧
        (l.foldl multitrack_sync_step e).realtime_objects = e.realtime_objects
  | [], _ => ⟨rfl, rfl⟩
  | p :: rest, e => by
    obtain ⟨h1, h2⟩ := multitrack_sync_fold_frame rest (multitrack_sync_step e p)
    simp only [List.foldl_cons]
    refine ⟨h1.trans (multitrack_sync_step_csetup e p), h2.trans ?_⟩
    simp only [multitrack_sync_step]
    split <;> rfl

theorem multitrack_sync_frame (e : ECA_PROCESSOR) (rd : ReadEnv) (stamp : Int) :
    (multitrack_sync e rd stamp).csetup = e.csetup ∧
      (multitrack_sync e rd stamp).realtime_objects = e.realtime_objects := by
  obtain ⟨h1, h2⟩ := multitrack_sync_fold_frame
    (process_chains
      { inputs_to_chains e rd with multitrack_input_stamp_rep := stamp }).csetup.outputs.enum
    (process_chains { inputs_to_chains e rd with multitrack_input_stamp_rep := stamp })
  exact ⟨h1.trans (inputs_to_chains_fold_written rd e.csetup.inputs.enum e).2,
    h2.trans (inputs_to_chains_fold_objects rd e.csetup.inputs.enum e)⟩

theorem start_frame (e e' : ECA_PROCESSOR) (env : StartEnv) (hs : start e env = some e') :
    e'.csetup = e.csetup ∧ e'.realtime_objects = e.realtime_objects := by
  simp only [start] at hs
  split at hs
  · simp only [Option.some.injEq] at hs
    rw [← hs]; exact ⟨rfl, rfl⟩
  · split at hs
    · split at hs
      · simp at hs
      · split at hs
        · simp at hs
        · simp only [Option.some.injEq] at hs
          rw [← hs]
          obtain ⟨a1, a2⟩ := multitrack_sync_frame
            { e with clock_running := e.realtime_inputs.foldl device_start e.clock_running }
            env.rd1 env.stamp1
          obtain ⟨b1, b2⟩ := multitrack_sync_frame
            (multitrack_sync
              { e with clock_running := e.realtime_inputs.foldl device_start e.clock_running }
              env.rd1 env.stamp1) env.rd2 env.stamp2
          exact ⟨b1.trans a1, b2.trans a2⟩
    · simp only [Option.some.injEq] at hs
      rw [← hs]; exact ⟨rfl, rfl⟩

theorem stop_frame (e : ECA_PROCESSOR) :
    (stop e).csetup = e.csetup ∧ (stop e).realtime_objects = e.realtime_objects := by
  simp only [stop]
  split <;> exact ⟨rfl, rfl⟩

theorem trigger_outputs_frame (e : ECA_PROCESSOR) :
    (trigger_outputs e).csetup = e.csetup ∧
      (trigger_outputs e).realtime_objects = e.realtime_objects := by
  simp only [trigger_outputs]
  split
  · split <;> exact ⟨rfl, rfl⟩
  · exact ⟨rfl, rfl⟩

theorem devices_registered_congr (e e' : ECA_PROCESSOR)
    (h : e'.csetup = e.csetup ∧ e'.realtime_objects = e.realtime_objects)
    (hd : devices_registered e) : devices_registered e' := by
  intro a ha hdev
  rw [h.2]
  rw [h.1] at ha
  exact hd a ha hdev

theorem construct_devices_registered (params : ECA_SESSION) (e : ECA_PROCESSOR)
    (h : ECA_PROCESSOR.construct params = Outcome.done e) : devices_registered e := by
  cases hcs : params.connected_chainsetup_repp with
  | none => simp [ECA_PROCESSOR.construct, hcs] at h
  | some cs =>
    have hstart : ∀ o : Outcome,
        init_connection_to_chainsetup
          (init_variables { ECA_PROCESSOR.members params cs with
            eparams := { params with status := Status.ep_status_stopped } }) = o →
        ECA_PROCESSOR.construct params =
          (match o with
            | Outcome.thrown err tr => Outcome.thrown err tr
            | Outcome.null_dereference => Outcome.null_dereference
            | Outcome.done e2 => Outcome.done (init_mix_method (init_multitrack_mode e2))) := by
      intro o ho
      simp only [ECA_PROCESSOR.construct, hcs, ECA_PROCESSOR.init]
      rw [show ({ ECA_PROCESSOR.members params cs with
          eparams := { (ECA_PROCESSOR.members params cs).eparams with
            status := Status.ep_status_stopped } } : ECA_PROCESSOR)
        = { ECA_PROCESSOR.members params cs with
          eparams := { params with status := Status.ep_status_stopped } } from rfl, ho]
    by_cases hi : cs.inputs = []
    · rw [hstart _ (init_connection_thrown_inputs _ hi)] at h
      simp at h
    · by_cases ho : cs.outputs = []
      · obtain ⟨tr, ht, _⟩ := init_connection_thrown_outputs
          (init_variables { ECA_PROCESSOR.members params cs with
            eparams := { params with status := Status.ep_status_stopped } }) hi ho
        rw [hstart _ ht] at h
        simp at h
      · by_cases hc : cs.chains = []
        · obtain ⟨tr, ht, _⟩ := init_connection_thrown_chains
            (init_variables { ECA_PROCESSOR.members params cs with
              eparams := { params with status := Status.ep_status_stopped } }) hi ho hc
          rw [hstart _ ht] at h
          simp at h
        · obtain ⟨e1, e2, _, h1, h2, _, _, _, _, _, _, _, _, g1, g2, g3⟩ :=
            construct_done params cs hcs hi ho hc
          rw [h1] at h
          simp only [Outcome.done.injEq] at h
          rw [← h, ← h2]
          intro a ha hdev
          rw [g3]
          rw [g1, g2] at ha
          rcases List.mem_append.mp ha with h0 | h0
          · exact List.mem_append_left _ (List.mem_filter.mpr ⟨h0, hdev⟩)
          · exact List.mem_append_right _ (List.mem_filter.mpr ⟨h0, hdev⟩)

theorem reachable_devices_registered (e : ECA_PROCESSOR) (h : Reachable e) :
    devices_registered e := by
  induction h with
  | init params e hc => exact construct_devices_registered params e hc
  | start e e' env _ hs ih => exact devices_registered_congr e e' (start_frame e e' env hs) ih
  | stop e _ ih => exact devices_registered_congr e _ (stop_frame e) ih
  | trigger_outputs e _ ih => exact devices_registered_congr e _ (trigger_outputs_frame e) ih

/-- C8: in every state reachable from a freshly initialised engine by `start()`,
`stop()` and `trigger_outputs()`, after `stop()` no realtime device has its clock
running and `rt_running` is false; and `stop()` called in status Running leaves
status Stopped. -/
theorem stop_stops_all_clocks (e : ECA_PROCESSOR) (h : Reachable e) :
    no_device_running (stop e) ∧ no_clock_running (stop e) ∧
      (stop e).rt_running = false ∧
      (e.eparams.status = Status.ep_status_running →
        (stop e).eparams.status = Status.ep_status_stopped) := by
  obtain ⟨h1, h2, _⟩ := stop_transport_invariant e (reachable_transport_invariant e h)
  have hreg := devices_registered_congr e _ (stop_frame e) (reachable_devices_registered e h)
  refine ⟨fun a ha hdev => h1 a (hreg a ha hdev), h1, h2, ?_⟩
  intro hr
  simp [stop, hr]

/-- C8 at the running playback engine. -/
theorem stop_stops_all_clocks_witness :
    no_device_running (stop playback_running) ∧ no_clock_running (stop playback_running) ∧
      (stop playback_running).rt_running = false ∧
      (playback_running.eparams.status = Status.ep_status_running →
        (stop playback_running).eparams.status = Status.ep_status_stopped) :=
  stop_stops_all_clocks playback_running
    (Reachable.trigger_outputs _ (Reachable.trigger_outputs _
      (Reachable.start playback_engine _ idle_env
        (Reachable.init (session_of playback_setup) playback_engine rfl) rfl)))

/-! ## C10: setup failure -/

/-- C10 as stated fails: for a chainsetup with one input and no output the setup
throws the no-outputs error, but input 0 has already had its buffersize set and
its position seeked. -/
theorem setup_failure_touches_inputs :
    (ECA_PROCESSOR.construct (session_of no_output_setup)).error = some error_no_outputs ∧
    buffersize_calls (ECA_PROCESSOR.construct (session_of no_output_setup)).calls
      = [(true, 0)] ∧
    seek_calls (ECA_PROCESSOR.construct (session_of no_output_setup)).calls
      = [(true, 0)] := by
  decide

/-- C10 (amended): a setup that fails for lack of inputs, outputs or chains returns
an error.  Without inputs nothing has been called on any endpoint; with inputs
but no outputs exactly the inputs have had their buffersize set and their
position seeked; with inputs and outputs but no chains all inputs and all
outputs have. -/
theorem setup_failure_calls (params : ECA_SESSION) (cs : ECA_CHAINSETUP)
    (hcs : params.connected_chainsetup_repp = some cs) :
    (cs.inputs = [] →
      ECA_PROCESSOR.construct params = Outcome.thrown error_no_inputs []) ∧
    (cs.inputs ≠ [] → cs.outputs = [] →
      ∃ tr, ECA_PROCESSOR.construct params = Outcome.thrown error_no_outputs tr ∧
        buffersize_calls tr = cs.inputs.enum.map (fun p => (true, p.1)) ∧
        seek_calls tr = cs.inputs.enum.map (fun p => (true, p.1))) ∧
    (cs.inputs ≠ [] → cs.outputs ≠ [] → cs.chains = [] →
      ∃ tr, ECA_PROCESSOR.construct params = Outcome.thrown error_no_chains tr ∧
        buffersize_calls tr = cs.inputs.enum.map (fun p => (true, p.1))
          ++ cs.outputs.enum.map (fun p => (false, p.1)) ∧
        seek_calls tr = cs.inputs.enum.map (fun p => (true, p.1))
          ++ cs.outputs.enum.map (fun p => (false, p.1))) := by
  have hstart : ∀ o : Outcome,
      init_connection_to_chainsetup
        (init_variables { ECA_PROCESSOR.members params cs with
          eparams := { params with status := Status.ep_status_stopped } }) = o →
      ECA_PROCESSOR.construct params =
        (match o with
          | Outcome.thrown err tr => Outcome.thrown err tr
          | Outcome.null_dereference => Outcome.null_dereference
          | Outcome.done e2 => Outcome.done (init_mix_method (init_multitrack_mode e2))) := by
    intro o ho
    simp only [ECA_PROCESSOR.construct, hcs, ECA_PROCESSOR.init]
    rw [show ({ ECA_PROCESSOR.members params cs with
        eparams := { (ECA_PROCESSOR.members params cs).eparams with
          status := Status.ep_status_stopped } } : ECA_PROCESSOR)
      = { ECA_PROCESSOR.members params cs with
        eparams := { params with status := Status.ep_status_stopped } } from rfl, ho]
  refine ⟨?_, ?_, ?_⟩
  · intro hi
    rw [hstart _ (init_connection_thrown_inputs _ hi)]
    rfl
  · intro hi ho
    obtain ⟨tr, ht, h1, h2⟩ := init_connection_thrown_outputs
      (init_variables { ECA_PROCESSOR.members params cs with
        eparams := { params with status := Status.ep_status_stopped } }) hi ho
    exact ⟨tr, by rw [hstart _ ht], by simpa [buffersize_calls] using h1,
      by simpa [seek_calls] using h2⟩
  · intro hi ho hc
    obtain ⟨tr, ht, h1, h2⟩ := init_connection_thrown_chains
      (init_variables { ECA_PROCESSOR.members params cs with
        eparams := { params with status := Status.ep_status_stopped } }) hi ho hc
    exact ⟨tr, by rw [hstart _ ht], by simpa [buffersize_calls] using h1,
      by simpa [seek_calls] using h2⟩

/-- C10 (amended) at the setup without outputs. -/
theorem setup_failure_calls_witness :
    ∃ tr, ECA_PROCESSOR.construct (session_of no_output_setup)
        = Outcome.thrown error_no_outputs tr ∧
      buffersize_calls tr = [(true, 0)] ∧ seek_calls tr = [(true, 0)] :=
  (setup_failure_calls (session_of no_output_setup) no_output_setup rfl).2.1
    (by decide) rfl

/-! ## C11: proxy server slots -/

theorem init_inputs_fold_pserver :
    ∀ (l : List (Nat × AUDIO_IO)) (st : ECA_PROCESSOR × Int),
      (l.foldl init_inputs_step st).1.pserver_buffer_count = st.1.pserver_buffer_count
  | [], _ => rfl
  | p :: rest, st => by
    simp only [List.foldl_cons]
    rw [init_inputs_fold_pserver rest]
    obtain ⟨e, m⟩ := st
    obtain ⟨i, a⟩ := p
    cases hd : a.is_device <;> by_cases hm : a.channels > e.max_channels <;>
      simp [init_inputs_step, dynamic_cast_device, hd, hm]

theorem init_outputs_fold_pserver :
    ∀ (l : List (Nat × AUDIO_IO)) (e : ECA_PROCESSOR),
      (l.foldl init_outputs_step e).pserver_buffer_count = e.pserver_buffer_count
  | [], _ => rfl
  | p :: rest, e => by
    simp only [List.foldl_cons]
    rw [init_outputs_fold_pserver rest]
    obtain ⟨i, a⟩ := p
    cases hd : a.is_device <;> by_cases hm : a.channels > e.max_channels <;>
      simp [init_outputs_step, dynamic_cast_device, hd, hm]

theorem init_inputs_pserver (e e' : ECA_PROCESSOR) (h : init_inputs e = Outcome.done e') :
    e'.pserver_buffer_count = e.pserver_buffer_count := by
  by_cases hi : e.csetup.inputs = []
  · rw [init_inputs_thrown e hi] at h
    simp at h
  · have hlen : ¬ e.csetup.inputs.length = 0 := by
      intro h0; exact hi (List.length_eq_zero.mp h0)
    by_cases hdb : e.csetup.double_buffering = true
    all_goals
      simp only [init_inputs, hdb, hlen, bne_self_eq_false, if_false, if_true,
        Bool.false_eq_true, Bool.true_bne, Bool.false_bne, bne_iff_ne, ne_eq,
        not_true_eq_false, not_false_eq_true] at h
      split at h <;> simp only [Outcome.done.injEq] at h <;> rw [← h] <;>
        exact init_inputs_fold_pserver _ _

theorem init_outputs_pserver (e e' : ECA_PROCESSOR) (h : init_outputs e = Outcome.done e') :
    e'.pserver_buffer_count = e.pserver_buffer_count := by
  by_cases hi : e.csetup.outputs = []
  · rw [init_outputs_thrown e hi] at h
    simp at h
  · have hlen : ¬ e.csetup.outputs.length = 0 := by
      intro h0; exact hi (List.length_eq_zero.mp h0)
    by_cases hdb : e.csetup.double_buffering = true
    all_goals
      simp only [init_outputs, hdb, hlen, bne_self_eq_false, if_false, if_true,
        Bool.false_eq_true, Bool.true_bne, Bool.false_bne, bne_iff_ne, ne_eq,
        not_true_eq_false, not_false_eq_true] at h
      simp only [Outcome.done.injEq] at h
      rw [← h]
      exact init_outputs_fold_pserver _ _

theorem init_chains_pserver (e e' : ECA_PROCESSOR) (h : init_chains e = Outcome.done e') :
    e'.pserver_buffer_count = e.pserver_buffer_count := by
  simp only [init_chains] at h
  split at h
  · simp at h
  · simp only [Outcome.done.injEq] at h
    rw [← h]

/-- C11 as stated fails: the playback setup has double_buffer_size 0 and buffersize
4; the engine hands 0 slots to the proxy server, not max(2, 0 / 4) = 2. -/
theorem init_pserver_no_minimum :
    playback_engine.csetup.double_buffer_size = 0 ∧ playback_engine.buffersize_rep = 4 ∧
    playback_engine.pserver_buffer_count = 0 ∧
    playback_engine.pserver_buffer_count ≠ max 2 (0 / 4) := by
  decide

/-- C11 (amended): the slot count the engine hands to the proxy server is the
integer quotient double_buffer_size / buffersize; it equals
max(2, double_buffer_size / buffersize) exactly when that quotient is at least 2. -/
theorem init_pserver_slot_count (params : ECA_SESSION) (cs : ECA_CHAINSETUP)
    (e : ECA_PROCESSOR)
    (hcs : params.connected_chainsetup_repp = some cs)
    (h : ECA_PROCESSOR.construct params = Outcome.done e) :
    e.pserver_buffer_count = cs.double_buffer_size / cs.buffersize ∧
    (e.pserver_buffer_count = max 2 (cs.double_buffer_size / cs.buffersize) ↔
      2 ≤ cs.double_buffer_size / cs.buffersize) := by
  have h1 : e.pserver_buffer_count = cs.double_buffer_size / cs.buffersize := by
    simp only [ECA_PROCESSOR.construct, hcs, ECA_PROCESSOR.init,
      init_connection_to_chainsetup] at h
    split at h
    · simp at h
    · simp at h
    · rename_i e2 hconn
      split at hconn
      · simp at hconn
      · simp at hconn
      · rename_i ea ha
        split at hconn
        · simp at hconn
        · simp at hconn
        · rename_i eb hb
          simp only [Outcome.done.injEq] at h
          rw [← h]
          have hc := init_chains_pserver _ _ hconn
          have hb' := init_outputs_pserver _ _ hb
          have ha' := init_inputs_pserver _ _ ha
          have : (init_mix_method (init_multitrack_mode e2)).pserver_buffer_count
              = e2.pserver_buffer_count := by
            simp only [init_mix_method, init_multitrack_mode]
            split <;> rfl
          rw [this, hc, hb', ha']
          rfl
  refine ⟨h1, ?_⟩
  rw [h1]
  omega

/-- C11 (amended) at the playback setup. -/
theorem init_pserver_slot_count_witness :
    playback_engine.pserver_buffer_count = 0 / 4 ∧
    (playback_engine.pserver_buffer_count = max 2 (0 / 4) ↔ 2 ≤ 0 / 4) :=
  init_pserver_slot_count (session_of playback_setup) playback_setup playback_engine rfl rfl

/-! ## C12: the shortened last block -/

/-- C12, the code at the failing input: position 0, length 1, buffersize 4; the
claim asks for buffersize L - p = 1 on the input, `prehandle_control_position`
sets it to (p + B) - L = 3. -/
theorem prehandle_sets_overshoot :
    short_engine.csetup.position_in_samples = 0 ∧
    short_engine.csetup.length_in_samples = 1 ∧
    short_engine.buffersize_rep = 4 ∧
    short_engine.processing_range_set = true ∧
    input_buffersize_calls 0 short_engine.trace = [4] ∧
    input_buffersize_calls 0 (prehandle_control_position short_engine).trace = [4, 3] := by
  decide

/-! ## What block processing and the transport leave alone -/

theorem SameConfiguration.refl (e : ECA_PROCESSOR) : SameConfiguration e e :=
  ⟨rfl, rfl, rfl, rfl, rfl, rfl, rfl, rfl, rfl, rfl, rfl, rfl, rfl, rfl, rfl, rfl, rfl, rfl,
    rfl, rfl⟩

theorem SameConfiguration.trans {a b c : ECA_PROCESSOR} (h1 : SameConfiguration a b)
    (h2 : SameConfiguration b c) : SameConfiguration a c :=
  ⟨h2.inputs.trans h1.inputs, h2.outputs.trans h1.outputs, h2.chains.trans h1.chains,
    h2.length.trans h1.length, h2.looping.trans h1.looping,
    h2.double_buffering.trans h1.double_buffering, h2.sample_rate.trans h1.sample_rate,
    h2.buffersize_rep.trans h1.buffersize_rep, h2.input_count.trans h1.input_count,
    h2.output_count.trans h1.output_count, h2.chain_count.trans h1.chain_count,
    h2.input_start_pos.trans h1.input_start_pos,
    h2.output_start_pos.trans h1.output_start_pos,
    h2.input_chain_count.trans h1.input_chain_count,
    h2.output_chain_count.trans h1.output_chain_count,
    h2.processing_range_set.trans h1.processing_range_set,
    h2.multitrack.trans h1.multitrack, h2.realtime_inputs.trans h1.realtime_inputs,
    h2.realtime_outputs.trans h1.realtime_outputs,
    h2.non_realtime_outputs.trans h1.non_realtime_outputs⟩

theorem trace_extends_refl (e : ECA_PROCESSOR) : trace_extends e e := ⟨[], by simp⟩

theorem trace_extends_trans {a b c : ECA_PROCESSOR} (h1 : trace_extends a b)
    (h2 : trace_extends b c) : trace_extends a c := by
  obtain ⟨t1, h1⟩ := h1
  obtain ⟨t2, h2⟩ := h2
  exact ⟨t1 ++ t2, by rw [h2, h1, List.append_assoc]⟩

theorem inputs_chains_trace (rd : ReadEnv) (inp : AUDIO_IO) (i icc : Nat)
    (m : SAMPLE_BUFFER) :
    ∀ (l : List (Nat × CHAIN)) (st : ReadLoop),
      ∃ tr, (inputs_to_chains_chains rd inp i icc m l st).trace = st.trace ++ tr := by
  intro l
  induction l with
  | nil => intro st; exact ⟨[], by simp [inputs_to_chains_chains]⟩
  | cons p rest ih =>
    intro st
    obtain ⟨c, ch⟩ := p
    simp only [inputs_to_chains_chains]
    split
    · split
      · exact ⟨_, rfl⟩
      · exact ih _
    · exact ih _

theorem inputs_to_chains_step_same (rd : ReadEnv) (e : ECA_PROCESSOR) (p : Nat × AUDIO_IO) :
    SameConfiguration e (inputs_to_chains_step rd e p) ∧
      trace_extends e (inputs_to_chains_step rd e p) := by
  simp only [inputs_to_chains_step]
  split
  · refine ⟨⟨rfl, rfl, rfl, rfl, rfl, rfl, rfl, rfl, rfl, rfl, rfl, rfl, rfl, rfl, rfl, rfl,
      rfl, rfl, rfl, rfl⟩, ?_⟩
    obtain ⟨tr, h⟩ := inputs_chains_trace rd p.2 p.1 (e.input_chain_count.getD p.1 0)
      (rd p.1).1 e.csetup.chains.enum
      { cslots := e.cslots
        input_not_finished := if (rd p.1).2 = false then true else e.input_not_finished
        trace := e.trace ++ [Event.read_buffer p.1] }
    exact ⟨[Event.read_buffer p.1] ++ tr, by
      simp only [trace_extends]
      rw [h, List.append_assoc]⟩
  · refine ⟨⟨rfl, rfl, rfl, rfl, rfl, rfl, rfl, rfl, rfl, rfl, rfl, rfl, rfl, rfl, rfl, rfl,
      rfl, rfl, rfl, rfl⟩, ?_⟩
    exact inputs_chains_trace rd p.2 p.1 _ _ _ _

theorem inputs_to_chains_fold_same (rd : ReadEnv) :
    ∀ (l : List (Nat × AUDIO_IO)) (e : ECA_PROCESSOR),
      SameConfiguration e (l.foldl (inputs_to_chains_step rd) e) ∧
        trace_extends e (l.foldl (inputs_to_chains_step rd) e)
  | [], e => ⟨SameConfiguration.refl e, trace_extends_refl e⟩
  | p :: rest, e => by
    obtain ⟨h1, h2⟩ := inputs_to_chains_step_same rd e p
    obtain ⟨g1, g2⟩ := inputs_to_chains_fold_same rd rest (inputs_to_chains_step rd e p)
    simp only [List.foldl_cons]
    exact ⟨h1.trans g1, trace_extends_trans h2 g2⟩

theorem inputs_to_chains_same (e : ECA_PROCESSOR) (rd : ReadEnv) :
    SameConfiguration e (inputs_to_chains e rd) ∧ trace_extends e (inputs_to_chains e rd) :=
  inputs_to_chains_fold_same rd _ e

theorem multitrack_sync_chains_trace (out : AUDIO_IO) (slot k bs : Nat) :
    ∀ (l : List (Nat × CHAIN)) (st : MixLoop),
      ∃ tr, (multitrack_sync_chains out slot k bs l st).trace = st.trace ++ tr := by
  intro l
  induction l with
  | nil => intro st; exact ⟨[], by simp [multitrack_sync_chains]⟩
  | cons p rest ih =>
    intro st
    obtain ⟨n, c⟩ := p
    simp only [multitrack_sync_chains]
    split
    · exact ih st
    · split
      · split
        · exact ⟨_, rfl⟩
        · split
          · exact ih _
          · split
            · obtain ⟨tr, h⟩ := ih
                { st with
                  count := st.count + 1
                  trace := st.trace ++ [Event.write_buffer slot
                    (st.mixslot.add_with_weight (st.cslots.getD n default) k)]
                  mixslot := (st.mixslot.add_with_weight
                    (st.cslots.getD n default) k).length_in_samples bs }
              exact ⟨Event.write_buffer slot
                (st.mixslot.add_with_weight (st.cslots.getD n default) k) :: tr, by
                  rw [h]; simp⟩
            · exact ih _
      · exact ih st

theorem multitrack_sync_step_same (e : ECA_PROCESSOR) (p : Nat × AUDIO_IO) :
    SameConfiguration e (multitrack_sync_step e p) ∧
      trace_extends e (multitrack_sync_step e p) := by
  simp only [multitrack_sync_step]
  split
  · exact ⟨SameConfiguration.refl e, trace_extends_refl e⟩
  · exact ⟨⟨rfl, rfl, rfl, rfl, rfl, rfl, rfl, rfl, rfl, rfl, rfl, rfl, rfl, rfl, rfl, rfl,
      rfl, rfl, rfl, rfl⟩, multitrack_sync_chains_trace _ _ _ _ _ _⟩

theorem multitrack_sync_fold_same :
    ∀ (l : List (Nat × AUDIO_IO)) (e : ECA_PROCESSOR),
      SameConfiguration e (l.foldl multitrack_sync_step e) ∧
        trace_extends e (l.foldl multitrack_sync_step e)
  | [], e => ⟨SameConfiguration.refl e, trace_extends_refl e⟩
  | p :: rest, e => by
    obtain ⟨h1, h2⟩ := multitrack_sync_step_same e p
    obtain ⟨g1, g2⟩ := multitrack_sync_fold_same rest (multitrack_sync_step e p)
    simp only [List.foldl_cons]
    exact ⟨h1.trans g1, trace_extends_trans h2 g2⟩

theorem multitrack_sync_same (e : ECA_PROCESSOR) (rd : ReadEnv) (stamp : Int) :
    SameConfiguration e (multitrack_sync e rd stamp) ∧
      trace_extends e (multitrack_sync e rd stamp) := by
  obtain ⟨a1, a2⟩ := inputs_to_chains_same e rd
  have b : SameConfiguration (inputs_to_chains e rd)
      (process_chains { inputs_to_chains e rd with multitrack_input_stamp_rep := stamp }) :=
    ⟨rfl, rfl, rfl, rfl, rfl, rfl, rfl, rfl, rfl, rfl, rfl, rfl, rfl, rfl, rfl, rfl, rfl, rfl,
      rfl, rfl⟩
  have b2 : trace_extends (inputs_to_chains e rd)
      (process_chains { inputs_to_chains e rd with multitrack_input_stamp_rep := stamp }) :=
    ⟨[], by simp [process_chains]⟩
  obtain ⟨c1, c2⟩ := multitrack_sync_fold_same
    (process_chains
      { inputs_to_chains e rd with multitrack_input_stamp_rep := stamp }).csetup.outputs.enum
    (process_chains { inputs_to_chains e rd with multitrack_input_stamp_rep := stamp })
  exact ⟨(a1.trans b).trans c1, trace_extends_trans (trace_extends_trans a2 b2) c2⟩

theorem stop_same (e : ECA_PROCESSOR) :
    SameConfiguration e (stop e) ∧ (stop e).trace = e.trace := by
  simp only [stop]
  split
  · exact ⟨SameConfiguration.refl e, rfl⟩
  · exact ⟨⟨rfl, rfl, rfl, rfl, rfl, rfl, rfl, rfl, rfl, rfl, rfl, rfl, rfl, rfl, rfl, rfl,
      rfl, rfl, rfl, rfl⟩, rfl⟩

theorem trigger_outputs_same (e : ECA_PROCESSOR) :
    SameConfiguration e (trigger_outputs e) ∧ (trigger_outputs e).trace = e.trace := by
  simp only [trigger_outputs]
  split
  · split <;> exact ⟨⟨rfl, rfl, rfl, rfl, rfl, rfl, rfl, rfl, rfl, rfl, rfl, rfl, rfl, rfl,
      rfl, rfl, rfl, rfl, rfl, rfl⟩, rfl⟩
  · exact ⟨SameConfiguration.refl e, rfl⟩

theorem start_same (e e' : ECA_PROCESSOR) (env : StartEnv) (hs : start e env = some e') :
    SameConfiguration e e' ∧ trace_extends e e' := by
  simp only [start] at hs
  split at hs
  · simp only [Option.some.injEq] at hs
    rw [← hs]; exact ⟨SameConfiguration.refl e, trace_extends_refl e⟩
  · split at hs
    · have a0 : SameConfiguration e
          { e with clock_running := e.realtime_inputs.foldl device_start e.clock_running } :=
        ⟨rfl, rfl, rfl, rfl, rfl, rfl, rfl, rfl, rfl, rfl, rfl, rfl, rfl, rfl, rfl, rfl, rfl,
          rfl, rfl, rfl⟩
      obtain ⟨a1, a2⟩ := multitrack_sync_same
        { e with clock_running := e.realtime_inputs.foldl device_start e.clock_running }
        env.rd1 env.stamp1
      obtain ⟨b1, b2⟩ := multitrack_sync_same
        (multitrack_sync
          { e with clock_running := e.realtime_inputs.foldl device_start e.clock_running }
          env.rd1 env.stamp1) env.rd2 env.stamp2
      have hc := (a0.trans a1).trans b1
      obtain ⟨tr, htr⟩ := trace_extends_trans a2 b2
      simp only [] at htr
      generalize multitrack_sync
        (multitrack_sync
          { e with clock_running := e.realtime_inputs.foldl device_start e.clock_running }
          env.rd1 env.stamp1) env.rd2 env.stamp2 = e3 at hs hc htr
      split at hs
      · simp at hs
      · split at hs
        · simp at hs
        · simp only [Option.some.injEq] at hs
          rw [← hs]
          refine ⟨hc.trans ⟨rfl, rfl, rfl, rfl, rfl, rfl, rfl, rfl, rfl, rfl, rfl, rfl, rfl,
            rfl, rfl, rfl, rfl, rfl, rfl, rfl⟩, ?_⟩
          exact ⟨tr ++ e3.non_realtime_outputs.map
            (fun o => Event.seek_position_in_samples_advance o
              (Int.tdiv ((env.now - e3.multitrack_input_stamp_rep) * (e3.csetup.sample_rate : Int))
                1000000)), by
            simp only [trace_extends]
            rw [htr, List.append_assoc]⟩
    · simp only [Option.some.injEq] at hs
      rw [← hs]
      exact ⟨⟨rfl, rfl, rfl, rfl, rfl, rfl, rfl, rfl, rfl, rfl, rfl, rfl, rfl, rfl, rfl, rfl,
        rfl, rfl, rfl, rfl⟩, ⟨[], by simp⟩⟩

/-! ## C14: looping at the end of the processing range -/

theorem start_status_running (e e' : ECA_PROCESSOR) (env : StartEnv)
    (hs : start e env = some e') : e'.eparams.status = Status.ep_status_running := by
  simp only [start] at hs
  split at hs
  · simp only [Option.some.injEq] at hs
    rw [← hs]; assumption
  · split at hs
    · split at hs
      · simp at hs
      · split at hs
        · simp at hs
        · simp only [Option.some.injEq] at hs
          rw [← hs]
    · simp only [Option.some.injEq] at hs
      rw [← hs]

theorem start_returns_without_multitrack (e : ECA_PROCESSOR) (env : StartEnv)
    (h : e.eparams.multitrack_mode_rep = false) : ∃ e', start e env = some e' := by
  simp only [start, h]
  split
  · exact ⟨_, rfl⟩
  · exact ⟨_, rfl⟩

theorem input_buffersize_append (i : Nat) :
    ∀ (xs ys : List Event) (d : Int),
      input_buffersize i (xs ++ ys) d = input_buffersize i ys (input_buffersize i xs d)
  | [], _, _ => rfl
  | x :: xs, ys, d => by
    cases x with
    | buffersize inp j n =>
      cases inp
      · simp only [List.cons_append, input_buffersize]
        exact input_buffersize_append i xs ys d
      · simp only [List.cons_append, input_buffersize]
        split <;> exact input_buffersize_append i xs ys _
    | seek_position_in_samples inp j n =>
      simp only [List.cons_append, input_buffersize]
      exact input_buffersize_append i xs ys d
    | seek_position_in_samples_advance o n =>
      simp only [List.cons_append, input_buffersize]
      exact input_buffersize_append i xs ys d
    | read_buffer j =>
      simp only [List.cons_append, input_buffersize]
      exact input_buffersize_append i xs ys d
    | write_buffer j b =>
      simp only [List.cons_append, input_buffersize]
      exact input_buffersize_append i xs ys d

theorem input_buffersize_set_all (i : Nat) (v : Int) :
    ∀ (l : List Nat) (d : Int), (i ∈ l ∨ d = v) →
      input_buffersize i (l.map (fun j => Event.buffersize true j v)) d = v
  | [], d, h => by
    rcases h with h | h
    · simp at h
    · simpa [input_buffersize] using h
  | j :: rest, d, h => by
    simp only [List.map_cons, input_buffersize]
    split
    · exact input_buffersize_set_all i v rest v (Or.inr rfl)
    · rename_i hne
      apply input_buffersize_set_all i v rest d
      rcases h with h | h
      · rcases List.mem_cons.mp h with h1 | h1
        · exact absurd h1.symm hne
        · exact Or.inl h1
      · exact Or.inr h

theorem stop_was_running (e : ECA_PROCESSOR) : (stop e).was_running = e.was_running := by
  simp only [stop]
  split <;> rfl

theorem stop_running_status (e : ECA_PROCESSOR)
    (h : e.eparams.status = Status.ep_status_running) :
    (stop e).eparams.status = Status.ep_status_stopped := by
  simp [stop, h]

theorem was_running_same (e : ECA_PROCESSOR) (b : Bool) :
    SameConfiguration e { e with was_running := b } :=
  ⟨rfl, rfl, rfl, rfl, rfl, rfl, rfl, rfl, rfl, rfl, rfl, rfl, rfl, rfl, rfl, rfl, rfl, rfl,
    rfl, rfl⟩

theorem trace_same (e : ECA_PROCESSOR) (tr : List Event) :
    SameConfiguration e { e with trace := tr } :=
  ⟨rfl, rfl, rfl, rfl, rfl, rfl, rfl, rfl, rfl, rfl, rfl, rfl, rfl, rfl, rfl, rfl, rfl, rfl,
    rfl, rfl⟩

/-- `rewind_to_start_position` on a Running engine without double buffering: the
engine is stopped, the endpoints are seeked, and `start()` is called. -/
theorem rewind_running_eq (e : ECA_PROCESSOR) (env : StartEnv)
    (hrun : e.eparams.status = Status.ep_status_running)
    (hdb : e.csetup.double_buffering = false) :
    ∃ e3, rewind_to_start_position e env = start e3 env ∧ SameConfiguration e e3 ∧
      e3.trace = e.trace
        ++ (List.range e.input_count).map
            (fun i => Event.seek_position_in_samples true i (e.input_start_pos.getD i 0))
        ++ (List.range e.output_count).map
            (fun i => Event.seek_position_in_samples false i (e.output_start_pos.getD i 0)) := by
  have hcs : conditional_stop e env = some (stop { e with was_running := true }) := by
    simp [conditional_stop, hrun, hdb]
  have w := was_running_same e true
  obtain ⟨s1, s2⟩ := stop_same { e with was_running := true }
  have s3 := stop_was_running { e with was_running := true }
  simp only [rewind_to_start_position, hcs]
  generalize stop { e with was_running := true } = s at s1 s2 s3
  have s1' := w.trans s1
  have hdb' : s.csetup.double_buffering = false := by rw [s1'.double_buffering]; exact hdb
  have s3' : s.was_running = true := s3
  have s2' : s.trace = e.trace := s2
  have hseek : seek_to_start_positions s = { s with
      trace := s.trace
        ++ (List.range s.input_count).map
            (fun i => Event.seek_position_in_samples true i (s.input_start_pos.getD i 0))
        ++ (List.range s.output_count).map
            (fun i => Event.seek_position_in_samples false i (s.output_start_pos.getD i 0)) } :=
    rfl
  refine ⟨seek_to_start_positions s, ?_, ?_, ?_⟩
  · have hw : (seek_to_start_positions s).was_running = true := s3'
    have hd : (seek_to_start_positions s).csetup.double_buffering = false := hdb'
    simp only [conditional_start, hw, hd, if_true, bne_iff_ne, ne_eq, Bool.false_eq_true,
      not_false_eq_true]
  · rw [hseek]
    exact s1'.trans (trace_same s _)
  · rw [hseek]
    simp only [s2', s1'.input_count, s1'.output_count, s1'.input_start_pos,
      s1'.output_start_pos]

/-- `rewind_to_start_position` on a Running engine without double buffering. -/
theorem rewind_running (e e1 : ECA_PROCESSOR) (env : StartEnv)
    (hrun : e.eparams.status = Status.ep_status_running)
    (hdb : e.csetup.double_buffering = false)
    (h : rewind_to_start_position e env = some e1) :
    e1.eparams.status = Status.ep_status_running ∧ SameConfiguration e e1 ∧
      ∃ mid, e1.trace = e.trace
        ++ (List.range e.input_count).map
            (fun i => Event.seek_position_in_samples true i (e.input_start_pos.getD i 0))
        ++ (List.range e.output_count).map
            (fun i => Event.seek_position_in_samples false i (e.output_start_pos.getD i 0))
        ++ mid := by
  obtain ⟨e3, h3, c3, t3⟩ := rewind_running_eq e env hrun hdb
  rw [h3] at h
  obtain ⟨c1, mid, hmid⟩ := start_same e3 e1 env h
  exact ⟨start_status_running _ _ env h, c3.trans c1, mid, by rw [hmid, t3]⟩

/-- `rewind_to_start_position` does not produce status Finished. -/
theorem rewind_not_finished (e e1 : ECA_PROCESSOR) (env : StartEnv)
    (h : rewind_to_start_position e env = some e1)
    (hnf : e.eparams.status ≠ Status.ep_status_finished) :
    e1.eparams.status ≠ Status.ep_status_finished := by
  by_cases hrun : e.eparams.status = Status.ep_status_running
  · cases hdb : e.csetup.double_buffering with
    | false =>
      rw [(rewind_running e e1 env hrun hdb h).1]
      decide
    | true =>
      cases hp : env.pserver_is_running with
      | false =>
        have hcs : conditional_stop e env = none := by
          simp [conditional_stop, hrun, hdb, hp]
        simp only [rewind_to_start_position, hcs] at h
        cases h
      | true =>
        have hcs : conditional_stop e env = some { e with was_running := true } := by
          simp [conditional_stop, hrun, hdb, hp]
        have hd : (seek_to_start_positions { e with was_running := true }
            ).csetup.double_buffering = true := hdb
        have hw : (seek_to_start_positions { e with was_running := true }
            ).was_running = true := rfl
        simp only [rewind_to_start_position, hcs, conditional_start, hd, hw, if_true,
          bne_self_eq_false, Bool.false_eq_true, if_false] at h
        split at h
        · simp only [Option.some.injEq] at h
          rw [← h]
          exact hnf
        · cases h
  · have hcs : conditional_stop e env = some { e with was_running := false } := by
      simp [conditional_stop, hrun]
    have hw : (seek_to_start_positions { e with was_running := false }
        ).was_running = false := rfl
    simp only [rewind_to_start_position, hcs, conditional_start, hw, Bool.false_eq_true,
      if_false, Option.some.injEq] at h
    rw [← h]
    exact hnf

/-- C14: with looping enabled and a processing range set,
`posthandle_control_position` never sets the status to Finished; when the
position is over the length and the engine is Running without double buffering,
it returns (always so outside multitrack mode) with status Running, chainsetup
position 0, every input and output seeked to its recorded start position and
every input's buffersize set back to the engine buffersize. -/
theorem posthandle_looping_rewinds (e : ECA_PROCESSOR)
    (hloop : e.csetup.looping_enabled = true) (hrange : e.processing_range_set = true) :
    (∀ env e', posthandle_control_position e env = some e' →
      e.eparams.status ≠ Status.ep_status_finished →
      e'.eparams.status ≠ Status.ep_status_finished) ∧
    (e.csetup.is_over = true → e.eparams.status = Status.ep_status_running →
      e.csetup.double_buffering = false →
      (e.eparams.multitrack_mode_rep = false →
        ∀ env, ∃ e', posthandle_control_position e env = some e') ∧
      (∀ env e', posthandle_control_position e env = some e' →
        e'.eparams.status = Status.ep_status_running ∧
        e'.csetup.position_in_samples = 0 ∧
        (∃ mid, e'.trace = e.trace
          ++ (List.range e.input_count).map
              (fun i => Event.seek_position_in_samples true i (e.input_start_pos.getD i 0))
          ++ (List.range e.output_count).map
              (fun i => Event.seek_position_in_samples false i (e.output_start_pos.getD i 0))
          ++ mid
          ++ (List.range e.input_count).map
              (fun i => Event.buffersize true i e.buffersize_rep)) ∧
        (∀ i d, i < e.input_count → input_buffersize i e'.trace d = e.buffersize_rep))) := by
  refine ⟨?_, ?_⟩
  · intro env e' h hnf
    simp only [posthandle_control_position, hloop, hrange, and_true, if_true] at h
    split at h
    · split at h
      · simp at h
      · rename_i e1 hrw
        simp only [Option.some.injEq] at h
        rw [← h]
        exact rewind_not_finished e e1 env hrw hnf
    · simp only [Option.some.injEq] at h
      rw [← h]; exact hnf
  · intro hover hrun hdb
    refine ⟨?_, ?_⟩
    · intro hmt env
      obtain ⟨e3, h3, c3, _⟩ := rewind_running_eq e env hrun hdb
      obtain ⟨e1, he1⟩ := start_returns_without_multitrack e3 env
        (by rw [c3.multitrack]; exact hmt)
      simp only [posthandle_control_position, hloop, hrange, hover, and_self, if_true, h3,
        he1]
      exact ⟨_, rfl⟩
    · intro env e' h
      simp only [posthandle_control_position, hloop, hrange, hover, and_self, if_true] at h
      split at h
      · simp at h
      · rename_i e1 hrw
        simp only [Option.some.injEq] at h
        obtain ⟨r1, r2, mid, r3⟩ := rewind_running e e1 env hrun hdb hrw
        rw [← h]
        refine ⟨r1, rfl, ⟨mid, ?_⟩, ?_⟩
        · simp only [r3, r2.input_count, r2.buffersize_rep]
        · intro i d hi
          simp only []
          rw [input_buffersize_append, r2.buffersize_rep]
          apply input_buffersize_set_all
          left
          rw [r2.input_count]
          exact List.mem_range.mpr hi

/-- C14 at the looping playback engine, over its length after the first block. -/
theorem posthandle_looping_rewinds_witness :
    (∃ e', posthandle_control_position loop_running idle_env = some e') ∧
    (∀ e', posthandle_control_position loop_running idle_env = some e' →
      e'.eparams.status = Status.ep_status_running ∧ e'.csetup.position_in_samples = 0) :=
  ⟨((posthandle_looping_rewinds loop_running (by decide) (by decide)).2
      (by decide) (by decide) (by decide)).1 (by decide) idle_env,
    fun e' he =>
      ⟨(((posthandle_looping_rewinds loop_running (by decide) (by decide)).2
          (by decide) (by decide) (by decide)).2 idle_env e' he).1,
        (((posthandle_looping_rewinds loop_running (by decide) (by decide)).2
          (by decide) (by decide) (by decide)).2 idle_env e' he).2.1⟩⟩

/-! ## C15: identity chain -/

theorem process_identity (c : CHAIN) (b : SAMPLE_BUFFER) (hm : c.muted = false)
    (hops : c.chainops_rep = []) : c.process b = b := by
  simp [CHAIN.process, hm, hops]

theorem inputs_to_chains_single (e : ECA_PROCESSOR) (rd : ReadEnv) ( inp : AUDIO_IO)
    (c : CHAIN) (s0 : SAMPLE_BUFFER) (srest : List SAMPLE_BUFFER)
    (hin : e.csetup.inputs = [inp]) (hch : e.csetup.chains = [c])
    (hci : c.input_id_repp = some inp) (hicc : e.input_chain_count.getD 0 0 = 1)
    (hs : e.cslots = s0 :: srest) :
    (inputs_to_chains e rd).cslots = (rd 0).1 :: srest ∧
      (inputs_to_chains e rd).trace = e.trace ++ [Event.read_buffer 0] ∧
      (inputs_to_chains e rd).csetup = e.csetup ∧
      (inputs_to_chains e rd).output_chain_count = e.output_chain_count ∧
      (inputs_to_chains e rd).buffersize_rep = e.buffersize_rep := by
  have h1 : inputs_to_chains e rd = inputs_to_chains_step rd e (0, inp) := by
    simp only [inputs_to_chains, hin, List.enum_cons, List.enumFrom_nil, List.foldl_cons,
      List.foldl_nil]
  rw [h1]
  simp only [inputs_to_chains_step, hicc, hch, List.enum_cons, List.enumFrom_nil,
    inputs_to_chains_chains, hci, hs, gt_iff_lt, lt_self_iff_false, if_false, if_true,
    List.set_cons_zero, and_self]

theorem process_chains_single (e : ECA_PROCESSOR) (c : CHAIN) (s0 : SAMPLE_BUFFER)
    (srest : List SAMPLE_BUFFER) (hch : e.csetup.chains = [c]) (hm : c.muted = false)
    (hops : c.chainops_rep = []) (hs : e.cslots = s0 :: srest) :
    process_chains e = e := by
  have : (process_chains e).cslots = e.cslots := by
    simp only [process_chains, hch, List.enum_cons, List.enumFrom_nil, List.foldl_cons,
      List.foldl_nil, hs, process_identity c _ hm hops]
    simp
  cases e
  simp only [process_chains] at this ⊢
  simp only [this]

theorem mix_to_outputs_single (e : ECA_PROCESSOR) ( out : AUDIO_IO) (c : CHAIN)
    (s0 : SAMPLE_BUFFER) (srest : List SAMPLE_BUFFER)
    (hout : e.csetup.outputs = [out]) (hch : e.csetup.chains = [c])
    (hco : c.output_id_repp = some out) (hocc : e.output_chain_count.getD 0 0 = 1)
    (hs : e.cslots = s0 :: srest) :
    (mix_to_outputs e).trace = e.trace ++ [Event.write_buffer 0 s0] := by
  have h1 : mix_to_outputs e = mix_to_outputs_step e 0 out := by
    simp only [mix_to_outputs, hout, List.enum_cons, List.enumFrom_nil, List.foldl_cons,
      List.foldl_nil]
  rw [h1]
  simp only [mix_to_outputs_step, hocc, hch, List.enum_cons, List.enumFrom_nil,
    mix_to_outputs_chains, hco, hs, reduceCtorEq, if_false, if_true, List.getD_cons_zero]

/-- C15: with one input, one output and one chain without operators that is not
muted, the block written to the output is exactly the block read from the input,
both in the loop body of `exec_simple_iactive` and in the normal pipeline
`inputs_to_chains`, processing, `mix_to_outputs`; the two mixmodes write the same
block. -/
theorem identity_chain_passthrough (e : ECA_PROCESSOR) (rd : ReadEnv)
    ( inp out : AUDIO_IO) (c : CHAIN)
    (hin : e.csetup.inputs = [inp]) (hout : e.csetup.outputs = [out])
    (hch : e.csetup.chains = [c])
    (hci : c.input_id_repp = some inp) (hco : c.output_id_repp = some out)
    (hm : c.muted = false) (hops : c.chainops_rep = [])
    (hicc : e.input_chain_count.getD 0 0 = 1) (hocc : e.output_chain_count.getD 0 0 = 1)
    (hslots : 0 < e.cslots.length) :
    writes_to 0 (exec_simple_block e rd).trace = writes_to 0 e.trace ++ [(rd 0).1] ∧
    writes_to 0 (exec_normal_block e rd).trace = writes_to 0 e.trace ++ [(rd 0).1] := by
  refine ⟨?_, ?_⟩
  · simp only [exec_simple_block, hch, List.getElem?_cons_zero, process_identity c _ hm hops]
    simp [writes_to_append, writes_to]
  · obtain ⟨s0, srest, hs⟩ : ∃ s0 srest, e.cslots = s0 :: srest := by
      cases hc : e.cslots with
      | nil => rw [hc] at hslots; simp at hslots
      | cons s0 srest => exact ⟨s0, srest, rfl⟩
    obtain ⟨a1, a2, a3, a4, _⟩ := inputs_to_chains_single e rd inp c s0 srest hin hch hci hicc hs
    have hp := process_chains_single (inputs_to_chains e rd) c (rd 0).1 srest
      (by rw [a3]; exact hch) hm hops a1
    simp only [exec_normal_block]
    rw [hp, mix_to_outputs_single (inputs_to_chains e rd) out c (rd 0).1 srest
      (by rw [a3]; exact hout) (by rw [a3]; exact hch) hco (by rw [a4]; exact hocc) a1, a2]
    simp [writes_to_append, writes_to]

/-- C15 at the playback engine reading the tone block. -/
theorem identity_chain_passthrough_witness :
    writes_to 0 (exec_simple_block playback_engine tone_reads).trace
      = writes_to 0 playback_engine.trace ++ [tone_block] ∧
    writes_to 0 (exec_normal_block playback_engine tone_reads).trace
      = writes_to 0 playback_engine.trace ++ [tone_block] :=
  identity_chain_passthrough playback_engine tone_reads (file_object 1 1) (device_object 2 1)
    (plain_chain (file_object 1 1) (device_object 2 1)) rfl rfl rfl rfl rfl rfl rfl
    (by decide) (by decide) (by decide)

/-! ## JACK manager: the process callback -/

theorem iterations_append (a b : List Jack_call) :
    iterations (a ++ b) = iterations a + iterations b := by
  simp [iterations]

theorem mutes_append (a b : List Jack_call) : mutes (a ++ b) = mutes a + mutes b := by
  simp [mutes]

theorem submitted_seeks_append (a b : List Jack_call) :
    submitted_seeks (a ++ b) = submitted_seeks a ++ submitted_seeks b := by
  induction a with
  | nil => rfl
  | cons x xs ih =>
    cases x with
    | command c v => cases c <;> simp [submitted_seeks, ih]
    | _ => simp [submitted_seeks, ih]

theorem mute_port_silent (bs : Int) (p : eca_jack_port_data_t) (h : p.cb_buffer ≠ none) :
    port_is_silent bs (mute_port bs p) ∧ (mute_port bs p).cb_buffer = p.cb_buffer := by
  unfold mute_port port_is_silent
  cases hc : p.cb_buffer with
  | none => exact absurd hc h
  | some b => simp [memset_zero, List.take_append_eq_append_take]

theorem mute_port_cb (bs : Int) (p : eca_jack_port_data_t) :
    (mute_port bs p).cb_buffer = p.cb_buffer := by
  unfold mute_port
  cases hc : p.cb_buffer <;> simp [hc]

/-- After `eca_jack_process_mute` every output port with a callback buffer is
silent; one mute and nothing else is logged. -/
theorem mute_spec {σ : Type} (m : AUDIO_IO_JACK_MANAGER σ) :
    (∀ p ∈ (eca_jack_process_mute m).outports_rep, p.cb_buffer ≠ none →
        port_is_silent m.buffersize_rep p) ∧
      (eca_jack_process_mute m).calls = m.calls ++ [Jack_call.mute] ∧
      (eca_jack_process_mute m).engine_repp = m.engine_repp ∧
      (eca_jack_process_mute m).engine_mod_lock_rep = m.engine_mod_lock_rep ∧
      (eca_jack_process_mute m).buffersize_rep = m.buffersize_rep := by
  refine ⟨?_, rfl, rfl, rfl, rfl⟩
  intro p hp hcb
  simp only [eca_jack_process_mute, List.mem_map] at hp
  obtain ⟨q, _, rfl⟩ := hp
  rw [mute_port_cb] at hcb
  exact (mute_port_silent _ q hcb).1

theorem iterations_mute (c : List Jack_call) :
    iterations (c ++ [Jack_call.mute]) = iterations c := by
  simp [iterations]

theorem iterations_two (c : List Jack_call) :
    iterations (c ++ [Jack_call.engine_iteration] ++ [Jack_call.update_engine_state]) =
      iterations c + 1 := by
  simp [iterations]

theorem iterations_mute_update (c : List Jack_call) :
    iterations (c ++ [Jack_call.mute] ++ [Jack_call.update_engine_state]) = iterations c := by
  simp [iterations]

theorem mutes_two (c : List Jack_call) :
    mutes (c ++ [Jack_call.engine_iteration] ++ [Jack_call.update_engine_state]) = mutes c := by
  simp [mutes]

theorem mutes_mute_update (c : List Jack_call) :
    mutes (c ++ [Jack_call.mute] ++ [Jack_call.update_engine_state]) = mutes c + 1 := by
  simp [mutes]

/-- The fields of the manager a callback helper leaves alone. -/
structure SameManager {σ : Type} (m m' : AUDIO_IO_JACK_MANAGER σ) : Prop where
  mode_rep : m'.mode_rep = m.mode_rep
  buffersize_rep : m'.buffersize_rep = m.buffersize_rep
  open_rep : m'.open_rep = m.open_rep
  engine_mod_lock_rep : m'.engine_mod_lock_rep = m.engine_mod_lock_rep
  jackslave_seekahead_rep : m'.jackslave_seekahead_rep = m.jackslave_seekahead_rep
  jackslave_seekahead_target_rep :
    m'.jackslave_seekahead_target_rep = m.jackslave_seekahead_target_rep
  transport_info_rep : m'.transport_info_rep = m.transport_info_rep
  server_transport : m'.server_transport = m.server_transport

theorem mute_same {σ : Type} (m : AUDIO_IO_JACK_MANAGER σ) :
    SameManager m (eca_jack_process_mute m) :=
  ⟨rfl, rfl, rfl, rfl, rfl, rfl, rfl, rfl⟩

/-- The iteration helper on a manager with an engine: it returns; an engine that
is not finished runs one iteration and is not muted, a finished one is muted. -/
theorem engine_iteration_spec {σ : Type} (E : ECA_ENGINE σ) (m : AUDIO_IO_JACK_MANAGER σ)
    (s : σ) (hs : m.engine_repp = some s) :
    ∃ m', eca_jack_process_engine_iteration E m = some m' ∧ SameManager m m' ∧
      (E.status_finished s = false →
        m'.calls = m.calls ++ [Jack_call.engine_iteration] ++ [Jack_call.update_engine_state]) ∧
      (E.status_finished s = true →
        m'.calls = m.calls ++ [Jack_call.mute] ++ [Jack_call.update_engine_state] ∧
        ∀ p ∈ m'.outports_rep, p.cb_buffer ≠ none → port_is_silent m.buffersize_rep p) := by
  cases hf : E.status_finished s with
  | false =>
    simp only [eca_jack_process_engine_iteration, hs, hf, Bool.false_bne, if_true]
    refine ⟨_, rfl, ⟨rfl, rfl, rfl, rfl, rfl, rfl, rfl, rfl⟩, fun _ => rfl, fun h => ?_⟩
    cases h
  | true =>
    simp only [eca_jack_process_engine_iteration, hs, hf, bne_self_eq_false, Bool.false_eq_true,
      if_false, eca_jack_process_mute]
    refine ⟨_, rfl, ⟨rfl, rfl, rfl, rfl, rfl, rfl, rfl, rfl⟩, fun h => ?_,
      fun _ => ⟨rfl, (mute_spec m).1⟩⟩
    cases h

/-- C19: a Streaming-mode process callback always returns.  If the lock is not
acquired or the engine is not running, it runs no engine iteration and leaves every
output port that has a callback buffer zero-filled; the number of iterations grows
only if the lock was acquired, the engine is running and its status is not
Finished (and then by exactly one); the lock is in the same state after the
callback as before it. -/
theorem streaming_process_spec {σ : Type} (E : ECA_ENGINE σ) (nframes : Nat)
    (m : AUDIO_IO_JACK_MANAGER σ) (hmode : m.mode_rep = Operation_mode.Streaming) :
    ∃ m', eca_jack_process E nframes m = some m' ∧
      ((m.engine_mod_lock_rep ≠ Lock_state.unlocked ∨ m.is_running E = false) →
        iterations m'.calls = iterations m.calls ∧
        ∀ p ∈ m'.outports_rep, p.cb_buffer ≠ none → port_is_silent m.buffersize_rep p) ∧
      (iterations m'.calls ≠ iterations m.calls →
        m.engine_mod_lock_rep = Lock_state.unlocked ∧ m.is_running E = true ∧
        ∃ s, m.engine_repp = some s ∧ E.status_finished s = false) ∧
      ((m.engine_mod_lock_rep = Lock_state.unlocked ∧ m.is_running E = true ∧
          ∃ s, m.engine_repp = some s ∧ E.status_finished s = false) →
        iterations m'.calls = iterations m.calls + 1) ∧
      m'.engine_mod_lock_rep = m.engine_mod_lock_rep := by
  by_cases hl : m.engine_mod_lock_rep = Lock_state.unlocked
  · have hbody : eca_jack_process_locked E nframes
          { m with engine_mod_lock_rep := Lock_state.locked_by_callback } =
        if m.is_running E = true then eca_jack_process_engine_iteration E
          { m with engine_mod_lock_rep := Lock_state.locked_by_callback }
        else some (eca_jack_process_mute
          { m with engine_mod_lock_rep := Lock_state.locked_by_callback }) := by
      unfold eca_jack_process_locked
      simp only [hmode]
      rfl
    cases hr : m.is_running E with
    | false =>
      rw [hr] at hbody
      refine ⟨{ eca_jack_process_mute { m with
          engine_mod_lock_rep := Lock_state.locked_by_callback } with
          engine_mod_lock_rep := Lock_state.unlocked }, ?_, ?_, ?_, ?_, hl.symm⟩
      · unfold eca_jack_process
        rw [if_pos hl, hbody]
        rfl
      · intro _
        exact ⟨iterations_mute _, (mute_spec { m with
          engine_mod_lock_rep := Lock_state.locked_by_callback }).1⟩
      · intro h
        exact absurd (iterations_mute _) h
      · rintro ⟨_, h, _⟩
        cases h
    | true =>
      rw [hr] at hbody
      obtain ⟨s, hs⟩ : ∃ s, m.engine_repp = some s := by
        unfold AUDIO_IO_JACK_MANAGER.is_running at hr
        cases he : m.engine_repp with
        | none => rw [he] at hr; cases hr
        | some s => exact ⟨s, rfl⟩
      obtain ⟨m2, h2, hsame, hnf, hfin⟩ := engine_iteration_spec E
        { m with engine_mod_lock_rep := Lock_state.locked_by_callback } s hs
      refine ⟨{ m2 with engine_mod_lock_rep := Lock_state.unlocked }, ?_, ?_, ?_, ?_, hl.symm⟩
      · unfold eca_jack_process
        rw [if_pos hl, hbody, if_pos rfl, h2]
      · rintro (h | h)
        · exact absurd hl h
        · cases h
      · intro h
        refine ⟨hl, rfl, s, hs, ?_⟩
        cases hf : E.status_finished s with
        | false => rfl
        | true =>
          exfalso
          apply h
          show iterations m2.calls = iterations m.calls
          rw [(hfin hf).1]
          exact iterations_mute_update _
      · rintro ⟨_, _, s', hs', hf⟩
        rw [hs] at hs'
        cases hs'
        show iterations m2.calls = iterations m.calls + 1
        rw [hnf hf]
        exact iterations_two _
  · refine ⟨eca_jack_process_mute m, ?_, ?_, ?_, ?_, rfl⟩
    · unfold eca_jack_process
      rw [if_neg hl]
    · intro _
      exact ⟨iterations_mute _, (mute_spec m).1⟩
    · intro h
      exact absurd (iterations_mute _) h
    · rintro ⟨h, _⟩
      exact absurd h hl

/-- Witness for `streaming_process_spec`: a running test engine with block size 4. -/
theorem streaming_process_spec_witness :
    ∃ m', eca_jack_process (test_engine 4) 4
        (test_manager 4 Operation_mode.Streaming { engine_at 0 with running := true }
          (transport_at jack_transport_state_t.JackTransportRolling 0)) = some m' ∧
      iterations m'.calls = 1 ∧ m'.engine_mod_lock_rep = Lock_state.unlocked := by
  obtain ⟨m', h, _, _, h3, h4⟩ := streaming_process_spec (test_engine 4) 4
    (test_manager 4 Operation_mode.Streaming { engine_at 0 with running := true }
      (transport_at jack_transport_state_t.JackTransportRolling 0)) rfl
  exact ⟨m', h, h3 ⟨rfl, rfl, _, rfl, rfl⟩, h4⟩

/-! ## JACK manager: timebase master -/

/-- C20, counterexample: in the first callback after a start (recorded transport
state Stopped, engine running at position 100, nframes 4) the frame stays 100 and
no engine iteration is run, although Rolling is published. -/
theorem master_first_callback_no_advance :
    (eca_jack_process_timebase_master (test_engine 4) 4 master_after_start).map
        (fun m => (m.transport_info_rep.frame, iterations m.calls,
          m.server_transport.transport_state)) =
      some (100, 0, jack_transport_state_t.JackTransportRolling) := by
  decide

/-- C20 (amended): a timebase-master callback made while the engine is running
returns and publishes state Rolling with the recorded frame and both valid bits.
If the recorded transport state is not Stopped, the frame is set to the engine
position plus nframes (as a 32-bit frame count) and one engine iteration is run
when the engine status is not Finished.  If the recorded state is Stopped, the
frame is left unchanged and no iteration is run. -/
theorem master_running_spec {σ : Type} (E : ECA_ENGINE σ) (nframes : Nat)
    (m : AUDIO_IO_JACK_MANAGER σ) (s : σ) (hs : m.engine_repp = some s)
    (hr : E.is_running s = true) :
    ∃ m', eca_jack_process_timebase_master E nframes m = some m' ∧
      m'.transport_info_rep.transport_state = jack_transport_state_t.JackTransportRolling ∧
      m'.transport_info_rep.valid = JackTransportState ||| JackTransportPosition ∧
      m'.server_transport = m'.transport_info_rep ∧
      (m.transport_info_rep.transport_state ≠ jack_transport_state_t.JackTransportStopped →
        m'.transport_info_rep.frame = to_nframes (E.current_position_in_samples s + nframes) ∧
        (E.status_finished s = false →
          iterations m'.calls = iterations m.calls + 1 ∧ mutes m'.calls = mutes m.calls)) ∧
      (m.transport_info_rep.transport_state = jack_transport_state_t.JackTransportStopped →
        m'.transport_info_rep.frame = m.transport_info_rep.frame ∧
        iterations m'.calls = iterations m.calls) := by
  have hrun : m.is_running E = true := by
    unfold AUDIO_IO_JACK_MANAGER.is_running
    rw [hs]
    exact hr
  by_cases hst : m.transport_info_rep.transport_state = jack_transport_state_t.JackTransportStopped
  · refine ⟨jack_set_transport_info
      (assign_state m jack_transport_state_t.JackTransportRolling),
      ?_, rfl, rfl, rfl, fun h => absurd hst h, fun _ => ⟨rfl, ?_⟩⟩
    · unfold eca_jack_process_timebase_master
      simp only [hs, hrun, if_true, hst]
    · show iterations (m.calls ++ _) = _
      rw [iterations_append]
      rfl
  · obtain ⟨m2, h2, hsame, hnf, _⟩ := engine_iteration_spec E
      (assign_frame m (E.current_position_in_samples s + nframes)) s hs
    refine ⟨jack_set_transport_info
      (assign_state m2 jack_transport_state_t.JackTransportRolling),
      ?_, rfl, rfl, rfl, fun _ => ⟨?_, fun hf => ⟨?_, ?_⟩⟩, fun h => absurd h hst⟩
    · unfold eca_jack_process_timebase_master
      simp only [hs, hrun, if_true, hst, if_false, h2]
    · show m2.transport_info_rep.frame = _
      rw [hsame.transport_info_rep]
      rfl
    · show iterations (m2.calls ++ _) = _
      rw [iterations_append, hnf hf]
      exact iterations_two _
    · show mutes (m2.calls ++ _) = _
      rw [mutes_append, hnf hf]
      exact mutes_two _

/-- Witness for `master_running_spec`: a running test engine at position 100,
recorded state Rolling, nframes 4. -/
theorem master_running_spec_witness :
    ∃ m', eca_jack_process_timebase_master (test_engine 4) 4 master_rolling = some m' ∧
      m'.transport_info_rep.frame = 104 ∧ iterations m'.calls = 1 := by
  obtain ⟨m', h, _, _, _, h4, _⟩ := master_running_spec (test_engine 4) 4 master_rolling
    { engine_at 100 with running := true } rfl rfl
  exact ⟨m', h, (h4 (by decide)).1, ((h4 (by decide)).2 rfl).1⟩

/-! ## JACK manager: timebase slave, transport stopped -/

theorem stop_and_prepare_same {σ : Type} (E : ECA_ENGINE σ) (m : AUDIO_IO_JACK_MANAGER σ) :
    SameManager m (stop_and_prepare E m) ∧
      submitted_seeks (stop_and_prepare E m).calls = submitted_seeks m.calls ∧
      iterations (stop_and_prepare E m).calls = iterations m.calls := by
  unfold stop_and_prepare
  split
  · refine ⟨⟨rfl, rfl, rfl, rfl, rfl, rfl, rfl, rfl⟩, ?_, ?_⟩
    · show submitted_seeks (m.calls ++ _ ++ _) = _
      rw [submitted_seeks_append, submitted_seeks_append]
      simp [submitted_seeks]
    · show iterations (m.calls ++ _ ++ _) = _
      rw [iterations_append, iterations_append]
      rfl
  · exact ⟨⟨rfl, rfl, rfl, rfl, rfl, rfl, rfl, rfl⟩, rfl, rfl⟩

theorem buffersize_same {σ : Type} {m m' : AUDIO_IO_JACK_MANAGER σ} (h : SameManager m m') :
    m'.buffersize = m.buffersize := by
  unfold AUDIO_IO_JACK_MANAGER.buffersize
  rw [h.open_rep, h.buffersize_rep]

/-- C17, counterexample: block size 1024, seek-ahead 5, transport stopped at frame
0 with a valid position, the engine stopped and prepared at position 0.  The
positions do not differ at all, yet a seek is submitted, and its target is
0 + 1 * 1024, not 0 + 5 * 1024. -/
theorem slave_stopped_seeks_at_equal_positions :
    (eca_jack_process_timebase_slave (test_engine 1024) slave_stopped_at_zero).map
        (fun m => (submitted_seeks m.calls, m.jackslave_seekahead_rep)) =
      some ([1024], 5) := by
  decide

/-- C17 (amended): in timebase-slave mode with the transport stopped, a valid
transport position and the engine not locked for editing, the callback returns,
and a seek command is submitted exactly when the engine position sampled at entry
differs from `server_frame + seekoffset * buffersize`, where `seekoffset` is 1 if
the engine is prepared (after the stop and prepare commands a running engine gets)
and the seek-ahead otherwise; the target of the seek is that value, which is also
stored as the seek-ahead target. -/
theorem slave_stopped_seek {σ : Type} (E : ECA_ENGINE σ) (m : AUDIO_IO_JACK_MANAGER σ)
    (s : σ) (hs : m.engine_repp = some s) (hlock : E.is_locked_for_editing s = false)
    (hstop : m.server_transport.transport_state = jack_transport_state_t.JackTransportStopped)
    (hvs : m.server_transport.valid &&& JackTransportState ≠ 0)
    (hvp : m.server_transport.valid &&& JackTransportPosition ≠ 0) :
    ∃ m', eca_jack_process_timebase_slave E m = some m' ∧
      submitted_seeks m'.calls = submitted_seeks m.calls ++
        (if E.current_position_in_samples s ≠ (m.server_transport.frame : Int) +
            seekoffset ((stop_and_prepare E m).is_prepared E) m.jackslave_seekahead_rep *
              m.buffersize
          then [(m.server_transport.frame : Int) +
            seekoffset ((stop_and_prepare E m).is_prepared E) m.jackslave_seekahead_rep *
              m.buffersize]
          else []) ∧
      (E.current_position_in_samples s ≠ (m.server_transport.frame : Int) +
          seekoffset ((stop_and_prepare E m).is_prepared E) m.jackslave_seekahead_rep *
            m.buffersize →
        m'.jackslave_seekahead_target_rep = (m.server_transport.frame : Int) +
          seekoffset ((stop_and_prepare E m).is_prepared E) m.jackslave_seekahead_rep *
            m.buffersize) ∧
      iterations m'.calls = iterations m.calls := by
  have hs0 : (jack_get_transport_info m).engine_repp = some s := hs
  have ht0 : (jack_get_transport_info m).transport_info_rep = m.server_transport := rfl
  have hc0 : submitted_seeks (jack_get_transport_info m).calls = submitted_seeks m.calls := by
    show submitted_seeks (m.calls ++ _) = _
    rw [submitted_seeks_append]
    simp [submitted_seeks]
  have hi0 : iterations (jack_get_transport_info m).calls = iterations m.calls := by
    show iterations (m.calls ++ _) = _
    rw [iterations_append]
    rfl
  have hp0 : (stop_and_prepare E (jack_get_transport_info m)).is_prepared E =
      (stop_and_prepare E m).is_prepared E := by
    unfold stop_and_prepare
    have : (jack_get_transport_info m).is_running E = m.is_running E := rfl
    rw [this]
    split <;> rfl
  have hb0 : (jack_get_transport_info m).buffersize = m.buffersize := rfl
  have ha0 : (jack_get_transport_info m).jackslave_seekahead_rep = m.jackslave_seekahead_rep :=
    rfl
  obtain ⟨hsame, hseek, hit⟩ := stop_and_prepare_same E (jack_get_transport_info m)
  refine ⟨eca_jack_process_mute (timebase_slave_stopped E (E.current_position_in_samples s)
    (jack_get_transport_info m)), ?_, ?_⟩
  · unfold eca_jack_process_timebase_slave
    simp only [hs0, hlock, Bool.false_eq_true, if_false, ht0, hstop, hvs, ne_eq,
      not_false_eq_true, and_self, if_true]
  · show submitted_seeks ((timebase_slave_stopped E _ _).calls ++ _) = _ ∧
      (_ → (timebase_slave_stopped E _ _).jackslave_seekahead_target_rep = _) ∧
      iterations ((timebase_slave_stopped E _ _).calls ++ _) = _
    rw [submitted_seeks_append, iterations_append]
    unfold timebase_slave_stopped
    simp only [hsame.transport_info_rep, ht0, hvp, ne_eq, not_false_eq_true, if_true, hp0,
      hsame.jackslave_seekahead_rep, ha0, buffersize_same hsame, hb0]
    split
    · rename_i hne
      refine ⟨?_, fun _ => rfl, ?_⟩
      · show submitted_seeks ((stop_and_prepare E (jack_get_transport_info m)).calls ++ _) ++ _ = _
        rw [submitted_seeks_append, hseek, hc0]
        simp [submitted_seeks]
      · show iterations ((stop_and_prepare E (jack_get_transport_info m)).calls ++ _) + _ = _
        rw [iterations_append, hit, hi0]
        rfl
    · rename_i heq
      refine ⟨?_, fun h => absurd h heq, ?_⟩
      · rw [hseek, hc0]
        simp [submitted_seeks]
      · rw [hit, hi0]
        rfl

/-- Witness for `slave_stopped_seek`: the stopped, prepared test engine at position
0 with the transport stopped at frame 0. -/
theorem slave_stopped_seek_witness :
    ∃ m', eca_jack_process_timebase_slave (test_engine 1024) slave_stopped_at_zero = some m' ∧
      submitted_seeks m'.calls = [1024] ∧ m'.jackslave_seekahead_target_rep = 1024 := by
  obtain ⟨m', h, h1, h2, _⟩ := slave_stopped_seek (test_engine 1024) slave_stopped_at_zero
    (engine_at 0) rfl rfl rfl (by decide) (by decide)
  exact ⟨m', h, h1, h2 (by decide)⟩

/-! ## JACK manager: timebase slave, transport rolling -/

theorem engine_command_same {σ : Type} (E : ECA_ENGINE σ) (m : AUDIO_IO_JACK_MANAGER σ)
    (c : Engine_command) (v : Int) :
    SameManager m (engine_command E m c v) ∧
      iterations (engine_command E m c v).calls = iterations m.calls ∧
      mutes (engine_command E m c v).calls = mutes m.calls := by
  refine ⟨⟨rfl, rfl, rfl, rfl, rfl, rfl, rfl, rfl⟩, ?_, ?_⟩
  · show iterations (m.calls ++ _) = _
    rw [iterations_append]
    rfl
  · show mutes (m.calls ++ _) = _
    rw [mutes_append]
    rfl

/-- The seek-ahead handling runs no iteration and keeps the block size. -/
theorem timebase_slave_seek_spec {σ : Type} (E : ECA_ENGINE σ) (s : σ)
    (m : AUDIO_IO_JACK_MANAGER σ) :
    (timebase_slave_seek E s m).buffersize_rep = m.buffersize_rep ∧
      iterations (timebase_slave_seek E s m).calls = iterations m.calls := by
  unfold timebase_slave_seek
  split
  · exact ⟨rfl, (engine_command_same E m _ _).2.1⟩
  · split
    · split
      · refine ⟨rfl, ?_⟩
        rw [(engine_command_same E _ _ _).2.1]
        rfl
      · refine ⟨rfl, ?_⟩
        rw [(engine_command_same E _ _ _).2.1]
        rfl
    · exact ⟨rfl, rfl⟩

/-- The start attempt runs no iteration and no mute, keeps the transport record
and the block size and leaves an engine in place. -/
theorem timebase_slave_start_spec {σ : Type} (E : ECA_ENGINE σ) (s : σ) (enginepos : Int)
    (m : AUDIO_IO_JACK_MANAGER σ) (hs : m.engine_repp = some s) :
    (∃ s1, (timebase_slave_start E s enginepos m).1.engine_repp = some s1) ∧
      (timebase_slave_start E s enginepos m).1.transport_info_rep = m.transport_info_rep ∧
      (timebase_slave_start E s enginepos m).1.buffersize_rep = m.buffersize_rep ∧
      iterations (timebase_slave_start E s enginepos m).1.calls = iterations m.calls ∧
      mutes (timebase_slave_start E s enginepos m).1.calls = mutes m.calls ∧
      ((timebase_slave_start E s enginepos m).2 = enginepos ∨
        (timebase_slave_start E s enginepos m).2 = -1) := by
  unfold timebase_slave_start
  split
  · split
    · refine ⟨⟨_, rfl⟩, rfl, rfl, ?_, ?_, Or.inl rfl⟩
      · show iterations (m.calls ++ _) = _
        rw [iterations_append]
        rfl
      · show mutes (m.calls ++ _) = _
        rw [mutes_append]
        rfl
    · refine ⟨⟨E.command s Engine_command.ep_start 0, ?_⟩, rfl, rfl,
        (engine_command_same E m _ _).2.1, (engine_command_same E m _ _).2.2, Or.inr rfl⟩
      show Option.map _ m.engine_repp = _
      rw [hs]
      rfl
  · exact ⟨⟨s, hs⟩, rfl, rfl, rfl, rfl, Or.inl rfl⟩

/-- The rolling branch after the start attempt left the pair `r`: with matching
positions the iteration helper runs, otherwise the ports are muted. -/
theorem timebase_slave_rolling_spec {σ : Type} (E : ECA_ENGINE σ) (s : σ) (enginepos : Int)
    (m : AUDIO_IO_JACK_MANAGER σ) (r : AUDIO_IO_JACK_MANAGER σ × Int) (s1 : σ)
    (hr : (if m.is_running E != true then timebase_slave_start E s enginepos m
      else (m, enginepos)) = r)
    (hs1 : r.1.engine_repp = some s1) :
    ∃ m', timebase_slave_rolling E s enginepos m = some m' ∧
      ((r.2 = (r.1.transport_info_rep.frame : Int) ∨
          ¬ (r.1.transport_info_rep.valid &&& JackTransportPosition ≠ 0)) →
        E.status_finished s1 = false →
        iterations m'.calls = iterations r.1.calls + 1 ∧ mutes m'.calls = mutes r.1.calls) ∧
      (¬ (r.2 = (r.1.transport_info_rep.frame : Int) ∨
          ¬ (r.1.transport_info_rep.valid &&& JackTransportPosition ≠ 0)) →
        iterations m'.calls = iterations r.1.calls ∧
        ∀ p ∈ m'.outports_rep, p.cb_buffer ≠ none → port_is_silent r.1.buffersize_rep p) := by
  have heq : timebase_slave_rolling E s enginepos m =
      if r.2 = (r.1.transport_info_rep.frame : Int) ∨
          ¬ (r.1.transport_info_rep.valid &&& JackTransportPosition ≠ 0) then
        match eca_jack_process_engine_iteration E r.1 with
        | none => none
        | some m2 => some (assign_seekahead_target m2 (-1))
      else
        match r.1.engine_repp with
        | none => none
        | some s1 => some (eca_jack_process_mute (timebase_slave_seek E s1 r.1)) := by
    subst hr
    rfl
  rw [heq]
  by_cases hc : r.2 = (r.1.transport_info_rep.frame : Int) ∨
      ¬ (r.1.transport_info_rep.valid &&& JackTransportPosition ≠ 0)
  · rw [if_pos hc]
    obtain ⟨m2, h2, _, hnf, _⟩ := engine_iteration_spec E r.1 s1 hs1
    rw [h2]
    refine ⟨assign_seekahead_target m2 (-1), rfl, fun _ hf => ?_, fun h => absurd hc h⟩
    show iterations m2.calls = _ ∧ mutes m2.calls = _
    rw [hnf hf]
    exact ⟨iterations_two _, mutes_two _⟩
  · rw [if_neg hc, hs1]
    refine ⟨eca_jack_process_mute (timebase_slave_seek E s1 r.1), rfl, fun h => absurd h hc,
      fun _ => ⟨?_, ?_⟩⟩
    · show iterations ((timebase_slave_seek E s1 r.1).calls ++ _) = _
      rw [iterations_append, (timebase_slave_seek_spec E s1 r.1).2]
      rfl
    · have := (mute_spec (timebase_slave_seek E s1 r.1)).1
      rw [(timebase_slave_seek_spec E s1 r.1).1] at this
      exact this

/-- The pair the rolling branch continues with: the manager after the start
attempt of an engine that is not running, and the local `enginepos`. -/
theorem start_or_keep_spec {σ : Type} (E : ECA_ENGINE σ) (s : σ) (enginepos : Int)
    (m : AUDIO_IO_JACK_MANAGER σ) (hs : m.engine_repp = some s) :
    ∃ r s1, (if m.is_running E != true then timebase_slave_start E s enginepos m
        else (m, enginepos)) = r ∧
      r.1.engine_repp = some s1 ∧ r.1.transport_info_rep = m.transport_info_rep ∧
      r.1.buffersize_rep = m.buffersize_rep ∧ iterations r.1.calls = iterations m.calls ∧
      mutes r.1.calls = mutes m.calls ∧ (r.2 = enginepos ∨ r.2 = -1) := by
  by_cases hrun : (m.is_running E != true) = true
  · obtain ⟨⟨s1, hs1⟩, h⟩ := timebase_slave_start_spec E s enginepos m hs
    exact ⟨timebase_slave_start E s enginepos m, s1, if_pos hrun, hs1, h⟩
  · exact ⟨(m, enginepos), s, if_neg hrun, hs, rfl, rfl, rfl, rfl, Or.inl rfl⟩

theorem is_running_eq {σ : Type} (E : ECA_ENGINE σ) (m : AUDIO_IO_JACK_MANAGER σ) (s : σ)
    (hs : m.engine_repp = some s) : m.is_running E = E.is_running s := by
  unfold AUDIO_IO_JACK_MANAGER.is_running
  rw [hs]

/-- C18, counterexample: block size 4, transport rolling at frame 100 with a valid
position, the engine at position 100, not locked for editing, not running and not
prepared.  The positions are equal at entry, yet no engine iteration is run and
the output port is muted: the engine is started through the command queue. -/
theorem slave_rolling_equal_positions_muted :
    (eca_jack_process_timebase_slave (test_engine 4) slave_rolling_unprepared).map
        (fun m => (iterations m.calls, mutes m.calls, m.outports_rep.map (fun p => p.jack_buffer))) =
      some (0, 1, [[0, 0, 0, 0]]) := by
  decide

/-- C18 (amended): in timebase-slave mode with the transport not stopped, a valid
transport position and the engine not locked for editing, the callback returns.
If the engine position sampled at entry equals the server frame, exactly one
engine iteration is run and the ports are not muted when the engine is running
and not Finished, or is not running, is due to be started (not Finished, and the
frame not beyond a finite length), is prepared and is not Finished after the
direct start; when such an engine is not prepared (it is started through the
command queue) no iteration is run and the ports are muted.  If the position
differs, no engine iteration is run and every output port that has a callback
buffer is zero-filled. -/
theorem slave_rolling_spec {σ : Type} (E : ECA_ENGINE σ) (m : AUDIO_IO_JACK_MANAGER σ)
    (s : σ) (hs : m.engine_repp = some s) (hlock : E.is_locked_for_editing s = false)
    (hroll : m.server_transport.transport_state ≠ jack_transport_state_t.JackTransportStopped)
    (hvp : m.server_transport.valid &&& JackTransportPosition ≠ 0) :
    ∃ m', eca_jack_process_timebase_slave E m = some m' ∧
      (E.current_position_in_samples s = (m.server_transport.frame : Int) →
        (E.is_running s = true → E.status_finished s = false →
          iterations m'.calls = iterations m.calls + 1 ∧ mutes m'.calls = mutes m.calls) ∧
        (E.is_running s = false → E.status_finished s = false →
          ((m.server_transport.frame : Int) ≤ E.length_in_samples s ∨
            E.is_finite_length s = false) →
          (E.is_prepared s = true → E.status_finished (E.start_operation s) = false →
            iterations m'.calls = iterations m.calls + 1 ∧ mutes m'.calls = mutes m.calls) ∧
          (E.is_prepared s = false →
            iterations m'.calls = iterations m.calls ∧
            ∀ p ∈ m'.outports_rep, p.cb_buffer ≠ none →
              port_is_silent m.buffersize_rep p))) ∧
      (E.current_position_in_samples s ≠ (m.server_transport.frame : Int) →
        iterations m'.calls = iterations m.calls ∧
        ∀ p ∈ m'.outports_rep, p.cb_buffer ≠ none → port_is_silent m.buffersize_rep p) := by
  have hs0 : (jack_get_transport_info m).engine_repp = some s := hs
  have ht0 : (jack_get_transport_info m).transport_info_rep = m.server_transport := rfl
  have hb0 : (jack_get_transport_info m).buffersize_rep = m.buffersize_rep := rfl
  have hi0 : iterations (jack_get_transport_info m).calls = iterations m.calls := by
    show iterations (m.calls ++ _) = _
    rw [iterations_append]
    rfl
  have hm0 : mutes (jack_get_transport_info m).calls = mutes m.calls := by
    show mutes (m.calls ++ _) = _
    rw [mutes_append]
    rfl
  have hrun0 := is_running_eq E (jack_get_transport_info m) s hs0
  have heq : eca_jack_process_timebase_slave E m =
      timebase_slave_rolling E s (E.current_position_in_samples s)
        (jack_get_transport_info m) := by
    unfold eca_jack_process_timebase_slave
    simp only [hs0, hlock, Bool.false_eq_true, if_false, ht0, hroll, false_and]
  rw [heq]
  generalize jack_get_transport_info m = m0 at hs0 ht0 hb0 hi0 hm0 hrun0
  obtain ⟨r, s1, hr, hs1, htr, hbs, hit, hmu, hr2⟩ :=
    start_or_keep_spec E s (E.current_position_in_samples s) m0 hs0
  obtain ⟨m', hm', hA, hB⟩ :=
    timebase_slave_rolling_spec E s (E.current_position_in_samples s) m0 r s1 hr hs1
  have hnonneg : (-1 : Int) ≠ (m.server_transport.frame : Int) := by omega
  refine ⟨m', hm', fun hpos => ⟨fun hrun hfin => ?_, fun hrun hfin hlen =>
    ⟨fun hprep hfin2 => ?_, fun hprep => ?_⟩⟩, fun hpos => ?_⟩
  · have hr' : (if m0.is_running E != true then
        timebase_slave_start E s (E.current_position_in_samples s) m0
        else (m0, E.current_position_in_samples s)) = (m0, E.current_position_in_samples s) := by
      rw [hrun0, hrun]
      rfl
    obtain ⟨m'', hm'', hA', _⟩ := timebase_slave_rolling_spec E s
      (E.current_position_in_samples s) m0 _ s hr' hs0
    have hmm : m'' = m' := Option.some.inj (hm''.symm.trans hm')
    subst hmm
    have := hA' (Or.inl (by rw [ht0]; exact hpos)) hfin
    rw [hi0, hm0] at this
    exact this
  · have hst : timebase_slave_start E s (E.current_position_in_samples s) m0 =
        (engine_start_operation E s m0, E.current_position_in_samples s) := by
      unfold timebase_slave_start
      have hc1 : (E.status_finished s != true) = true ∧
          ((m0.transport_info_rep.frame : Int) ≤ E.length_in_samples s ∨
            (E.is_finite_length s != true) = true ∨
            ¬ (m0.transport_info_rep.valid &&& JackTransportPosition ≠ 0)) := by
        rw [ht0, hfin]
        refine ⟨rfl, ?_⟩
        rcases hlen with h | h
        · exact Or.inl h
        · exact Or.inr (Or.inl (by rw [h]; rfl))
      have hc2 : E.is_prepared s = true ∧
          (E.current_position_in_samples s = (m0.transport_info_rep.frame : Int) ∨
            ¬ (m0.transport_info_rep.valid &&& JackTransportPosition ≠ 0)) := by
        rw [ht0]
        exact ⟨hprep, Or.inl hpos⟩
      rw [if_pos hc1, if_pos hc2]
    have hr' : (if m0.is_running E != true then
        timebase_slave_start E s (E.current_position_in_samples s) m0
        else (m0, E.current_position_in_samples s)) =
        (engine_start_operation E s m0, E.current_position_in_samples s) := by
      rw [hrun0, hrun, ← hst]
      rfl
    obtain ⟨m'', hm'', hA', _⟩ := timebase_slave_rolling_spec E s
      (E.current_position_in_samples s) m0 _ (E.start_operation s) hr' rfl
    have hmm : m'' = m' := Option.some.inj (hm''.symm.trans hm')
    subst hmm
    have h1 := hA' (Or.inl (by
      show E.current_position_in_samples s = (m0.transport_info_rep.frame : Int)
      rw [ht0]; exact hpos)) hfin2
    have h2 : iterations (engine_start_operation E s m0).calls = iterations m.calls := by
      show iterations (m0.calls ++ _) = _
      rw [iterations_append, hi0]
      rfl
    have h3 : mutes (engine_start_operation E s m0).calls = mutes m.calls := by
      show mutes (m0.calls ++ _) = _
      rw [mutes_append, hm0]
      rfl
    rw [h2, h3] at h1
    exact h1
  · have hst : timebase_slave_start E s (E.current_position_in_samples s) m0 =
        (engine_command E m0 Engine_command.ep_start 0, -1) := by
      unfold timebase_slave_start
      have hc1 : (E.status_finished s != true) = true ∧
          ((m0.transport_info_rep.frame : Int) ≤ E.length_in_samples s ∨
            (E.is_finite_length s != true) = true ∨
            ¬ (m0.transport_info_rep.valid &&& JackTransportPosition ≠ 0)) := by
        rw [ht0, hfin]
        refine ⟨rfl, ?_⟩
        rcases hlen with h | h
        · exact Or.inl h
        · exact Or.inr (Or.inl (by rw [h]; rfl))
      have hc2 : ¬ (E.is_prepared s = true ∧
          (E.current_position_in_samples s = (m0.transport_info_rep.frame : Int) ∨
            ¬ (m0.transport_info_rep.valid &&& JackTransportPosition ≠ 0))) := by
        rw [hprep]
        rintro ⟨h, _⟩
        cases h
      rw [if_pos hc1, if_neg hc2]
    have hr' : (if m0.is_running E != true then
        timebase_slave_start E s (E.current_position_in_samples s) m0
        else (m0, E.current_position_in_samples s)) =
        (engine_command E m0 Engine_command.ep_start 0, -1) := by
      rw [hrun0, hrun, ← hst]
      rfl
    obtain ⟨m'', hm'', _, hB'⟩ := timebase_slave_rolling_spec E s
      (E.current_position_in_samples s) m0 _ (E.command s Engine_command.ep_start 0) hr' (by
        show Option.map _ m0.engine_repp = _
        rw [hs0]
        rfl)
    have hmm : m'' = m' := Option.some.inj (hm''.symm.trans hm')
    subst hmm
    have h1 := hB' (by
      show ¬ ((-1 : Int) = (m0.transport_info_rep.frame : Int) ∨
        ¬ (m0.transport_info_rep.valid &&& JackTransportPosition ≠ 0))
      rw [ht0]
      rintro (h | h)
      · exact hnonneg h
      · exact h hvp)
    have h2 : iterations (engine_command E m0 Engine_command.ep_start 0).calls =
        iterations m.calls := by
      rw [(engine_command_same E m0 _ _).2.1, hi0]
    rw [h2] at h1
    have h3 : (engine_command E m0 Engine_command.ep_start 0).buffersize_rep =
        m.buffersize_rep := hb0
    rw [h3] at h1
    exact h1
  · have h1 := hB (by
      rw [htr, ht0]
      rintro (h | h)
      · rcases hr2 with h2 | h2
        · exact hpos (h2.symm.trans h)
        · exact hnonneg (h2.symm.trans h)
      · exact h hvp)
    rw [hit, hi0, hbs, hb0] at h1
    exact h1

/-- Witness for `slave_rolling_spec`: a running test engine at position 100 with
the transport rolling at frame 100. -/
theorem slave_rolling_spec_witness :
    ∃ m', eca_jack_process_timebase_slave (test_engine 4) slave_rolling_matched = some m' ∧
      iterations m'.calls = 1 ∧ mutes m'.calls = 0 := by
  obtain ⟨m', h, h1, _⟩ := slave_rolling_spec (test_engine 4) slave_rolling_matched
    { engine_at 100 with running := true } rfl rfl (by decide) (by decide)
  exact ⟨m', h, (h1 rfl).1 rfl rfl⟩

/-! ## JACK manager: growth of the seek-ahead -/

/-- C16: with block size 1024 the seek-ahead starts at 4096 / 1024 + 1 = 5 and the
cap is 65536 / 1024 = 64.  A first callback at a frame away from the engine
position submits a seek; each of the next four callbacks finds the target missed
and doubles the seek-ahead: 10, 20, 40 and then 80, which exceeds the cap. -/
theorem seekahead_exceeds_cap :
    seekahead_initial 1024 = 5 ∧ Int.tdiv 65536 1024 = 64 ∧
      (process_at_frames (test_engine 1024) 1024 [1000000, 2000000, 3000000, 4000000]
          slave_seeking).map (fun m => m.jackslave_seekahead_rep) = some 40 ∧
      (process_at_frames (test_engine 1024) 1024
          [1000000, 2000000, 3000000, 4000000, 5000000]
          slave_seeking).map (fun m => m.jackslave_seekahead_rep) = some 80 ∧
      seekahead_after_miss 40 1024 = 80 := by
  decide

/-! ## The batch loop: lengths of the work buffers and frames passed -/

theorem frames_passed_append (o : Nat) (xs ys : List Event) :
    frames_passed o (xs ++ ys) = frames_passed o xs + frames_passed o ys := by
  simp [frames_passed, writes_to_append]

theorem inputs_step_eq (rd : ReadEnv) (e : ECA_PROCESSOR) (p : Nat × AUDIO_IO) :
    inputs_to_chains_step rd e p =
      { e with
        mixslot := (inputs_to_chains_step rd e p).mixslot
        cslots := (inputs_to_chains_step rd e p).cslots
        input_not_finished := (inputs_to_chains_step rd e p).input_not_finished
        trace := (inputs_to_chains_step rd e p).trace } := by
  simp only [inputs_to_chains_step]
  split <;> rfl

theorem inputs_fold_eq (rd : ReadEnv) :
    ∀ (l : List (Nat × AUDIO_IO)) (e : ECA_PROCESSOR),
      l.foldl (inputs_to_chains_step rd) e =
        { e with
          mixslot := (l.foldl (inputs_to_chains_step rd) e).mixslot
          cslots := (l.foldl (inputs_to_chains_step rd) e).cslots
          input_not_finished := (l.foldl (inputs_to_chains_step rd) e).input_not_finished
          trace := (l.foldl (inputs_to_chains_step rd) e).trace }
  | [], _ => rfl
  | p :: rest, e => by
    have ih := inputs_fold_eq rd rest (inputs_to_chains_step rd e p)
    have hs := inputs_step_eq rd e p
    simp only [List.foldl_cons]
    generalize inputs_to_chains_step rd e p = e1 at ih hs ⊢
    generalize rest.foldl (inputs_to_chains_step rd) e1 = e2 at ih ⊢
    rw [ih, hs]

theorem stop_rt_running (e : ECA_PROCESSOR) : (stop e).rt_running = false := by
  unfold stop
  split
  · rename_i h
    exact h.2
  · rfl

/-- C21, counterexample: a notification that carries the manager's own rate (48000)
leaves `shutdown_request` false. -/
theorem srate_same_rate_no_shutdown :
    (test_manager 4 Operation_mode.Streaming (engine_at 0)
        (transport_at jack_transport_state_t.JackTransportStopped 0)).srate_rep = 48000 ∧
      (eca_jack_srate 48000 (test_manager 4 Operation_mode.Streaming (engine_at 0)
        (transport_at jack_transport_state_t.JackTransportStopped 0))).shutdown_request_rep
        = false := by
  decide

/-- C21 (amended): after `eca_jack_srate`, `shutdown_request` is true exactly when
it was true before or the notified rate differs from the manager's sample rate;
nothing else of the manager changes. -/
theorem srate_shutdown_iff {σ : Type} (nframes : Nat) (m : AUDIO_IO_JACK_MANAGER σ) :
    ((eca_jack_srate nframes m).shutdown_request_rep = true ↔
        (m.shutdown_request_rep = true ∨ (nframes : Int) ≠ m.srate_rep)) ∧
      eca_jack_srate nframes m =
        { m with shutdown_request_rep := (eca_jack_srate nframes m).shutdown_request_rep } := by
  unfold eca_jack_srate
  by_cases h : (nframes : Int) ≠ m.srate_rep
  · rw [if_pos h]
    exact ⟨⟨fun _ => Or.inr h, fun _ => rfl⟩, rfl⟩
  · rw [if_neg h]
    exact ⟨⟨fun hs => Or.inl hs, fun hs => hs.elim id (fun h' => absurd h' h)⟩, rfl⟩

/-! ## C23: unregistering an object -/

/-- C23, the code at the failing input: with the ids 1, 2 and 3 registered,
`unregister_object(2)` leaves the ids 1 and 3, one node fewer, and the id 2 occurs
0 times in `get_object_list()`; the second `DBC_ENSURE` condition, which asks for
exactly one occurrence, is false. -/
theorem unregister_object_id_gone :
    get_object_list three_objects = [1, 2, 3] ∧
      get_object_list (unregister_object 2 three_objects) = [1, 3] ∧
      (get_object_list (unregister_object 2 three_objects)).count 2 = 0 ∧
      unregister_object_ensures 2 three_objects (unregister_object 2 three_objects)
        = (true, false) := by
  decide

/-! ## C24: client latency -/

theorem client_latency_ports_spec :
    ∀ (ports : List eca_jack_port_data_t) (latency : Int), 0 ≤ latency →
      latency ≤ client_latency_ports ports latency ∧
      (∀ p ∈ ports, (p.total_latency : Int) ≤ client_latency_ports ports latency) ∧
      (client_latency_ports ports latency = latency ∨
        ∃ p ∈ ports, client_latency_ports ports latency = p.total_latency)
  | [], latency, _ => by
    refine ⟨Int.le_refl _, ?_, Or.inl rfl⟩
    intro p hp
    cases hp
  | q :: rest, latency, h0 => by
    have hne : latency ≠ -1 := by omega
    simp only [client_latency_ports, hne, if_false]
    by_cases hgt : (q.total_latency : Int) > latency
    · rw [if_pos hgt]
      obtain ⟨a1, a2, a3⟩ := client_latency_ports_spec rest q.total_latency (by omega)
      refine ⟨by omega, fun p hp => ?_, Or.inr ?_⟩
      · rcases List.mem_cons.mp hp with h | h
        · rw [h]; exact a1
        · exact a2 p h
      · rcases a3 with h | ⟨p, hp, h⟩
        · exact ⟨q, List.mem_cons_self _ _, h⟩
        · exact ⟨p, List.mem_cons_of_mem _ hp, h⟩
    · rw [if_neg hgt]
      obtain ⟨a1, a2, a3⟩ := client_latency_ports_spec rest latency h0
      refine ⟨a1, fun p hp => ?_, ?_⟩
      · rcases List.mem_cons.mp hp with h | h
        · rw [h]; omega
        · exact a2 p h
      · rcases a3 with h | ⟨p, hp, h⟩
        · exact Or.inl h
        · exact Or.inr ⟨p, List.mem_cons_of_mem _ hp, h⟩

/-- C24: for a registered client, `client_latency` returns; with a non-empty port
list the value is the maximum of the ports' `total_latency` values (it is one of
them and no port has a larger one), with no ports it is -1. -/
theorem client_latency_is_maximum {σ : Type} (client_id : Int)
    (m : AUDIO_IO_JACK_MANAGER σ) (node : eca_jack_node_t)
    (hnode : get_node client_id m = some node) :
    ∃ latency, client_latency client_id m = some latency ∧
      (node.ports ≠ [] →
        (∃ p ∈ node.ports, latency = p.total_latency) ∧
        ∀ p ∈ node.ports, (p.total_latency : Int) ≤ latency) ∧
      (node.ports = [] → latency = -1) := by
  refine ⟨client_latency_ports node.ports (-1), ?_, fun hne => ?_, fun he => ?_⟩
  · unfold client_latency
    rw [hnode]
  · cases hp : node.ports with
    | nil => exact absurd hp hne
    | cons q rest =>
      obtain ⟨a1, a2, a3⟩ := client_latency_ports_spec rest q.total_latency
        (Int.ofNat_nonneg _)
      have hstep : client_latency_ports (q :: rest) (-1)
          = client_latency_ports rest q.total_latency := by
        simp [client_latency_ports]
      rw [hstep]
      refine ⟨?_, fun p hp' => ?_⟩
      · rcases a3 with h | ⟨p, hp', h⟩
        · exact ⟨q, List.mem_cons_self _ _, h⟩
        · exact ⟨p, List.mem_cons_of_mem _ hp', h⟩
      · rcases List.mem_cons.mp hp' with h | h
        · rw [h]; exact a1
        · exact a2 p h
  · rw [he]
    rfl

/-- Witness for `client_latency_is_maximum`: with ports of latencies 256, 1024 and
512 the value returned is one of them and at least 1024. -/
theorem client_latency_is_maximum_witness :
    ∃ latency, client_latency 1 latency_manager = some latency ∧
      (latency = 256 ∨ latency = 1024 ∨ latency = 512) ∧ 1024 ≤ latency := by
  obtain ⟨latency, h, h1, _⟩ := client_latency_is_maximum 1 latency_manager
    { client_id := 1, ports :=
      [{ total_latency := 256, cb_buffer := none, jack_buffer := [] },
       { total_latency := 1024, cb_buffer := none, jack_buffer := [] },
       { total_latency := 512, cb_buffer := none, jack_buffer := [] }] } rfl
  obtain ⟨⟨p, hp, hl⟩, hmax⟩ := h1 (by simp)
  refine ⟨latency, h, ?_, ?_⟩
  · simp only [List.mem_cons, List.mem_singleton, List.not_mem_nil, or_false] at hp
    rcases hp with rfl | rfl | rfl
    · exact Or.inl hl
    · exact Or.inr (Or.inl hl)
    · exact Or.inr (Or.inr hl)
  · exact hmax { total_latency := 1024, cb_buffer := none, jack_buffer := [] } (by simp)

/-! ## C26: the timestamp behind `sync_fix` -/

theorem sync_advances_append (xs ys : List Event) :
    sync_advances (xs ++ ys) = sync_advances xs ++ sync_advances ys := by
  induction xs with
  | nil => rfl
  | cons x xs ih => cases x <;> simp [sync_advances, ih]

theorem inputs_chains_advances (rd : ReadEnv) (inp : AUDIO_IO) (i icc : Nat)
    (m : SAMPLE_BUFFER) :
    ∀ (l : List (Nat × CHAIN)) (st : ReadLoop),
      sync_advances (inputs_to_chains_chains rd inp i icc m l st).trace
        = sync_advances st.trace := by
  intro l
  induction l with
  | nil => intro st; rfl
  | cons p rest ih =>
    intro st
    obtain ⟨c, ch⟩ := p
    simp only [inputs_to_chains_chains]
    split
    · split
      · simp [sync_advances_append, sync_advances]
      · exact ih _
    · exact ih _

theorem inputs_fold_advances (rd : ReadEnv) :
    ∀ (l : List (Nat × AUDIO_IO)) (e : ECA_PROCESSOR),
      sync_advances (l.foldl (inputs_to_chains_step rd) e).trace = sync_advances e.trace
  | [], _ => rfl
  | p :: rest, e => by
    simp only [List.foldl_cons]
    rw [inputs_fold_advances rd rest]
    simp only [inputs_to_chains_step]
    split
    · rw [inputs_chains_advances]
      simp [sync_advances_append, sync_advances]
    · rw [inputs_chains_advances]

theorem multitrack_chains_advances (out : AUDIO_IO) (slot k bs : Nat) :
    ∀ (l : List (Nat × CHAIN)) (st : MixLoop),
      sync_advances (multitrack_sync_chains out slot k bs l st).trace
        = sync_advances st.trace := by
  intro l
  induction l with
  | nil => intro st; rfl
  | cons p rest ih =>
    intro st
    obtain ⟨n, c⟩ := p
    simp only [multitrack_sync_chains]
    split
    · exact ih st
    · split
      · split
        · simp [sync_advances_append, sync_advances]
        · split
          · exact ih _
          · split
            · rw [ih]
              simp [sync_advances_append, sync_advances]
            · exact ih _
      · exact ih st

theorem multitrack_fold_stamp :
    ∀ (l : List (Nat × AUDIO_IO)) (e : ECA_PROCESSOR),
      (l.foldl multitrack_sync_step e).multitrack_input_stamp_rep
          = e.multitrack_input_stamp_rep ∧
        sync_advances (l.foldl multitrack_sync_step e).trace = sync_advances e.trace
  | [], _ => ⟨rfl, rfl⟩
  | p :: rest, e => by
    obtain ⟨a1, a2⟩ := multitrack_fold_stamp rest (multitrack_sync_step e p)
    simp only [List.foldl_cons]
    rw [a1, a2]
    simp only [multitrack_sync_step]
    split
    · exact ⟨rfl, rfl⟩
    · exact ⟨rfl, multitrack_chains_advances _ _ _ _ _ _⟩

/-- A warm-up round leaves the timestamp it was given and advances no output. -/
theorem multitrack_sync_stamp (e : ECA_PROCESSOR) (rd : ReadEnv) (stamp : Int) :
    (multitrack_sync e rd stamp).multitrack_input_stamp_rep = stamp ∧
      sync_advances (multitrack_sync e rd stamp).trace = sync_advances e.trace := by
  unfold multitrack_sync
  simp only []
  obtain ⟨a1, a2⟩ := multitrack_fold_stamp
    (process_chains { inputs_to_chains e rd with multitrack_input_stamp_rep := stamp }
      ).csetup.outputs.enum
    (process_chains { inputs_to_chains e rd with multitrack_input_stamp_rep := stamp })
  rw [a1, a2]
  exact ⟨rfl, inputs_fold_advances rd _ e⟩

/-- C26, counterexample: in multitrack mode at 48 kHz, with the clock showing 0
after the first warm-up read, 1000000 after the second and 1000000 when `start()`
reads it, the non-realtime output (file 3) is advanced by 0 samples and the stamp
kept is 1000000; the stamp of the first read would give 48000 samples. -/
theorem start_sync_fix_not_from_first_stamp :
    monitor_engine.eparams.multitrack_mode_rep = true ∧
      (start monitor_engine late_env).map
          (fun e => (e.multitrack_input_stamp_rep, sync_advances e.trace)) =
        some (1000000, [(file_object 3 1, 0)]) ∧
      Int.tdiv ((late_env.now - late_env.stamp1) * 48000) 1000000 = 48000 := by
  decide

/-- C26 (amended): when a multitrack `start()` of an engine that is not Running
returns, the timestamp kept is the one taken right after the input read of the
second warm-up round, `sync_fix` is the time from that stamp to `now` in samples
(not negative), and the `seek_position_in_samples_advance` calls made are exactly
one on each non-realtime output, in their order, each with the amount
`sync_fix`. -/
theorem start_sync_fix_from_second_stamp (e e' : ECA_PROCESSOR) (env : StartEnv)
    (hmt : e.eparams.multitrack_mode_rep = true)
    (hst : e.eparams.status ≠ Status.ep_status_running)
    (hs : start e env = some e') :
    e'.multitrack_input_stamp_rep = env.stamp2 ∧
      0 ≤ Int.tdiv ((env.now - env.stamp2) * (e.csetup.sample_rate : Int)) 1000000 ∧
      sync_advances e'.trace = sync_advances e.trace ++ e.non_realtime_outputs.map
        (fun o => (o, Int.tdiv ((env.now - env.stamp2) * (e.csetup.sample_rate : Int))
          1000000)) := by
  simp only [start, hst, hmt, if_true, if_false] at hs
  obtain ⟨a1, a2⟩ := multitrack_sync_same
    { e with clock_running := e.realtime_inputs.foldl device_start e.clock_running }
    env.rd1 env.stamp1
  obtain ⟨b1, b2⟩ := multitrack_sync_same
    (multitrack_sync
      { e with clock_running := e.realtime_inputs.foldl device_start e.clock_running }
      env.rd1 env.stamp1) env.rd2 env.stamp2
  obtain ⟨_, c2⟩ := multitrack_sync_stamp
    { e with clock_running := e.realtime_inputs.foldl device_start e.clock_running }
    env.rd1 env.stamp1
  obtain ⟨d1, d2⟩ := multitrack_sync_stamp
    (multitrack_sync
      { e with clock_running := e.realtime_inputs.foldl device_start e.clock_running }
      env.rd1 env.stamp1) env.rd2 env.stamp2
  have hc := a1.trans b1
  have hadv := d2.trans c2
  simp only [] at hadv
  generalize multitrack_sync
    (multitrack_sync
      { e with clock_running := e.realtime_inputs.foldl device_start e.clock_running }
      env.rd1 env.stamp1) env.rd2 env.stamp2 = e3 at hs hc hadv d1
  split at hs
  · simp at hs
  · split at hs
    · simp at hs
    · rename_i hneg
      simp only [Option.some.injEq] at hs
      rw [← hs]
      have hrate : e3.csetup.sample_rate = e.csetup.sample_rate := hc.sample_rate
      have hnro : e3.non_realtime_outputs = e.non_realtime_outputs := hc.non_realtime_outputs
      simp only [d1, hrate] at hneg
      refine ⟨d1, by omega, ?_⟩
      simp only [sync_advances_append, hadv, d1, hrate, hnro]
      congr 1
      generalize e.non_realtime_outputs = l
      induction l with
      | nil => rfl
      | cons a rest ih => simp [sync_advances, ih]

theorem start_of_some (e : ECA_PROCESSOR) (env : StartEnv)
    (h : (start e env).isSome = true) : start e env = some (start_of e env) := by
  unfold start_of
  cases hs : start e env with
  | none => rw [hs] at h; cases h
  | some e1 => rfl

/-- Witness for `start_sync_fix_from_second_stamp`: the monitoring engine with the
clock one second ahead at the second stamp. -/
theorem start_sync_fix_from_second_stamp_witness :
    (start_of monitor_engine late_env).multitrack_input_stamp_rep = 1000000 ∧
      sync_advances (start_of monitor_engine late_env).trace
        = sync_advances monitor_engine.trace ++ monitor_engine.non_realtime_outputs.map
          (fun o => (o, Int.tdiv ((late_env.now - late_env.stamp2)
            * (monitor_engine.csetup.sample_rate : Int)) 1000000)) :=
  ⟨(start_sync_fix_from_second_stamp monitor_engine (start_of monitor_engine late_env)
      late_env (by decide) (by decide) (start_of_some _ _ (by decide))).1,
    (start_sync_fix_from_second_stamp monitor_engine (start_of monitor_engine late_env)
      late_env (by decide) (by decide) (start_of_some _ _ (by decide))).2.2⟩

/-! ## C27: how often an output is written in one `mix_to_outputs` -/

theorem enum_countP {α : Type} (f : α → Bool) (l : List α) :
    l.enum.countP (fun p => f p.2) = l.countP f := by
  rw [List.countP_eq_length_filter]
  exact enumFrom_filter_length f l 0

/-- The chain loop writes the output once when `k = 1` and a chain is connected,
once when the running count reaches `k`, and otherwise not at all. -/
theorem mix_chains_write_count (out : AUDIO_IO) (slot k bs : Nat) :
    ∀ (l : List (Nat × CHAIN)) (st : MixLoop),
      (writes_to slot (mix_to_outputs_chains out slot k bs l st).trace).length =
        (writes_to slot st.trace).length +
          (if k = 1 then
            (if 1 ≤ l.countP (fun p => decide (p.2.output_id_repp = some out)) then 1 else 0)
          else if st.count < k ∧
              k ≤ st.count + l.countP (fun p => decide (p.2.output_id_repp = some out))
            then 1 else 0) := by
  intro l
  induction l with
  | nil =>
    intro st
    simp only [mix_to_outputs_chains, List.countP_nil]
    split_ifs <;> omega
  | cons p rest ih =>
    intro st
    obtain ⟨n, c⟩ := p
    by_cases hm : c.output_id_repp = some out
    · have hn : ¬ c.output_id_repp = none := by rw [hm]; simp
      have hM : ((n, c) :: rest).countP (fun p => decide (p.2.output_id_repp = some out))
          = rest.countP (fun p => decide (p.2.output_id_repp = some out)) + 1 :=
        List.countP_cons_of_pos _ _ (by simp [hm])
      simp only [mix_to_outputs_chains]
      rw [if_neg hn, if_pos hm, hM]
      by_cases hk : k = 1
      · rw [if_pos hk, if_pos hk]
        simp [writes_to_append, writes_to]
      · rw [if_neg hk, if_neg hk]
        by_cases hc : st.count + 1 = k
        · rw [if_pos hc, ih, if_neg hk]
          simp only [writes_to_append, writes_to, if_true, List.length_append,
            List.length_cons, List.length_nil]
          split_ifs <;> omega
        · rw [if_neg hc, ih, if_neg hk]
          simp only []
          split_ifs <;> omega
    · have hM : ((n, c) :: rest).countP (fun p => decide (p.2.output_id_repp = some out))
          = rest.countP (fun p => decide (p.2.output_id_repp = some out)) :=
        List.countP_cons_of_neg _ _ (by simp [hm])
      have hstep : mix_to_outputs_chains out slot k bs ((n, c) :: rest) st
          = mix_to_outputs_chains out slot k bs rest st := by
        simp only [mix_to_outputs_chains]
        repeat' split
        all_goals rfl
      rw [hstep, ih, hM]

/-- One round of the output loop, counted in writes to its own slot. -/
theorem mix_step_write_count (e : ECA_PROCESSOR) (slot : Nat) (out : AUDIO_IO) :
    (writes_to slot (mix_to_outputs_step e slot out).trace).length =
      (writes_to slot e.trace).length +
        (if e.output_chain_count.getD slot 0 = 1 then
          (if 1 ≤ number_of_connected_chains_to_output e.csetup.chains out then 1 else 0)
        else if 0 < e.output_chain_count.getD slot 0 ∧
            e.output_chain_count.getD slot 0 ≤
              number_of_connected_chains_to_output e.csetup.chains out
          then 1 else 0) := by
  simp only [mix_to_outputs_step, number_of_connected_chains_to_output]
  have hc : e.csetup.chains.enum.countP
      (fun p : Nat × CHAIN => decide (p.2.output_id_repp = some out))
        = e.csetup.chains.countP (fun c => decide (c.output_id_repp = some out)) :=
    enum_countP (fun c : CHAIN => decide (c.output_id_repp = some out)) e.csetup.chains
  rw [mix_chains_write_count, hc]
  simp only [Nat.zero_add]

/-- The writes to slot `o` in one `mix_to_outputs`, for any count table. -/
theorem mix_to_outputs_write_count (e : ECA_PROCESSOR) (o : Nat) (out : AUDIO_IO)
    (hout : e.csetup.outputs[o]? = some out) :
    (writes_to o (mix_to_outputs e).trace).length =
      (writes_to o e.trace).length +
        (if e.output_chain_count.getD o 0 = 1 then
          (if 1 ≤ number_of_connected_chains_to_output e.csetup.chains out then 1 else 0)
        else if 0 < e.output_chain_count.getD o 0 ∧
            e.output_chain_count.getD o 0 ≤
              number_of_connected_chains_to_output e.csetup.chains out
          then 1 else 0) := by
  obtain ⟨hsplit, hpre, hpost⟩ := enum_split e.csetup.outputs o out hout
  have hw1 := mix_fold_writes_other o (e.csetup.outputs.take o).enum e hpre
  have f2 : ((e.csetup.outputs.take o).enum.foldl
      (fun acc p => mix_to_outputs_step acc p.1 p.2) e).csetup = e.csetup :=
    (congrArg ECA_PROCESSOR.csetup (mix_fold_eq _ e)).trans rfl
  have f3 : ((e.csetup.outputs.take o).enum.foldl
      (fun acc p => mix_to_outputs_step acc p.1 p.2) e).output_chain_count
        = e.output_chain_count :=
    (congrArg ECA_PROCESSOR.output_chain_count (mix_fold_eq _ e)).trans rfl
  simp only [mix_to_outputs]
  rw [hsplit, List.foldl_append, List.foldl_cons, mix_fold_writes_other o _ _ hpost,
    mix_step_write_count, hw1, f2, f3]

/-- C27: in one `mix_to_outputs`, counting the `write_buffer` calls on output slot
`o`: a slot whose `output_chain_count` equals the number of chains connected to it
is written exactly once when that number is at least 1; a slot with no connected
chain is not written; a slot whose `output_chain_count` is at least 2 and larger than the number of
chains connected to it is not written. -/
theorem mix_to_outputs_writes_once (e : ECA_PROCESSOR) (o : Nat) ( out : AUDIO_IO)
    (hout : e.csetup.outputs[o]? = some out) :
    (e.output_chain_count.getD o 0 = number_of_connected_chains_to_output e.csetup.chains out →
      1 ≤ number_of_connected_chains_to_output e.csetup.chains out →
      (writes_to o (mix_to_outputs e).trace).length = (writes_to o e.trace).length + 1) ∧
    (number_of_connected_chains_to_output e.csetup.chains out = 0 →
      (writes_to o (mix_to_outputs e).trace).length = (writes_to o e.trace).length) ∧
    (number_of_connected_chains_to_output e.csetup.chains out < e.output_chain_count.getD o 0 →
      2 ≤ e.output_chain_count.getD o 0 →
      (writes_to o (mix_to_outputs e).trace).length = (writes_to o e.trace).length) := by
  have h := mix_to_outputs_write_count e o out hout
  refine ⟨?_, ?_, ?_⟩
  · intro hk h1
    rw [h]
    split_ifs <;> omega
  · intro h0
    rw [h]
    split_ifs <;> omega
  · intro hlt h2
    rw [h]
    split_ifs <;> omega

/-- Witness for `mix_to_outputs_writes_once`: the two-chain engine writes its
output, fed by both chains, exactly once. -/
theorem mix_to_outputs_writes_once_witness :
    (writes_to 0 (mix_to_outputs two_chain_engine).trace).length
      = (writes_to 0 two_chain_engine.trace).length + 1 :=
  (mix_to_outputs_writes_once two_chain_engine 0 (file_object 3 1) (by decide)).1
    (by decide) (by decide)

/-! ## C25: `input_not_finished` after the input phase -/

theorem inputs_chains_flag (rd : ReadEnv) (inp : AUDIO_IO) (i icc : Nat) (m : SAMPLE_BUFFER) :
    ∀ (l : List (Nat × CHAIN)) (st : ReadLoop),
      (inputs_to_chains_chains rd inp i icc m l st).input_not_finished =
        (st.input_not_finished ||
          (decide (icc = 1) &&
            decide (1 ≤ l.countP (fun p => decide (p.2.input_id_repp = some inp))) &&
            !(rd i).2)) := by
  intro l
  induction l with
  | nil => intro st; simp [inputs_to_chains_chains]
  | cons p rest ih =>
    intro st
    obtain ⟨c, ch⟩ := p
    simp only [inputs_to_chains_chains]
    by_cases hm : ch.input_id_repp = some inp
    · rw [if_pos hm, List.countP_cons_of_pos _ _ (by simp [hm])]
      by_cases hk : icc = 1
      · rw [if_pos hk]
        cases h2 : (rd i).2 <;> simp [hk]
      · rw [if_neg hk, ih]
        simp [hk]
    · rw [if_neg hm, List.countP_cons_of_neg _ _ (by simp [hm]), ih]

/-- One round of the input loop: the flag is raised exactly when the input is read
and reports not finished. -/
theorem inputs_step_flag (rd : ReadEnv) (e : ECA_PROCESSOR) (p : Nat × AUDIO_IO)
    (hicc : e.input_chain_count.getD p.1 0
      = number_of_connected_chains_to_input e.csetup.chains p.2) :
    (inputs_to_chains_step rd e p).input_not_finished =
      (e.input_not_finished ||
        (decide (1 ≤ number_of_connected_chains_to_input e.csetup.chains p.2) &&
          !(rd p.1).2)) := by
  have hc : e.csetup.chains.enum.countP
      (fun q : Nat × CHAIN => decide (q.2.input_id_repp = some p.2))
        = number_of_connected_chains_to_input e.csetup.chains p.2 :=
    enum_countP (fun c : CHAIN => decide (c.input_id_repp = some p.2)) e.csetup.chains
  simp only [inputs_to_chains_step, hicc]
  generalize number_of_connected_chains_to_input e.csetup.chains p.2 = k at hc ⊢
  by_cases h1 : k > 1
  · simp only [if_pos h1]
    rw [inputs_chains_flag]
    have hk1 : k ≠ 1 := by omega
    have hk2 : 1 ≤ k := by omega
    cases h2 : (rd p.1).2 <;> simp [hk1, hk2]
  · simp only [if_neg h1]
    rw [inputs_chains_flag, hc]
    by_cases hk : k = 1
    · simp [hk]
    · have hk0 : ¬ 1 ≤ k := by omega
      simp [hk, hk0]

theorem inputs_step_frame (rd : ReadEnv) (e : ECA_PROCESSOR) (p : Nat × AUDIO_IO) :
    (inputs_to_chains_step rd e p).csetup = e.csetup ∧
      (inputs_to_chains_step rd e p).input_chain_count = e.input_chain_count := by
  simp only [inputs_to_chains_step]
  split <;> exact ⟨rfl, rfl⟩

theorem inputs_fold_flag (rd : ReadEnv) :
    ∀ (l : List (Nat × AUDIO_IO)) (e : ECA_PROCESSOR),
      (∀ p ∈ l, e.input_chain_count.getD p.1 0
        = number_of_connected_chains_to_input e.csetup.chains p.2) →
      ((l.foldl (inputs_to_chains_step rd) e).input_not_finished = true ↔
        e.input_not_finished = true ∨
          ∃ p ∈ l, 1 ≤ number_of_connected_chains_to_input e.csetup.chains p.2 ∧
            (rd p.1).2 = false)
  | [], e, _ => by simp
  | p :: rest, e, h => by
    obtain ⟨f1, f2⟩ := inputs_step_frame rd e p
    have ih := inputs_fold_flag rd rest (inputs_to_chains_step rd e p) (by
      intro q hq
      rw [f1, f2]
      exact h q (List.mem_cons_of_mem _ hq))
    simp only [List.foldl_cons]
    rw [ih, inputs_step_flag rd e p (h p (List.mem_cons_self _ _)), f1]
    simp only [Bool.or_eq_true, Bool.and_eq_true, decide_eq_true_eq, Bool.not_eq_true',
      List.mem_cons, exists_eq_or_imp, or_assoc]

/-- C25, counterexample: with two inputs of which only the first feeds a chain, a
block iteration in which the first input reports finished and the second still
reports not finished leaves `input_not_finished` false. -/
theorem unconnected_input_not_counted :
    spare_input_engine.input_not_finished = false ∧
      spare_input_engine.csetup.inputs[1]? = some (file_object 2 1) ∧
      (first_finished_reads 1).2 = false ∧
      (inputs_to_chains spare_input_engine first_finished_reads).input_not_finished
        = false := by
  decide

/-- C25 (amended): with `input_chain_count` holding for every input the number of
chains reading it, after `inputs_to_chains` entered with `input_not_finished`
false the flag is true exactly when some input that feeds at least one chain
reports not finished after its read. -/
theorem inputs_to_chains_flag (e : ECA_PROCESSOR) (rd : ReadEnv)
    (hinf : e.input_not_finished = false)
    (hcount : ∀ (i : Nat) (inp : AUDIO_IO), e.csetup.inputs[i]? = some inp →
      e.input_chain_count.getD i 0
        = number_of_connected_chains_to_input e.csetup.chains inp) :
    (inputs_to_chains e rd).input_not_finished = true ↔
      ∃ (i : Nat) (inp : AUDIO_IO), e.csetup.inputs[i]? = some inp ∧
        1 ≤ number_of_connected_chains_to_input e.csetup.chains inp ∧
        (rd i).2 = false := by
  unfold inputs_to_chains
  rw [inputs_fold_flag rd _ e (fun p hp =>
    hcount p.1 p.2 (List.mem_enum_iff_getElem?.mp hp)), hinf]
  constructor
  · rintro (h | ⟨p, hp, h1, h2⟩)
    · cases h
    · exact ⟨p.1, p.2, List.mem_enum_iff_getElem?.mp hp, h1, h2⟩
  · rintro ⟨i, inp, hi, h1, h2⟩
    exact Or.inr ⟨(i, inp), List.mem_enum_iff_getElem?.mpr hi, h1, h2⟩

/-- Witness for `inputs_to_chains_flag`: the playback engine reading silence from an
input that is not finished. -/
theorem inputs_to_chains_flag_witness :
    (inputs_to_chains { playback_engine with input_not_finished := false }
        silent_reads).input_not_finished = true ↔
      ∃ (i : Nat) (inp : AUDIO_IO),
        playback_engine.csetup.inputs[i]? = some inp ∧
        1 ≤ number_of_connected_chains_to_input playback_engine.csetup.chains inp ∧
        (silent_reads i).2 = false :=
  inputs_to_chains_flag { playback_engine with input_not_finished := false } silent_reads rfl
    (fun i inp h =>
      (by decide : ∀ p ∈ playback_engine.csetup.inputs.enum,
        playback_engine.input_chain_count.getD p.1 0
          = number_of_connected_chains_to_input playback_engine.csetup.chains p.2)
        (i, inp) (List.mem_enum_iff_getElem?.mpr h))

/-! ## C30: the scan of the MIDI ring terminates -/

theorem forth_get_spec (q : MIDI_IN_QUEUE) (hP : 0 ≤ q.current_put)
    (hPB : q.current_put < q.bufsize) (lo : 0 ≤ q.current_get)
    (hi : q.current_get < q.bufsize)
    (bound : ring_rank q.current_put q.bufsize q.current_get
      ≤ last_rank q.current_put q.bufsize) :
    (q.forth_get).2.current_put = q.current_put ∧
      (q.forth_get).2.bufsize = q.bufsize ∧
      ((q.forth_get).1 = true →
        0 ≤ (q.forth_get).2.current_get ∧ (q.forth_get).2.current_get < q.bufsize ∧
        ring_rank q.current_put q.bufsize (q.forth_get).2.current_get
          = ring_rank q.current_put q.bufsize q.current_get + 1 ∧
        ring_rank q.current_put q.bufsize (q.forth_get).2.current_get
          ≤ last_rank q.current_put q.bufsize) ∧
      ((q.forth_get).1 = false →
        ring_rank q.current_put q.bufsize q.current_get
          = last_rank q.current_put q.bufsize) := by
  unfold MIDI_IN_QUEUE.forth_get
  simp only [ring_rank, last_rank] at bound ⊢
  split_ifs at bound ⊢ <;> dsimp only at * <;> refine ⟨rfl, rfl, ?_, ?_⟩ <;> intro hc <;>
    first
    | (exfalso; revert hc; decide)
    | omega

theorem forth_good (P B : Int) (hP : 0 ≤ P) (hPB : P < B) (s : Scan)
    (h : Scan.Good P B s) :
    ((s.forth).1 = true → Scan.Good P B (s.forth).2 ∧
        s.forth_get_calls < (s.forth).2.forth_get_calls) ∧
      ((s.forth).1 = false → Scan.Done P B (s.forth).2) := by
  obtain ⟨h1, h2, h3, h4, h5, h6, h7⟩ := h
  subst h1 h2
  obtain ⟨g1, g2, g3, g4⟩ := forth_get_spec s.q hP hPB h3 h4 h6
  refine ⟨fun hc => ?_, fun hc => ?_⟩
  · obtain ⟨a1, a2, a3, a4⟩ := g3 hc
    refine ⟨⟨g1, g2, a1, a2, ?_, a4, h7⟩, Nat.lt_succ_self _⟩
    show ((s.forth_get_calls + 1 : Nat) : Int)
      = ring_rank s.q.current_put s.q.bufsize (s.q.forth_get).2.current_get
    rw [a3, ← h5]
    push_cast
    rfl
  · refine ⟨g1, g2, ?_, h7⟩
    show ((s.forth_get_calls + 1 : Nat) : Int) ≤ _
    rw [← g4 hc, ← h5]
    push_cast
    exact Int.le_refl _

theorem log_read_good (P B : Int) (s : Scan) (h : Scan.Good P B s) :
    Scan.Good P B s.log_read := by
  obtain ⟨h1, h2, h3, h4, h5, h6, h7⟩ := h
  refine ⟨h1, h2, h3, h4, h5, h6, ?_⟩
  intro i hi
  rcases List.mem_append.mp hi with hi | hi
  · exact h7 i hi
  · rw [List.mem_singleton.mp hi]
    exact ⟨h3, h4⟩

theorem set_right_good (P B : Int) (s : Scan) (r : Bool) (h : Scan.Good P B s) :
    Scan.Good P B (s.set_right r) := by
  obtain ⟨h1, h2, h3, h4, h5, h6, h7⟩ := h
  exact ⟨h1, h2, h3, h4, h5, h6, h7⟩

theorem take_value_good (P B : Int) (s : Scan) (h : Scan.Good P B s) :
    Scan.Good P B s.take_value := by
  obtain ⟨h1, h2, h3, h4, h5, h6, h7⟩ := h
  exact ⟨h1, h2, h3, h4, h5, h6, h7⟩

/-- One round of the loop calls `forth_get` at least once and keeps the scan in
range, or leaves the loop. -/
theorem scan_body_spec (P B : Int) (hP : 0 ≤ P) (hPB : P < B) (controller channel : ℚ)
    (s : Scan) (h : Scan.Good P B s) :
    ((scan_body controller channel s).1 = true →
        Scan.Good P B (scan_body controller channel s).2 ∧
        s.forth_get_calls < (scan_body controller channel s).2.forth_get_calls) ∧
      ((scan_body controller channel s).1 = false →
        Scan.Done P B (scan_body controller channel s).2) := by
  have hl := log_read_good P B s h
  have hcalls : s.log_read.forth_get_calls = s.forth_get_calls := rfl
  unfold scan_body
  simp only []
  rw [← hcalls]
  generalize s.log_read = t at hl ⊢
  split
  · split
    · exact forth_good P B hP hPB _ (set_right_good P B t _ hl)
    · exact forth_good P B hP hPB _ hl
  · split
    · obtain ⟨f1, f2⟩ := forth_good P B hP hPB t hl
      split
      · split
        · rename_i hf
          exact ⟨fun hc => (by cases hc), fun _ => f2 hf⟩
        · rename_i hf
          have hf' : (t.forth).1 = true := by
            cases hb : (t.forth).1
            · exact absurd hb hf
            · rfl
          obtain ⟨g1, g2⟩ := f1 hf'
          obtain ⟨k1, k2⟩ := forth_good P B hP hPB _ g1
          exact ⟨fun hc => ⟨(k1 hc).1, Nat.lt_trans g2 (k1 hc).2⟩, k2⟩
      · split
        · rename_i hf
          exact ⟨fun hc => (by cases hc), fun _ => f2 hf⟩
        · rename_i hf
          have hf' : (t.forth).1 = true := by
            cases hb : (t.forth).1
            · exact absurd hb hf
            · rfl
          obtain ⟨g1, g2⟩ := f1 hf'
          have gl := log_read_good P B _ g1
          split
          · exact ⟨fun _ => ⟨gl, g2⟩, fun hc => by cases hc⟩
          · obtain ⟨k1, k2⟩ := forth_good P B hP hPB _ (take_value_good P B _ gl)
            exact ⟨fun hc => ⟨(k1 hc).1, Nat.lt_trans g2 (k1 hc).2⟩, k2⟩
    · exact forth_good P B hP hPB _ hl

theorem scan_loop_terminates (P B : Int) (hP : 0 ≤ P) (hPB : P < B)
    (controller channel : ℚ) :
    ∀ (n : Nat) (s : Scan), Scan.Good P B s →
      last_rank P B + 1 - (s.forth_get_calls : Int) ≤ (n : Int) →
      ∃ s', Scan.Done P B s' ∧
        ∀ fuel, n ≤ fuel → scan_loop controller channel fuel s = some s'
  | 0, s, h, hn => by
    have h5 := h.calls
    have h6 := h.bound
    omega
  | n + 1, s, h, hn => by
    obtain ⟨b1, b2⟩ := scan_body_spec P B hP hPB controller channel s h
    cases hb : (scan_body controller channel s).1
    · refine ⟨_, b2 hb, ?_⟩
      intro fuel hfuel
      obtain ⟨f, rfl⟩ : ∃ f, fuel = f + 1 := ⟨fuel - 1, by omega⟩
      simp only [scan_loop, hb]
      rfl
    · obtain ⟨g1, g2⟩ := b1 hb
      obtain ⟨s', d, hs'⟩ := scan_loop_terminates P B hP hPB controller channel n _ g1
        (by push_cast at hn ⊢; omega)
      refine ⟨s', d, ?_⟩
      intro fuel hfuel
      obtain ⟨f, rfl⟩ : ∃ f, fuel = f + 1 := ⟨fuel - 1, by omega⟩
      simp only [scan_loop, hb, if_true]
      exact hs' f (by omega)

/-- The scan of `midi_ring` for controller 7 on channel 0 finds the value 100
after reading the indices 2, 3, 4, 5 and 7 (a byte that is not the controller
number is skipped together with its data byte), with seven `forth_get` calls. -/
theorem midi_ring_scan :
    (midi_ring.update_controller_value 8 7 0).map
        (fun s => (s.value_found, s.q.controller_value, s.forth_get_calls, s.reads))
      = some (true, 100, 7, [2, 3, 4, 5, 7]) := by
  decide

/-- C30: for every queue with `bufsize ≥ 1` and `0 ≤ current_put < bufsize`, whatever
the buffer holds, `update_controller_value` returns (with `bufsize` rounds of fuel
or more, always the same result); its scan calls `forth_get` at most `bufsize`
times, hence at most `2 * bufsize` times, before the `break` that follows a false
`forth_get`, and every buffer index it reads lies in `0..bufsize-1`. -/
theorem update_controller_value_terminates (q : MIDI_IN_QUEUE) (controller channel : ℚ)
    (hB : 1 ≤ q.bufsize) (h0 : 0 ≤ q.current_put) (h1 : q.current_put < q.bufsize) :
    ∃ s, (∀ fuel, q.bufsize.toNat ≤ fuel →
          q.update_controller_value fuel controller channel = some s) ∧
      (s.forth_get_calls : Int) ≤ q.bufsize ∧
      (s.forth_get_calls : Int) ≤ 2 * q.bufsize ∧
      ∀ i ∈ s.reads, 0 ≤ i ∧ i < q.bufsize := by
  have hgood : Scan.Good q.current_put q.bufsize
      { q := { q with current_get := q.current_put }
        value_found := false, value_used := 0, forth_get_calls := 0, reads := [] } := by
    refine ⟨rfl, rfl, h0, h1, ?_, ?_, ?_⟩
    · simp [ring_rank]
    · simp only [ring_rank, last_rank]
      split_ifs <;> omega
    · intro i hi
      cases hi
  obtain ⟨s, d, hs⟩ := scan_loop_terminates q.current_put q.bufsize h0 h1 controller channel
    q.bufsize.toNat _ hgood (by
      simp only [last_rank]
      push_cast
      split_ifs <;> omega)
  have hc := d.calls
  simp only [last_rank] at hc
  refine ⟨s, fun fuel hf => hs fuel hf, ?_, ?_, d.reads⟩
  · split_ifs at hc <;> omega
  · split_ifs at hc <;> omega

/-- Witness for `update_controller_value_terminates`: a ring of eight bytes with
`current_put = 2`, scanned for controller 7 on channel 0. -/
theorem update_controller_value_terminates_witness :
    ∃ s, (∀ fuel, midi_ring.bufsize.toNat ≤ fuel →
          midi_ring.update_controller_value fuel 7 0 = some s) ∧
      (s.forth_get_calls : Int) ≤ midi_ring.bufsize ∧
      (s.forth_get_calls : Int) ≤ 2 * midi_ring.bufsize ∧
      ∀ i ∈ s.reads, 0 ≤ i ∧ i < midi_ring.bufsize :=
  update_controller_value_terminates midi_ring 7 0 (by decide) (by decide) (by decide)

/-! ## Lemmas on `interpret_queue` -/

theorem same_ends_refl (e : ECA_PROCESSOR) : SameEnds e e :=
  ⟨rfl, rfl, rfl, rfl, rfl, rfl, rfl⟩

theorem same_ends_trans {a b c : ECA_PROCESSOR} (h1 : SameEnds a b) (h2 : SameEnds b c) :
    SameEnds a c :=
  ⟨h2.ends.trans h1.ends, h2.multitrack.trans h1.multitrack, h2.active.trans h1.active,
    h2.realtime_inputs.trans h1.realtime_inputs,
    h2.realtime_outputs.trans h1.realtime_outputs, h2.sample_rate.trans h1.sample_rate,
    h2.double_buffering.trans h1.double_buffering⟩

theorem start_returns_congr {a b : ECA_PROCESSOR} (h : SameEnds a b) (env : StartEnv) :
    start_returns b env ↔ start_returns a env := by
  unfold start_returns
  rw [h.multitrack, h.realtime_inputs, h.realtime_outputs, h.sample_rate]

theorem waits_end_congr {a b : ECA_PROCESSOR} (h : SameEnds a b) (env : StartEnv) :
    waits_end b env ↔ waits_end a env := by
  unfold waits_end
  rw [h.double_buffering]

theorem SameEnds.length {a b : ECA_PROCESSOR} (h : SameEnds a b) :
    b.csetup.chains.length = a.csetup.chains.length := by
  have := congrArg List.length h.ends
  simpa using this

theorem stop_active (e : ECA_PROCESSOR) :
    (stop e).active_chain_index = e.active_chain_index := by
  unfold stop
  split <;> rfl

theorem stop_ends (e : ECA_PROCESSOR) : SameEnds e (stop e) :=
  ⟨by rw [(stop_same e).1.chains], (stop_same e).1.multitrack, stop_active e,
    (stop_same e).1.realtime_inputs, (stop_same e).1.realtime_outputs,
    (stop_same e).1.sample_rate, (stop_same e).1.double_buffering⟩

theorem multitrack_fold_active :
    ∀ (l : List (Nat × AUDIO_IO)) (e : ECA_PROCESSOR),
      (l.foldl multitrack_sync_step e).active_chain_index = e.active_chain_index
  | [], _ => rfl
  | p :: rest, e => by
    simp only [List.foldl_cons]
    rw [multitrack_fold_active rest]
    simp only [multitrack_sync_step]
    split <;> rfl

theorem multitrack_sync_active (e : ECA_PROCESSOR) (rd : ReadEnv) (stamp : Int) :
    (multitrack_sync e rd stamp).active_chain_index = e.active_chain_index := by
  unfold multitrack_sync
  simp only []
  rw [multitrack_fold_active]
  exact (congrArg ECA_PROCESSOR.active_chain_index (inputs_fold_eq rd _ e)).trans rfl

theorem start_active (e e' : ECA_PROCESSOR) (env : StartEnv) (hs : start e env = some e') :
    e'.active_chain_index = e.active_chain_index := by
  simp only [start] at hs
  split at hs
  · simp only [Option.some.injEq] at hs
    rw [← hs]
  · split at hs
    · have a1 := multitrack_sync_active
        { e with clock_running := e.realtime_inputs.foldl device_start e.clock_running }
        env.rd1 env.stamp1
      have a2 := multitrack_sync_active
        (multitrack_sync
          { e with clock_running := e.realtime_inputs.foldl device_start e.clock_running }
          env.rd1 env.stamp1) env.rd2 env.stamp2
      have hc := a2.trans a1
      simp only [] at hc
      generalize multitrack_sync
        (multitrack_sync
          { e with clock_running := e.realtime_inputs.foldl device_start e.clock_running }
          env.rd1 env.stamp1) env.rd2 env.stamp2 = e3 at hs hc
      split at hs
      · simp at hs
      · split at hs
        · simp at hs
        · simp only [Option.some.injEq] at hs
          rw [← hs]
          exact hc
    · simp only [Option.some.injEq] at hs
      rw [← hs]

theorem start_ends (e e' : ECA_PROCESSOR) (env : StartEnv) (hs : start e env = some e') :
    SameEnds e e' :=
  ⟨by rw [(start_same e e' env hs).1.chains], (start_same e e' env hs).1.multitrack,
    start_active e e' env hs, (start_same e e' env hs).1.realtime_inputs,
    (start_same e e' env hs).1.realtime_outputs, (start_same e e' env hs).1.sample_rate,
    (start_same e e' env hs).1.double_buffering⟩

/-- When `start()` does not return, the condition `start_returns` fails. -/
theorem start_none_cause (e : ECA_PROCESSOR) (env : StartEnv)
    (hs : start e env = none) : ¬ start_returns e env := by
  intro hr
  simp only [start] at hs
  split at hs
  · cases hs
  · split at hs
    · rename_i hm
      obtain ⟨r1, r2, r3⟩ := hr hm
      obtain ⟨a1, _⟩ := multitrack_sync_same
        { e with clock_running := e.realtime_inputs.foldl device_start e.clock_running }
        env.rd1 env.stamp1
      obtain ⟨b1, _⟩ := multitrack_sync_same
        (multitrack_sync
          { e with clock_running := e.realtime_inputs.foldl device_start e.clock_running }
          env.rd1 env.stamp1) env.rd2 env.stamp2
      obtain ⟨d1, _⟩ := multitrack_sync_stamp
        (multitrack_sync
          { e with clock_running := e.realtime_inputs.foldl device_start e.clock_running }
          env.rd1 env.stamp1) env.rd2 env.stamp2
      have hc := a1.trans b1
      generalize multitrack_sync
        (multitrack_sync
          { e with clock_running := e.realtime_inputs.foldl device_start e.clock_running }
          env.rd1 env.stamp1) env.rd2 env.stamp2 = e3 at hs hc d1
      have hri : e3.realtime_inputs = e.realtime_inputs := hc.realtime_inputs
      have hro : e3.realtime_outputs = e.realtime_outputs := hc.realtime_outputs
      have hrate : e3.csetup.sample_rate = e.csetup.sample_rate := hc.sample_rate
      split at hs
      · rename_i hz
        simp only [hri, hro, List.length_eq_zero] at hz
        rcases hz with hz | hz
        · exact r1 hz
        · exact r2 hz
      · split at hs
        · rename_i hneg
          simp only [d1, hrate] at hneg
          omega
        · cases hs
    · cases hs

theorem conditional_stop_ends (e e' : ECA_PROCESSOR) (env : StartEnv)
    (hs : conditional_stop e env = some e') : SameEnds e e' := by
  unfold conditional_stop at hs
  split at hs
  · simp only [] at hs
    split at hs
    · simp only [Option.some.injEq] at hs
      rw [← hs]
      have h := stop_ends { e with was_running := true }
      exact ⟨h.ends, h.multitrack, h.active, h.realtime_inputs, h.realtime_outputs,
        h.sample_rate, h.double_buffering⟩
    · split at hs
      · simp only [Option.some.injEq] at hs
        rw [← hs]
        exact ⟨rfl, rfl, rfl, rfl, rfl, rfl, rfl⟩
      · cases hs
  · simp only [Option.some.injEq] at hs
    rw [← hs]
    exact ⟨rfl, rfl, rfl, rfl, rfl, rfl, rfl⟩

/-- When `conditional_stop()` does not return, the engine is double buffered and the
proxy server does not answer. -/
theorem conditional_stop_none_cause (e : ECA_PROCESSOR) (env : StartEnv)
    (hs : conditional_stop e env = none) : ¬ waits_end e env := by
  intro hw
  unfold conditional_stop at hs
  split at hs
  · simp only [] at hs
    split at hs
    · cases hs
    · rename_i hdb
      have hd : e.csetup.double_buffering = true := by
        cases h : e.csetup.double_buffering
        · rw [h] at hdb; exact absurd rfl hdb
        · rfl
      rw [(hw hd).1] at hs
      simp at hs
  · cases hs

theorem conditional_start_ends (e e' : ECA_PROCESSOR) (env : StartEnv)
    (hs : conditional_start e env = some e') : SameEnds e e' := by
  unfold conditional_start at hs
  split at hs
  · split at hs
    · exact start_ends e e' env hs
    · split at hs
      · simp only [Option.some.injEq] at hs
        rw [← hs]
        exact same_ends_refl e
      · cases hs
  · simp only [Option.some.injEq] at hs
    rw [← hs]
    exact same_ends_refl e

/-- When `conditional_start()` does not return, `start()` did not (without double
buffering) or the proxy server does not answer (with double buffering). -/
theorem conditional_start_none_cause (e : ECA_PROCESSOR) (env : StartEnv)
    (hs : conditional_start e env = none) :
    ((e.csetup.double_buffering != true) = true ∧ ¬ start_returns e env) ∨
      ((e.csetup.double_buffering != true) = false ∧ ¬ waits_end e env) := by
  unfold conditional_start at hs
  split at hs
  · split at hs
    · rename_i hdb
      exact Or.inl ⟨hdb, start_none_cause e env hs⟩
    · rename_i hdb
      refine Or.inr ⟨by simpa using hdb, fun hw => ?_⟩
      have hd : e.csetup.double_buffering = true := by
        cases h : e.csetup.double_buffering
        · rw [h] at hdb; exact absurd rfl hdb
        · rfl
      rw [(hw hd).2] at hs
      simp at hs
  · cases hs

theorem exec_rel_refl (env : StartEnv) (s : Queue_state) : Exec_rel env s s :=
  ⟨rfl, rfl, same_ends_refl _, ⟨0, by simp⟩, Or.inl rfl⟩

theorem exec_rel_trans {env : StartEnv} {a b c : Queue_state} (h1 : Exec_rel env a b) (h2 : Exec_rel env b c) :
    Exec_rel env a c := by
  obtain ⟨k1, hk1⟩ := h1.accesses
  obtain ⟨k2, hk2⟩ := h2.accesses
  refine ⟨h2.executed.trans h1.executed, h2.queue.trans h1.queue,
    same_ends_trans h1.engine h2.engine, ⟨k1 + k2, ?_⟩, ?_⟩
  · rw [hk2, hk1, h1.engine.active, List.append_assoc, List.replicate_add]
  · rcases h2.fault with h | ⟨h, hl⟩ | ⟨h, hp⟩ | ⟨h, hm⟩ | ⟨h, hw⟩
    · rcases h1.fault with g | g | g | g | g
      · exact Or.inl (h.trans g)
      · exact Or.inr (Or.inl ⟨h.trans g.1, g.2⟩)
      · exact Or.inr (Or.inr (Or.inl ⟨h.trans g.1, g.2⟩))
      · exact Or.inr (Or.inr (Or.inr (Or.inl ⟨h.trans g.1, g.2⟩)))
      · exact Or.inr (Or.inr (Or.inr (Or.inr ⟨h.trans g.1, g.2⟩)))
    · refine Or.inr (Or.inl ⟨?_, ?_⟩)
      · rw [h, h1.engine.active]
      · rw [← h1.engine.length, ← h1.engine.active]
        exact hl
    · refine Or.inr (Or.inr (Or.inl ⟨?_, ?_⟩))
      · rw [h, h1.engine.active]
      · rw [← h1.engine.ends]
        exact hp
    · exact Or.inr (Or.inr (Or.inr (Or.inl
        ⟨h, fun hr => hm ((start_returns_congr h1.engine env).mpr hr)⟩)))
    · exact Or.inr (Or.inr (Or.inr (Or.inr
        ⟨h, fun hr => hw ((waits_end_congr h1.engine env).mpr hr)⟩)))

/-- A step that only replaces the engine by one with the same chain endpoints and
adds calls. -/
theorem Exec_rel.of_engine (env : StartEnv) (s : Queue_state) (e : ECA_PROCESSOR)
    (cs : List Object_call)
    (h : SameEnds s.engine e) : Exec_rel env s { s with engine := e, calls := cs } :=
  ⟨rfl, rfl, h, ⟨0, by simp⟩, Or.inl rfl⟩

theorem Exec_rel.started (env : StartEnv) (s : Queue_state) (r : Option ECA_PROCESSOR)
    (hsome : ∀ e, r = some e → SameEnds s.engine e)
    (hnone : r = none → ¬ start_returns s.engine env) :
    Exec_rel env s (s.started r) := by
  cases r with
  | none => exact ⟨rfl, rfl, same_ends_refl _, ⟨0, by simp [Queue_state.started,
      Queue_state.fail]⟩, Or.inr (Or.inr (Or.inr (Or.inl ⟨rfl, hnone rfl⟩)))⟩
  | some e => exact ⟨rfl, rfl, hsome e rfl, ⟨0, by simp [Queue_state.started]⟩, Or.inl rfl⟩

theorem set_chain_ends (e : ECA_PROCESSOR) (i : Nat) (c c' : CHAIN)
    (hc : e.csetup.chains[i]? = some c) (hends : chain_ends c' = chain_ends c) :
    ({ e with csetup := { e.csetup with chains := e.csetup.chains.set i c' } } :
      ECA_PROCESSOR).csetup.chains.map chain_ends = e.csetup.chains.map chain_ends := by
  show (e.csetup.chains.set i c').map chain_ends = _
  rw [List.map_set, hends]
  apply List.ext_getElem?
  intro j
  by_cases hj : i = j
  · subst hj
    obtain ⟨hi, hci⟩ := List.getElem?_eq_some.mp hc
    rw [List.getElem?_set_self (by simpa using hi), List.getElem?_map, hc]
    rfl
  · rw [List.getElem?_set_ne hj]

theorem chain_toggle_rel (env : StartEnv) (s : Queue_state) (c c' : CHAIN)
    (hc : s.engine.csetup.chains[s.engine.active_chain_index]? = some c)
    (hends : chain_ends c' = chain_ends c) :
    Exec_rel env s (s.access_chain.access_chain.set_chain s.engine.active_chain_index c') :=
  ⟨rfl, rfl, ⟨set_chain_ends s.engine _ c c' hc hends, rfl, rfl, rfl, rfl, rfl, rfl⟩,
    ⟨2, by simp [Queue_state.set_chain, Queue_state.access_chain, List.replicate]⟩, Or.inl rfl⟩

theorem out_of_range_rel (env : StartEnv) (s : Queue_state)
    (hc : s.engine.csetup.chains[s.engine.active_chain_index]? = none) :
    Exec_rel env s (s.access_chain.fail (Fault.chain_out_of_range s.engine.active_chain_index)) :=
  ⟨rfl, rfl, same_ends_refl _, ⟨1, by simp [Queue_state.fail, Queue_state.access_chain]⟩,
    Or.inr (Or.inl ⟨rfl, by simpa using hc⟩)⟩

theorem chain_muting_rel (env : StartEnv) (s : Queue_state) : Exec_rel env s (chain_muting s) := by
  unfold chain_muting
  split
  · rename_i hc
    exact out_of_range_rel env s hc
  · rename_i c hc
    split
    · exact chain_toggle_rel env s c _ hc rfl
    · exact chain_toggle_rel env s c _ hc rfl

theorem chain_processing_rel (env : StartEnv) (s : Queue_state) : Exec_rel env s (chain_processing s) := by
  unfold chain_processing
  split
  · rename_i hc
    exact out_of_range_rel env s hc
  · rename_i c hc
    split
    · exact chain_toggle_rel env s c _ hc rfl
    · exact chain_toggle_rel env s c _ hc rfl

theorem copp_value_rel (env : StartEnv) (value : ℚ) (s : Queue_state) : Exec_rel env s (copp_value value s) := by
  unfold copp_value
  split
  · rename_i hc
    exact out_of_range_rel env s hc
  · split
    · exact ⟨rfl, rfl, same_ends_refl _,
        ⟨3, by simp [Queue_state.call, Queue_state.access_chain, List.replicate]⟩, Or.inl rfl⟩
    · exact ⟨rfl, rfl, same_ends_refl _,
        ⟨1, by simp [Queue_state.access_chain]⟩, Or.inl rfl⟩

theorem seek_chain_endpoints_rel (env : StartEnv) (mk : AUDIO_IO → Object_call)
    (s : Queue_state) :
    Exec_rel env s (seek_chain_endpoints mk s) := by
  unfold seek_chain_endpoints
  split
  · rename_i hc
    exact out_of_range_rel env s hc
  · rename_i c hc
    have hmem : chain_ends c ∈ s.engine.csetup.chains.map chain_ends :=
      List.mem_map.mpr ⟨c, List.mem_iff_getElem?.mpr ⟨_, hc⟩, rfl⟩
    split
    · rename_i hi
      exact ⟨rfl, rfl, same_ends_refl _,
        ⟨1, by simp [Queue_state.fail, Queue_state.access_chain]⟩,
        Or.inr (Or.inr (Or.inl ⟨rfl, chain_ends c, hmem, Or.inl hi⟩))⟩
    · split
      · rename_i ho
        exact ⟨rfl, rfl, same_ends_refl _,
          ⟨2, by simp [Queue_state.fail, Queue_state.call, Queue_state.access_chain,
            List.replicate]⟩,
          Or.inr (Or.inr (Or.inl ⟨rfl, chain_ends c, hmem, Or.inr ho⟩))⟩
      · exact ⟨rfl, rfl, same_ends_refl _,
          ⟨2, by simp [Queue_state.call, Queue_state.access_chain, List.replicate]⟩,
          Or.inl rfl⟩

theorem cond_stop_rel (env : StartEnv) (s : Queue_state) :
    Exec_rel env s (s.cond_stop env) := by
  unfold Queue_state.cond_stop
  split
  · rename_i hn
    exact ⟨rfl, rfl, same_ends_refl _, ⟨0, by simp [Queue_state.fail]⟩,
      Or.inr (Or.inr (Or.inr (Or.inr ⟨rfl, conditional_stop_none_cause _ env hn⟩)))⟩
  · rename_i e he
    exact ⟨rfl, rfl, conditional_stop_ends _ e env he, ⟨0, by simp⟩, Or.inl rfl⟩

theorem cond_start_rel (env : StartEnv) (s : Queue_state) :
    Exec_rel env s (s.cond_start env) := by
  unfold Queue_state.cond_start
  split
  · rename_i hn
    rcases conditional_start_none_cause _ env hn with ⟨hd, hc⟩ | ⟨hd, hc⟩
    · rw [if_pos hd]
      exact ⟨rfl, rfl, same_ends_refl _, ⟨0, by simp [Queue_state.fail]⟩,
        Or.inr (Or.inr (Or.inr (Or.inl ⟨rfl, hc⟩)))⟩
    · rw [if_neg (by rw [hd]; decide)]
      exact ⟨rfl, rfl, same_ends_refl _, ⟨0, by simp [Queue_state.fail]⟩,
        Or.inr (Or.inr (Or.inr (Or.inr ⟨rfl, hc⟩)))⟩
  · rename_i e he
    exact ⟨rfl, rfl, conditional_start_ends _ e env he, ⟨0, by simp⟩, Or.inl rfl⟩

theorem next_rel {env : StartEnv} {s t : Queue_state} (f : Queue_state → Queue_state)
    (h : Exec_rel env s t) (hf : ∀ u, Exec_rel env u (f u)) : Exec_rel env s (t.next f) := by
  unfold Queue_state.next
  split
  · exact exec_rel_trans h (hf t)
  · exact h

theorem set_position_seeks_rel (env : StartEnv) (seconds : ℚ) (s : Queue_state) :
    Exec_rel env s (set_position_seeks seconds s) :=
  ⟨rfl, rfl, ⟨rfl, rfl, rfl, rfl, rfl, rfl, rfl⟩, ⟨0, by simp [set_position_seeks]⟩,
    Or.inl rfl⟩

theorem change_position_seeks_rel (env : StartEnv) (seconds : ℚ) (s : Queue_state) :
    Exec_rel env s (change_position_seeks seconds s) :=
  ⟨rfl, rfl, ⟨rfl, rfl, rfl, rfl, rfl, rfl, rfl⟩, ⟨0, by simp [change_position_seeks]⟩,
    Or.inl rfl⟩

theorem set_position_chain_rel (env : StartEnv) (seconds : ℚ) (s : Queue_state) :
    Exec_rel env s (set_position_chain env seconds s) :=
  next_rel _ (next_rel _ (cond_stop_rel env s) (seek_chain_endpoints_rel env _))
    (cond_start_rel env)

theorem change_position_chain_rel (env : StartEnv) (seconds : ℚ) (s : Queue_state) :
    Exec_rel env s (change_position_chain env seconds s) :=
  next_rel _ (next_rel _ (cond_stop_rel env s) (seek_chain_endpoints_rel env _))
    (cond_start_rel env)

theorem set_position_rel (env : StartEnv) (seconds : ℚ) (s : Queue_state) :
    Exec_rel env s (set_position env seconds s) :=
  next_rel _ (next_rel _ (cond_stop_rel env s) (set_position_seeks_rel env seconds))
    (cond_start_rel env)

theorem change_position_rel (env : StartEnv) (seconds : ℚ) (s : Queue_state) :
    Exec_rel env s (change_position env seconds s) :=
  next_rel _ (next_rel _ (cond_stop_rel env s) (change_position_seeks_rel env seconds))
    (cond_start_rel env)

/-- Every command of the `switch` other than `ep_c_select` keeps the chain
endpoints and the active chain index, and accesses only the active chain. -/
theorem exec_command_rel (env : StartEnv) (item : Queue_command × ℚ) (s : Queue_state)
    (hsel : item.1 ≠ Queue_command.ep_c_select) : Exec_rel env s (exec_command env item s) := by
  obtain ⟨cmd, v⟩ := item
  cases cmd with
  | ep_exit => exact exec_rel_refl env s
  | ep_start =>
    exact Exec_rel.started env s _ (fun e h => start_ends _ e env h)
      (fun h => start_none_cause _ env h)
  | ep_stop => exact Exec_rel.of_engine env s _ s.calls (stop_ends s.engine)
  | ep_c_select => exact absurd rfl hsel
  | ep_c_mute => exact chain_muting_rel env s
  | ep_c_bypass => exact chain_processing_rel env s
  | ep_c_rewind => exact change_position_chain_rel env _ s
  | ep_c_forward => exact change_position_chain_rel env _ s
  | ep_c_setpos => exact set_position_chain_rel env _ s
  | ep_cop_select => exact ⟨rfl, rfl, same_ends_refl _, ⟨0, by simp [exec_command]⟩, Or.inl rfl⟩
  | ep_copp_select => exact ⟨rfl, rfl, same_ends_refl _, ⟨0, by simp [exec_command]⟩, Or.inl rfl⟩
  | ep_copp_value => exact copp_value_rel env v s
  | ep_rewind => exact change_position_rel env _ s
  | ep_forward => exact change_position_rel env _ s
  | ep_setpos => exact set_position_rel env _ s
  | other code => exact exec_rel_refl env s

theorem stop_not_running (e : ECA_PROCESSOR) :
    (stop e).eparams.status ≠ Status.ep_status_running := by
  unfold stop
  split
  · rename_i h
    exact h.1
  · intro h
    cases h

/-- One command of the `switch` keeps the chain indexing in range, leaves the queue
and the executed commands alone, and cannot fault from a safe state. -/
theorem exec_command_step (n : Nat) (envs : Nat → StartEnv) (k : Nat)
    (item : Queue_command × ℚ) (s : Queue_state) (hv : Chains_valid n s)
    (hsel : item.1 = Queue_command.ep_c_select → to_size_t item.2 < n) :
    Chains_valid n (exec_command (envs k) item s) ∧
      (exec_command (envs k) item s).executed = s.executed ∧
      (exec_command (envs k) item s).ecasound_queue = s.ecasound_queue ∧
      (Safe envs s → Safe envs (exec_command (envs k) item s)) ∧
      ((∀ i ∈ s.chain_accesses, i < n) →
        ∀ i ∈ (exec_command (envs k) item s).chain_accesses, i < n) := by
  by_cases hc : item.1 = Queue_command.ep_c_select
  · have hx : exec_command (envs k) item s = c_select item.2 s := by
      obtain ⟨cmd, v⟩ := item
      simp only at hc
      subst hc
      rfl
    rw [hx]
    exact ⟨⟨hv.length, hsel hc, hv.fault⟩, rfl, rfl,
      fun hs => ⟨hs.starts, hs.waits, hs.ends, hs.fault⟩, fun ha => ha⟩
  · have h := exec_command_rel (envs k) item s hc
    obtain ⟨m, hk⟩ := h.accesses
    refine ⟨⟨?_, ?_, ?_⟩, h.executed, h.queue, ?_, ?_⟩
    rotate_right
    · intro ha i hi
      rw [hk] at hi
      rcases List.mem_append.mp hi with hi | hi
      · exact ha i hi
      · rw [List.eq_of_mem_replicate hi]; exact hv.active
    · rw [h.engine.length]; exact hv.length
    · rw [h.engine.active]; exact hv.active
    · intro i hi
      rcases h.fault with g | ⟨_, g⟩ | ⟨g, _⟩ | ⟨g, _⟩ | ⟨g, _⟩
      · exact hv.fault i (g ▸ hi)
      · have := hv.active
        rw [hv.length] at g
        omega
      · rw [g] at hi; cases hi
      · rw [g] at hi; cases hi
      · rw [g] at hi; cases hi
    · intro hs
      refine ⟨fun j => (start_returns_congr h.engine (envs j)).mpr (hs.starts j),
        fun j => (waits_end_congr h.engine (envs j)).mpr (hs.waits j), ?_, ?_⟩
      · rw [h.engine.ends]; exact hs.ends
      · rcases h.fault with g | ⟨_, g⟩ | ⟨_, p, hp, g⟩ | ⟨_, g⟩ | ⟨_, g⟩
        · exact g.trans hs.fault
        · have := hv.active
          rw [hv.length] at g
          omega
        · obtain ⟨g1, g2⟩ := hs.ends p hp
          rcases g with g | g
          · exact absurd g g1
          · exact absurd g g2
        · exact absurd (hs.starts k) g
        · exact absurd (hs.waits k) g

theorem interpret_queue_loop_valid (n : Nat) (envs : Nat → StartEnv) :
    ∀ (q : List (Queue_command × ℚ)) (s : Queue_state), Chains_valid n s →
      (∀ i ∈ s.chain_accesses, i < n) →
      (∀ item ∈ q, item.1 = Queue_command.ep_c_select → to_size_t item.2 < n) →
      Chains_valid n (interpret_queue_loop envs q s) ∧
        ∀ i ∈ (interpret_queue_loop envs q s).chain_accesses, i < n
  | [], s, hv, ha, _ => ⟨hv, ha⟩
  | item :: rest, s, hv, ha, hsel => by
    simp only [interpret_queue_loop]
    split
    · exact ⟨⟨(stop_ends s.engine).length.trans hv.length,
        (stop_active s.engine).trans_lt hv.active, hv.fault⟩, ha⟩
    · obtain ⟨h1, _, _, _, h5⟩ := exec_command_step n envs s.executed.length item s hv
        (hsel item (List.mem_cons_self _ _))
      split
      · exact interpret_queue_loop_valid n envs rest _
          ⟨h1.length, h1.active, h1.fault⟩ (h5 ha)
          (fun it hit => hsel it (List.mem_cons_of_mem _ hit))
      · exact ⟨h1, h5 ha⟩

theorem interpret_queue_loop_safe (n : Nat) (envs : Nat → StartEnv) :
    ∀ (q : List (Queue_command × ℚ)) (s : Queue_state), Chains_valid n s → Safe envs s →
      s.ecasound_queue = q →
      (∀ item ∈ q, item.1 = Queue_command.ep_c_select → to_size_t item.2 < n) →
      (interpret_queue_loop envs q s).fault = none ∧
        (interpret_queue_loop envs q s).ecasound_queue = [] ∧
        (interpret_queue_loop envs q s).executed = s.executed ++
          q.takeWhile (fun item => decide (item.1 ≠ Queue_command.ep_exit)) ∧
        ((∃ item ∈ q, item.1 = Queue_command.ep_exit) →
          (interpret_queue_loop envs q s).engine.end_request = true ∧
          (interpret_queue_loop envs q s).engine.eparams.status
            ≠ Status.ep_status_running ∧
          (interpret_queue_loop envs q s).engine.rt_running = false)
  | [], s, _, hs, hq, _ => by
    refine ⟨hs.fault, hq, by simp [interpret_queue_loop], ?_⟩
    rintro ⟨item, hitem, _⟩
    cases hitem
  | item :: rest, s, hv, hs, _, hsel => by
    simp only [interpret_queue_loop]
    by_cases hx : item.1 = Queue_command.ep_exit
    · rw [if_pos hx]
      refine ⟨hs.fault, rfl, ?_, fun _ => ⟨rfl, stop_not_running s.engine,
        stop_rt_running s.engine⟩⟩
      rw [List.takeWhile_cons_of_neg (by simp [hx])]
      simp [exec_exit]
    · rw [if_neg hx]
      obtain ⟨h1, h2, h3, h4, _⟩ := exec_command_step n envs s.executed.length item s hv
        (hsel item (List.mem_cons_self _ _))
      have h5 := h4 hs
      rw [if_pos h5.fault]
      obtain ⟨r1, r2, r3, r4⟩ := interpret_queue_loop_safe n envs rest
        (pop_front item rest (exec_command (envs s.executed.length) item s))
        ⟨h1.length, h1.active, h1.fault⟩
        ⟨h5.starts, h5.waits, h5.ends, h5.fault⟩ rfl
        (fun it hit => hsel it (List.mem_cons_of_mem _ hit))
      refine ⟨r1, r2, ?_, ?_⟩
      · rw [r3, List.takeWhile_cons_of_pos (by simp [hx])]
        show ((exec_command (envs s.executed.length) item s).executed ++ [item]) ++ _ = _
        rw [h2, List.append_assoc]
        rfl
      · rintro ⟨it, hit, hex⟩
        rcases List.mem_cons.mp hit with rfl | hit
        · exact absurd hex hx
        · exact r4 ⟨it, hit, hex⟩

/-! ## C22: draining the command queue -/

/-- C22, counterexample: queues on which `interpret_queue` does not return with
the queue empty.  In multitrack mode with the clock behind the input stamp,
`ep_start` ends the process in `start()` with both commands still queued, and so
it does in multitrack mode without a realtime input; with `ep_c_select 5` on an
engine with one chain, `ep_c_setpos` indexes the chain vector out of range; on a
chain released from its output `ep_c_setpos` dereferences the null output pointer;
and on a Running engine with double buffering `ep_setpos` stays in the wait loop
of `conditional_stop()` when the proxy server never reports `is_running()`, and in
the one of `conditional_start()` when it never reports `is_full()`. -/
theorem interpret_queue_not_drained :
    ((interpret_queue (fun _ => early_env)
        (queue_state monitor_engine
          [(Queue_command.ep_start, 0), (Queue_command.ep_stop, 0)])).fault
        = some Fault.start_aborted ∧
      (interpret_queue (fun _ => early_env)
        (queue_state monitor_engine
          [(Queue_command.ep_start, 0), (Queue_command.ep_stop, 0)])).ecasound_queue
        = [(Queue_command.ep_start, 0), (Queue_command.ep_stop, 0)] ∧
      (interpret_queue (fun _ => early_env)
        (queue_state monitor_engine
          [(Queue_command.ep_start, 0), (Queue_command.ep_stop, 0)])).executed = []) ∧
    (forced_multitrack_engine.eparams.multitrack_mode_rep = true ∧
      forced_multitrack_engine.realtime_inputs.length = 0 ∧
      (interpret_queue (fun _ => idle_env)
        (queue_state forced_multitrack_engine [(Queue_command.ep_start, 0)])).fault
        = some Fault.start_aborted ∧
      (interpret_queue (fun _ => idle_env)
        (queue_state forced_multitrack_engine [(Queue_command.ep_start, 0)])).ecasound_queue
        = [(Queue_command.ep_start, 0)]) ∧
    ((interpret_queue (fun _ => idle_env)
        (queue_state playback_engine
          [(Queue_command.ep_c_select, 5), (Queue_command.ep_c_setpos, 1),
           (Queue_command.ep_stop, 0)])).fault = some (Fault.chain_out_of_range 5) ∧
      (interpret_queue (fun _ => idle_env)
        (queue_state playback_engine
          [(Queue_command.ep_c_select, 5), (Queue_command.ep_c_setpos, 1),
           (Queue_command.ep_stop, 0)])).ecasound_queue
        = [(Queue_command.ep_c_setpos, 1), (Queue_command.ep_stop, 0)]) ∧
    ((interpret_queue (fun _ => idle_env)
        (queue_state released_engine [(Queue_command.ep_c_setpos, 1)])).fault
        = some (Fault.null_endpoint 0) ∧
      (interpret_queue (fun _ => idle_env)
        (queue_state released_engine [(Queue_command.ep_c_setpos, 1)])).ecasound_queue
        = [(Queue_command.ep_c_setpos, 1)]) ∧
    (buffered_running_engine.eparams.status = Status.ep_status_running ∧
      buffered_running_engine.csetup.double_buffering = true ∧
      (interpret_queue (fun _ => deaf_env)
        (queue_state buffered_running_engine [(Queue_command.ep_setpos, 1)])).fault
        = some Fault.pserver_wait ∧
      (interpret_queue (fun _ => deaf_env)
        (queue_state buffered_running_engine [(Queue_command.ep_setpos, 1)])).ecasound_queue
        = [(Queue_command.ep_setpos, 1)] ∧
      (interpret_queue (fun _ => starved_env)
        (queue_state buffered_running_engine [(Queue_command.ep_setpos, 1)])).fault
        = some Fault.pserver_wait ∧
      (interpret_queue (fun _ => starved_env)
        (queue_state buffered_running_engine [(Queue_command.ep_setpos, 1)])).ecasound_queue
        = [(Queue_command.ep_setpos, 1)]) := by
  decide

/-- C22 (amended): on an engine whose chains all have an input and an output, with
the active chain index and the value of every `ep_c_select` in the queue below the
number of chains, where every `start()` returns (outside multitrack mode always; in
multitrack mode with realtime inputs and outputs and a `sync_fix` that is not
negative) and, under double buffering, the proxy server answers every wait,
`interpret_queue` returns with the queue empty for every finite queue; the commands
before the first `ep_exit` are executed once each in FIFO order and no other
command is; and if an `ep_exit` is present the engine is stopped (status not
Running, `rt_running` false) and `end_request` is set. -/
theorem interpret_queue_drains (envs : Nat → StartEnv) (s : Queue_state)
    (hstart : ∀ n, start_returns s.engine (envs n))
    (hwait : ∀ n, waits_end s.engine (envs n))
    (hends : ∀ c ∈ s.engine.csetup.chains, c.input_id_repp ≠ none ∧ c.output_id_repp ≠ none)
    (hidx : s.engine.active_chain_index < s.engine.csetup.chains.length)
    (hsel : ∀ item ∈ s.ecasound_queue, item.1 = Queue_command.ep_c_select →
      to_size_t item.2 < s.engine.csetup.chains.length)
    (hf : s.fault = none) :
    (interpret_queue envs s).fault = none ∧
      (interpret_queue envs s).ecasound_queue = [] ∧
      (interpret_queue envs s).executed = s.executed ++
        s.ecasound_queue.takeWhile (fun item => decide (item.1 ≠ Queue_command.ep_exit)) ∧
      ((∃ item ∈ s.ecasound_queue, item.1 = Queue_command.ep_exit) →
        (interpret_queue envs s).engine.end_request = true ∧
        (interpret_queue envs s).engine.eparams.status ≠ Status.ep_status_running ∧
        (interpret_queue envs s).engine.rt_running = false) := by
  have hv : Chains_valid s.engine.csetup.chains.length s :=
    ⟨rfl, hidx, fun i hi => by rw [hf] at hi; cases hi⟩
  have hs : Safe envs s := by
    refine ⟨hstart, hwait, ?_, hf⟩
    intro p hp
    obtain ⟨c, hc, rfl⟩ := List.mem_map.mp hp
    exact hends c hc
  exact interpret_queue_loop_safe _ envs s.ecasound_queue s hv hs rfl hsel

theorem monitor_start_returns : start_returns monitor_engine late_env :=
  fun _ => ⟨by decide, by decide, by decide⟩

theorem monitor_waits_end : waits_end monitor_engine late_env :=
  fun hd => absurd hd (by decide)

/-- Witness for `interpret_queue_drains`: the monitoring engine (multitrack mode,
the clock ahead of the input stamp) draining a queue with an `ep_exit` in third
place. -/
theorem interpret_queue_drains_witness :
    (interpret_queue (fun _ => late_env)
        (queue_state monitor_engine
          [(Queue_command.ep_start, 0), (Queue_command.ep_c_mute, 0),
           (Queue_command.ep_exit, 0), (Queue_command.ep_stop, 0)])).fault = none ∧
      (interpret_queue (fun _ => late_env)
        (queue_state monitor_engine
          [(Queue_command.ep_start, 0), (Queue_command.ep_c_mute, 0),
           (Queue_command.ep_exit, 0), (Queue_command.ep_stop, 0)])).ecasound_queue = [] ∧
      (interpret_queue (fun _ => late_env)
        (queue_state monitor_engine
          [(Queue_command.ep_start, 0), (Queue_command.ep_c_mute, 0),
           (Queue_command.ep_exit, 0), (Queue_command.ep_stop, 0)])).executed
        = [(Queue_command.ep_start, 0), (Queue_command.ep_c_mute, 0)] :=
  ⟨(interpret_queue_drains (fun _ => late_env)
      (queue_state monitor_engine
        [(Queue_command.ep_start, 0), (Queue_command.ep_c_mute, 0),
         (Queue_command.ep_exit, 0), (Queue_command.ep_stop, 0)])
      (fun _ => monitor_start_returns) (fun _ => monitor_waits_end)
      (by decide) (by decide) (by decide) rfl).1,
    (interpret_queue_drains (fun _ => late_env)
      (queue_state monitor_engine
        [(Queue_command.ep_start, 0), (Queue_command.ep_c_mute, 0),
         (Queue_command.ep_exit, 0), (Queue_command.ep_stop, 0)])
      (fun _ => monitor_start_returns) (fun _ => monitor_waits_end)
      (by decide) (by decide) (by decide) rfl).2.1,
    (interpret_queue_drains (fun _ => late_env)
      (queue_state monitor_engine
        [(Queue_command.ep_start, 0), (Queue_command.ep_c_mute, 0),
         (Queue_command.ep_exit, 0), (Queue_command.ep_stop, 0)])
      (fun _ => monitor_start_returns) (fun _ => monitor_waits_end)
      (by decide) (by decide) (by decide) rfl).2.2.1⟩

/-- The double product of `set_position`: 0.7 s (the double nearest to it) at
48 kHz is rounded to 33600 samples before the conversion to `long`; the exact
product truncates to 33599. -/
theorem set_position_rounds_product :
    double_to_long (to_double ((6305039478318694 / 9007199254740992 : ℚ) * 48000)) = 33600 ∧
      double_to_long ((6305039478318694 / 9007199254740992 : ℚ) * 48000) = 33599 := by
  decide!

/-! ## C29: the chain index used by the queue commands -/

/-- C29, counterexample: on an engine with one chain, the queue `ep_c_select 5`,
`ep_c_mute` makes `chain_muting` index the chain vector with 5. -/
theorem chain_access_out_of_range :
    playback_engine.csetup.chains.length = 1 ∧
      (interpret_queue (fun _ => idle_env)
        (queue_state playback_engine
          [(Queue_command.ep_c_select, 5), (Queue_command.ep_c_mute, 0)])).chain_accesses
        = [5] ∧
      (interpret_queue (fun _ => idle_env)
        (queue_state playback_engine
          [(Queue_command.ep_c_select, 5), (Queue_command.ep_c_mute, 0)])).fault
        = some (Fault.chain_out_of_range 5) := by
  decide

/-- C29 (amended): when the active chain index on entry and the value of every
queued `ep_c_select` are below the number of chains, every chain access of
`interpret_queue` (in `ep_c_mute`, `ep_c_bypass`, `ep_c_rewind`, `ep_c_forward`,
`ep_c_setpos`, `ep_copp_value`) indexes the chain vector below the number of
chains, and the run never ends on an out-of-range access. -/
theorem chain_accesses_in_range (envs : Nat → StartEnv) (s : Queue_state)
    (hidx : s.engine.active_chain_index < s.engine.csetup.chains.length)
    (hsel : ∀ item ∈ s.ecasound_queue, item.1 = Queue_command.ep_c_select →
      to_size_t item.2 < s.engine.csetup.chains.length)
    (hacc : ∀ i ∈ s.chain_accesses, i < s.engine.csetup.chains.length)
    (hf : s.fault = none) :
    (∀ i ∈ (interpret_queue envs s).chain_accesses, i < s.engine.csetup.chains.length) ∧
      (∀ i, (interpret_queue envs s).fault ≠ some (Fault.chain_out_of_range i)) ∧
      (interpret_queue envs s).engine.csetup.chains.length
        = s.engine.csetup.chains.length := by
  obtain ⟨h1, h2⟩ := interpret_queue_loop_valid s.engine.csetup.chains.length envs
    s.ecasound_queue s ⟨rfl, hidx, fun i hi => by rw [hf] at hi; cases hi⟩ hacc hsel
  exact ⟨h2, h1.fault, h1.length⟩

/-- Witness for `chain_accesses_in_range`: the playback engine selecting its only
chain, then muting and bypassing it. -/
theorem chain_accesses_in_range_witness :
    (interpret_queue (fun _ => idle_env)
        (queue_state playback_engine
          [(Queue_command.ep_c_select, 0), (Queue_command.ep_c_mute, 0),
           (Queue_command.ep_c_bypass, 0)])).engine.csetup.chains.length
        = playback_engine.csetup.chains.length ∧
      ∀ i ∈ (interpret_queue (fun _ => idle_env)
          (queue_state playback_engine
            [(Queue_command.ep_c_select, 0), (Queue_command.ep_c_mute, 0),
             (Queue_command.ep_c_bypass, 0)])).chain_accesses,
        i < playback_engine.csetup.chains.length :=
  ⟨(chain_accesses_in_range (fun _ => idle_env)
      (queue_state playback_engine
        [(Queue_command.ep_c_select, 0), (Queue_command.ep_c_mute, 0),
         (Queue_command.ep_c_bypass, 0)])
      (by decide) (by decide) (by decide) rfl).2.2,
    (chain_accesses_in_range (fun _ => idle_env)
      (queue_state playback_engine
        [(Queue_command.ep_c_select, 0), (Queue_command.ep_c_mute, 0),
         (Queue_command.ep_c_bypass, 0)])
      (by decide) (by decide) (by decide) rfl).1⟩

/-! ## C28: the guard of `ep_copp_value` -/

theorem size_t_sub_one (a : Nat) (ha : a < 18446744073709551616) :
    size_t_sub a 1 = if a = 0 then 18446744073709551615 else a - 1 := by
  unfold size_t_sub
  split <;> omega

/-- C28: when `interpret_queue` handles a queue holding one `ep_copp_value` with an
existing active chain, the chain's `select_chain_operator` and `set_parameter` are
called exactly when `1 ≤ active_chainop_index ≤` the number of chain operators of
that chain; otherwise nothing is called, and in both cases the engine, its chains
included, is left as it was.  For `active_chainop_index = 0` the `size_t`
subtraction `active_chainop_index - 1` is `2^64 - 1` and nothing is called. -/
theorem copp_value_guard (envs : Nat → StartEnv) (s : Queue_state) (c : CHAIN) (value : ℚ)
    (hq : s.ecasound_queue = [(Queue_command.ep_copp_value, value)])
    (hc : s.engine.csetup.chains[s.engine.active_chain_index]? = some c)
    (hidx : s.active_chainop_index < 18446744073709551616)
    (hops : c.chainops_rep.length < 18446744073709551616) :
    (1 ≤ s.active_chainop_index ∧ s.active_chainop_index ≤ c.chainops_rep.length →
      (interpret_queue envs s).calls = s.calls ++
        [Object_call.select_chain_operator s.engine.active_chain_index
            s.active_chainop_index,
          Object_call.set_parameter s.engine.active_chain_index
            s.active_chainop_param_index value]) ∧
    (¬ (1 ≤ s.active_chainop_index ∧ s.active_chainop_index ≤ c.chainops_rep.length) →
      (interpret_queue envs s).calls = s.calls) ∧
    (interpret_queue envs s).engine = s.engine ∧
    (s.active_chainop_index = 0 →
      size_t_sub s.active_chainop_index 1 = 18446744073709551615 ∧
      (interpret_queue envs s).calls = s.calls) := by
  have hsub := size_t_sub_one s.active_chainop_index hidx
  have hx : exec_command (envs s.executed.length) (Queue_command.ep_copp_value, value) s
      = copp_value value s := rfl
  have hcv : copp_value value s =
      if size_t_sub s.active_chainop_index 1 < c.chainops_rep.length then
        (((s.access_chain.access_chain).call
          (Object_call.select_chain_operator s.engine.active_chain_index
            s.active_chainop_index)).access_chain).call
          (Object_call.set_parameter s.engine.active_chain_index
            s.active_chainop_param_index value)
      else s.access_chain := by
    unfold copp_value
    rw [hc]
  have hrun : (interpret_queue envs s).calls = (copp_value value s).calls ∧
      (interpret_queue envs s).engine = (copp_value value s).engine := by
    unfold interpret_queue
    rw [hq]
    simp only [interpret_queue_loop, hx]
    rw [if_neg (by decide)]
    split <;> exact ⟨rfl, rfl⟩
  rw [hrun.1, hrun.2, hcv]
  by_cases h0 : s.active_chainop_index = 0
  · rw [if_pos h0] at hsub
    rw [hsub, if_neg (by omega)]
    refine ⟨fun h => by omega, fun _ => rfl, rfl, fun _ => ⟨rfl, rfl⟩⟩
  · rw [if_neg h0] at hsub
    rw [hsub]
    by_cases hle : s.active_chainop_index ≤ c.chainops_rep.length
    · rw [if_pos (by omega)]
      refine ⟨fun _ => ?_, fun h => absurd ⟨by omega, hle⟩ h, rfl, fun h => absurd h h0⟩
      simp [Queue_state.call, Queue_state.access_chain]
    · rw [if_neg (by omega)]
      exact ⟨fun h => absurd h.2 hle, fun _ => rfl, rfl, fun h => absurd h h0⟩

/-- Witness for `copp_value_guard`: with one operator on the chain and
`active_chainop_index = 1`, the parameter is set. -/
theorem copp_value_guard_witness :
    (interpret_queue (fun _ => idle_env)
        { queue_state operator_engine [(Queue_command.ep_copp_value, 1 / 2)] with
          active_chainop_index := 1 }).calls
      = [Object_call.select_chain_operator 0 1, Object_call.set_parameter 0 0 (1 / 2)] :=
  (copp_value_guard (fun _ => idle_env)
    { queue_state operator_engine [(Queue_command.ep_copp_value, 1 / 2)] with
      active_chainop_index := 1 }
    { plain_chain (file_object 1 1) (device_object 2 1) with chainops_rep := [fun b => b] }
    (1 / 2) rfl rfl (by decide) (by decide)).1 (by decide)

/-! ## C13: frames written by the batch loop -/

end Ecasound
